import Mathlib

/-!
Verification of blikk-sdk: a shallow embedding of the paginated-fetch engine and the date-only type

The development follows `blikk/blikk.go`, `blikk/models.go` and
`dateutils/dateutils.go`.

Conventions of the embedding.

* A Go `error` is modelled by its message (`String`); a `(T, error)` result is an
  `Except String T`.
* The HTTP transport (`http.Client.Do`) is a function from the history of requests
  sent so far (the current request last) to the outcome of the current attempt.  This
  covers every deterministic server, stateful ones included.
* The observable effects of the client (requests sent, durations slept) are recorded in
  a `World` that is threaded through the request functions.
* The two unbounded `for` loops of the source (`retryRequest`, `List`) take a fuel
  argument; `none` means that the fuel ran out before the loop returned.
* Standard-library collaborators whose internals are irrelevant here (`url.Parse`,
  `http.ParseTime`, `time.Now`, `json.Unmarshal`) are parameters.  `strconv.Atoi`,
  `fmt.Sprintf("%d")`, `time.Format`/`time.Parse` for the layout `2006-01-02`,
  `time.Date` and `Time.Date` are modelled concretely.
* A query (`url.Values`) is modelled at the level of decoded keys and values: the
  round trip `Values.Encode` / server-side decoding is not modelled.
* A `time.Time` holds its seconds in 64-bit counts that wrap around: the model keeps
  the seconds since year 1 as an `int64` value, and dates are read, as in package
  `time`, from the `uint64` count of seconds since 1 March of the year -292277022400.
* The time zone database is not part of the source.  `PreviousWeek` and `PreviousMonth`
  take the location that `time.LoadLocation` returns as a parameter; `stockholm` is the
  zone `Europe/Stockholm` as the database describes it.
-/

namespace Blikk

/-! ## Decimal rendering and parsing -/

/-- The ASCII digit for `d < 10`. -/
def digitChar (d : Nat) : Char := Char.ofNat (48 + d)

/-- Decimal digits of `n`, most significant first (`fuel` bounds the number of digits). -/
def natDigits : Nat → Nat → List Char
  | 0, _ => []
  | fuel + 1, n =>
    if n < 10 then [digitChar n] else natDigits fuel (n / 10) ++ [digitChar (n % 10)]

/-- Rendering of a non-negative integer by `fmt.Sprintf("%d", n)` / `"%v"`. -/
def fmtNat (n : Nat) : String := String.mk (natDigits (n + 1) n)

/-- Rendering of a Go `int` by `fmt.Sprintf("%d", n)` / `"%v"`. -/
def fmtInt : Int → String
  | Int.ofNat n => fmtNat n
  | Int.negSucc n => "-" ++ fmtNat (n + 1)

/-- The value of an ASCII digit, `none` for any other character. -/
def digitVal (c : Char) : Option Nat :=
  if 48 ≤ c.toNat ∧ c.toNat ≤ 57 then some (c.toNat - 48) else none

/-- Reads a (possibly empty) run of digits, accumulating onto `acc`. -/
def parseDigits : List Char → Nat → Option Nat
  | [], acc => some acc
  | c :: cs, acc =>
    match digitVal c with
    | some d => parseDigits cs (acc * 10 + d)
    | none => none

/-- Model of `strconv.Atoi` on a 64-bit platform: an optional sign, at least one
digit, nothing else, and a value within the range of `int`. -/
def atoi (s : String) : Option Int :=
  match s.data with
  | [] => none
  | '-' :: cs =>
    if cs = [] then none
    else match parseDigits cs 0 with
      | some n => if n ≤ 2 ^ 63 then some (-(n : Int)) else none
      | none => none
  | '+' :: cs =>
    if cs = [] then none
    else match parseDigits cs 0 with
      | some n => if n < 2 ^ 63 then some (n : Int) else none
      | none => none
  | cs =>
    match parseDigits cs 0 with
    | some n => if n < 2 ^ 63 then some (n : Int) else none
    | none => none

/-- Two's-complement wrap-around of an `int64` result. -/
def wrap64 (x : Int) : Int := (x + 2 ^ 63) % 2 ^ 64 - 2 ^ 63

/-! ## Calendar arithmetic (proleptic Gregorian calendar) -/

/-- Number of days from 0001-01-01 to the civil date `y-m-d`; `m` is in `1..12`,
`d` may be any integer (days outside the month roll over). -/
def daysFromCivil (y m d : Int) : Int :=
  let y1 := if m ≤ 2 then y - 1 else y
  let era := y1 / 400
  let yoe := y1 % 400
  let mp := if m ≤ 2 then m + 9 else m - 3
  let doy := (153 * mp + 2) / 5 + d - 1
  let doe := yoe * 365 + yoe / 4 - yoe / 100 + doy
  era * 146097 + doe - 306

/-- Year of the era (0..399) of the day `doe` (0..146096) of a 400-year era that
starts on 1 March. -/
def yearOfEra (doe : Int) : Int :=
  let c := min (doe / 36524) 3
  let doc := doe - 36524 * c
  let q := doc / 1461
  let yq := min ((doc - 1461 * q) / 365) 3
  100 * c + 4 * q + yq

/-- Day of the year (0 = 1 March) of the day `doe` of an era. -/
def dayOfYear (doe : Int) : Int :=
  doe - (365 * yearOfEra doe + yearOfEra doe / 4 - yearOfEra doe / 100)

/-- Month index (0 = March .. 11 = February) of the day `doy` of a year starting
on 1 March. -/
def monthIndex (doy : Int) : Int := (5 * doy + 2) / 153

/-- Civil date `(year, month, day)` of the day number `z` counted from 0001-01-01. -/
def civilFromDays (z : Int) : Int × Int × Int :=
  let era := (z + 306) / 146097
  let doe := (z + 306) % 146097
  let yoe := yearOfEra doe
  let doy := dayOfYear doe
  let mp := monthIndex doy
  let d := doy - (153 * mp + 2) / 5 + 1
  let m := if mp < 10 then mp + 3 else mp - 9
  (if m ≤ 2 then yoe + era * 400 + 1 else yoe + era * 400, m, d)

/-- Gregorian leap-year rule. -/
def isLeap (y : Int) : Bool := y % 4 = 0 ∧ (y % 100 ≠ 0 ∨ y % 400 = 0)

/-- Number of days of month `m` of year `y` (`time.daysIn`). -/
def daysIn (m y : Int) : Int :=
  if m = 2 then (if isLeap y then 29 else 28)
  else if m = 4 ∨ m = 6 ∨ m = 9 ∨ m = 11 then 30 else 31

/-! ## `time.Time`, `time.Duration` -/

/-- A `*time.Location`: a name and the offset east of UTC, in seconds, in force at
a given instant (seconds since 0001-01-01T00:00:00Z). -/
structure Location where
  name : String
  offsetAt : Int → Int

/-- The location `time.UTC`. -/
def UTC : Location := ⟨"UTC", fun _ => 0⟩

/-- A `time.Time`: an instant (seconds since 0001-01-01T00:00:00Z, which the source
holds in an `int64`, and nanoseconds within the second) presented in a location.  The
monotonic clock reading is not modelled. -/
structure Time where
  sec : Int
  nsec : Nat
  loc : Location

/-- The constant `unixToInternal`: the seconds from 0001-01-01 to 1970-01-01. -/
def unixToInternal : Int := 62135596800

/-- The constant `absoluteYears` of package `time`. -/
def absoluteYears : Int := 292277022400

/-- The days from the absolute zero of package `time`, 1 March of the year
-292277022400, to 0001-01-01: `absoluteYears * 365.2425 + 306`. -/
def absoluteDays : Int := 106751990354238

/-- The constant `internalToAbsolute`, in seconds. -/
def internalToAbsolute : Int := absoluteDays * 86400

/-- The instant `x` (seconds since 0001-01-01) as `time` holds it in an `int64` count
of Unix seconds: the count wraps around. -/
def wrapUnix (x : Int) : Int := wrap64 (x - unixToInternal) + unixToInternal

/-- The zero `time.Time{}`: 0001-01-01T00:00:00Z. -/
def Time.zero : Time := ⟨0, 0, UTC⟩

/-- Model of `Time.IsZero`: the instant is January 1, year 1, 00:00:00 UTC. -/
def Time.IsZero (t : Time) : Bool := t.sec = 0 ∧ t.nsec = 0

/-- The zone offset that the methods of `t` use: `Location.lookup` of `t.unixSec()`,
an `int64`. -/
def Time.offset (t : Time) : Int := t.loc.offsetAt (wrapUnix t.sec)

/-- Model of `Time.absSec`: the seconds on the wall clock of `t` in its location since
the absolute zero, a `uint64`.  An instant before the absolute zero wraps around to
the far future. -/
def Time.abs (t : Time) : Int := (t.sec + t.offset + internalToAbsolute) % 2 ^ 64

/-- Day number (from 0001-01-01) of the calendar day of `t` in its location. -/
def Time.localDay (t : Time) : Int := t.abs / 86400 - absoluteDays

/-- Model of `Time.Date`: year, month and day of `t` in its location. -/
def Time.Date (t : Time) : Int × Int × Int := civilFromDays t.localDay

/-- Model of `Time.Year`. -/
def Time.Year (t : Time) : Int := t.Date.1

/-- Model of `Time.Month` (January = 1). -/
def Time.Month (t : Time) : Int := t.Date.2.1

/-- Model of `Time.Day`. -/
def Time.Day (t : Time) : Int := t.Date.2.2

/-- Model of `Time.After`: the instant `t` is later than the instant `u`. -/
def Time.After (t u : Time) : Bool :=
  u.sec < t.sec ∨ (u.sec = t.sec ∧ u.nsec < t.nsec)

/-- Smallest `time.Duration` (nanoseconds, `int64`). -/
def minDuration : Int := -(2 ^ 63)

/-- Largest `time.Duration`. -/
def maxDuration : Int := 2 ^ 63 - 1

/-- The duration `time.Second`, in nanoseconds. -/
def Second : Int := 1000000000

/-- Model of `Time.Sub`: the difference `t - u` in nanoseconds, saturated to the range
of `time.Duration`. -/
def Time.Sub (t u : Time) : Int :=
  let d := (t.sec - u.sec) * 1000000000 + ((t.nsec : Int) - (u.nsec : Int))
  if d < minDuration then minDuration else if maxDuration < d then maxDuration else d

/-- The duration `time.Hour`, in nanoseconds. -/
def Hour : Int := 3600 * Second

/-- The exact difference `t - u` in nanoseconds, not limited to the range of a
duration. -/
def Time.diffNs (t u : Time) : Int :=
  (t.sec - u.sec) * 1000000000 + ((t.nsec : Int) - (u.nsec : Int))

/-- Model of `Time.In`: the same instant presented in the location `loc`. -/
def Time.In (t : Time) (loc : Location) : Time := ⟨t.sec, t.nsec, loc⟩

/-- Second of the day (0..86399) on the wall clock of `t` in its location. -/
def Time.secondOfDay (t : Time) : Int := t.abs % 86400

/-- Model of `Time.Weekday`: the day of the week of `t` in its location, Sunday = 0,
Monday = 1, ..., Saturday = 6 (0001-01-01 is a Monday). -/
def Time.Weekday (t : Time) : Int := (t.localDay + 1) % 7

/-- Model of `Location.lookup` as used by `time.Date`: the instant at which the wall
clock of `loc` reads `wall` (seconds from 0001-01-01T00:00:00).  `time.Date` looks the
offset up at `wall` taken as UTC, and again at `wall` minus that offset when this falls
in another period of the zone; both cases are the double lookup below.  All three
instants are `int64` counts of Unix seconds.  When the wall time does not exist (it
falls in the gap of a transition) this is still an instant, whose wall clock reads
something else. -/
def Location.resolve (loc : Location) (wall : Int) : Int :=
  wrapUnix (wall - loc.offsetAt (wrapUnix (wall - loc.offsetAt wall)))

/-- Model of `dateToAbsDays` of package `time`: the days from the absolute zero to the
day `day` of the month `month` (1..12) of `year`, in the `uint64` and `uint32`
arithmetic of the library (years counted from March, centuries of 36524.25 days). -/
def dateToAbsDays (year month day : Int) : Int :=
  let janFeb : Int := if month < 3 then 1 else 0
  let amonth := month + 12 * janFeb
  let y := (year - janFeb + absoluteYears) % 2 ^ 64
  let ayday := (979 * amonth - 2919) / 32
  let century := y / 100
  let cyear := y % 100
  let cday := 1461 * cyear / 4
  let centurydays := 146097 * century % 2 ^ 64 / 4
  (centurydays + (cday + ayday + day - 1)) % 2 ^ 64

/-- Model of `time.Date(year, month, day, hour, min, sec, nsec, loc)`: the month is
normalised into the year, the clock fields are added to the seconds of the day count
(which is what their normalisation amounts to in arithmetic modulo `2 ^ 64`), and the
wall time is resolved in `loc`; the result is held in an `int64`. -/
def timeDate (year month day hour min sec nsec : Int) (loc : Location) : Time :=
  ⟨wrap64 (loc.resolve (wrapUnix
      (dateToAbsDays (year + (month - 1) / 12) ((month - 1) % 12 + 1) day * 86400 +
        hour * 3600 + min * 60 + sec + nsec / 1000000000 - internalToAbsolute))),
    (nsec % 1000000000).toNat, loc⟩

/-- Model of `time.Date(y, m, d, 0, 0, 0, 0, time.UTC)`. -/
def dateUTC (y m d : Int) : Time := timeDate y m d 0 0 0 0 UTC

/-- Model of `Time.AddDate`: `time.Date` of the date of `t` with the given numbers
added, the clock of `t` and the location of `t`. -/
def Time.AddDate (t : Time) (years months days : Int) : Time :=
  timeDate (t.Year + years) (t.Month + months) (t.Day + days)
    (t.secondOfDay / 3600) (t.secondOfDay % 3600 / 60) (t.secondOfDay % 60) t.nsec t.loc

/-! ## The zone `Europe/Stockholm` -/

/-- Day number of the last Sunday on or before the day `z`. -/
def sundayOnOrBefore (z : Int) : Int := z - (z + 1) % 7

/-- Day number of the first Sunday on or after the day `z`. -/
def sundayOnOrAfter (z : Int) : Int := z + (6 - z % 7) % 7

/-- Whether the rules `EU` of the time zone database put the day `d` in summer time,
a day being counted from 01:00 UTC to 01:00 UTC, the time of day of all transitions:
in 1980 from the first Sunday of April, from 1981 from the last Sunday of March; until
1995 to the last Sunday of September, from 1996 to the last Sunday of October. -/
def euSummer (d : Int) : Bool :=
  let y := (civilFromDays d).1
  let start := if y ≤ 1980 then sundayOnOrAfter (daysFromCivil y 4 1)
    else sundayOnOrBefore (daysFromCivil y 3 31)
  let stop := if y ≤ 1995 then sundayOnOrBefore (daysFromCivil y 9 30)
    else sundayOnOrBefore (daysFromCivil y 10 31)
  start ≤ d ∧ d < stop

/-- The offset of `Europe/Stockholm` at the instant `s`, after the zone of that name
in the time zone database: local mean time (1:12:12) until 1879, Swedish time
(1:00:14) until 1900, then CET, with summer time from 14 May 1916 23:00 to 1 October
1916 01:00 and, from 1980, by the rules `EU`. -/
def stockholmOffset (s : Int) : Int :=
  if s < daysFromCivil 1879 1 1 * 86400 - 4332 then 4332
  else if s < daysFromCivil 1900 1 1 * 86400 - 3614 then 3614
  else if s < daysFromCivil 1916 5 14 * 86400 + 23 * 3600 - 3600 then 3600
  else if s < daysFromCivil 1916 10 1 * 86400 + 3600 - 7200 then 7200
  else if s < daysFromCivil 1980 1 1 * 86400 - 3600 then 3600
  else if euSummer ((s - 3600) / 86400) then 7200 else 3600

/-- The location that `time.LoadLocation("Europe/Stockholm")` returns. -/
def stockholm : Location := ⟨"Europe/Stockholm", stockholmOffset⟩

/-! ## The layout `time.DateOnly` (`"2006-01-02"`) -/

/-- Decimal digits of `n`, zero-padded on the left to at least `width` digits. -/
def padDigits (width n : Nat) : List Char :=
  List.replicate (width - (natDigits (n + 1) n).length) '0' ++ natDigits (n + 1) n

/-- Model of `time.appendInt`: a minus sign for a negative value, then the
zero-padded magnitude. -/
def appendInt (x : Int) (width : Nat) : List Char :=
  if x < 0 then '-' :: padDigits width x.natAbs else padDigits width x.natAbs

/-- Rendering of a civil date under the layout `2006-01-02`. -/
def formatCivil (y m d : Int) : String :=
  String.mk (appendInt y 4 ++ '-' :: (appendInt m 2 ++ '-' :: appendInt d 2))

/-- Model of `t.Format(time.DateOnly)`. -/
def Time.FormatDateOnly (t : Time) : String :=
  formatCivil t.Date.1 t.Date.2.1 t.Date.2.2

/-- Model of `time.Parse(time.DateOnly, s)`: exactly four digits, `-`, two digits,
`-`, two digits; the month must be in `1..12` and the day must exist in that month.
The result is `time.Date(year, month, day, 0, 0, 0, 0, time.UTC)`. -/
def parseDateOnly (s : String) : Except String Time :=
  match s.data with
  | [y1, y2, y3, y4, '-', m1, m2, '-', d1, d2] =>
    match digitVal y1, digitVal y2, digitVal y3, digitVal y4,
        digitVal m1, digitVal m2, digitVal d1, digitVal d2 with
    | some a, some b, some c, some d, some e, some f, some g, some h =>
      let year : Int := ((a * 1000 + b * 100 + c * 10 + d : Nat) : Int)
      let month : Int := ((e * 10 + f : Nat) : Int)
      let day : Int := ((g * 10 + h : Nat) : Int)
      if month ≤ 0 ∨ 12 < month then
        Except.error ("parsing time " ++ s ++ ": month out of range")
      else if day < 1 ∨ daysIn month year < day then
        Except.error ("parsing time " ++ s ++ ": day out of range")
      else Except.ok (dateUTC year month day)
    | _, _, _, _, _, _, _, _ => Except.error ("parsing time " ++ s ++ ": cannot parse")
  | _ => Except.error ("parsing time " ++ s ++ ": cannot parse")

/-! ## `dateutils.DateOnly` -/

/-- Source type `DateOnly`: a struct embedding a `time.Time`. -/
structure DateOnly where
  toTime : Time

/-- Model of `strings.Trim(s, "\"")`: all leading and trailing double quotes are
removed. -/
def trimQuotes (cs : List Char) : List Char :=
  ((cs.dropWhile (fun c => c == '"')).reverse.dropWhile (fun c => c == '"')).reverse

/-- Source function `(*DateOnly).UnmarshalJSON`.  The receiver is overwritten
without being read, so the model returns its new value. -/
def DateOnly.UnmarshalJSON (b : String) : Except String DateOnly :=
  let s := String.mk (trimQuotes b.data)
  if s = "null" then Except.ok ⟨Time.zero⟩
  else match parseDateOnly s with
    | Except.ok t => Except.ok ⟨t⟩
    | Except.error e => Except.error e

/-- Source function `DateOnly.MarshalJSON`. -/
def DateOnly.MarshalJSON (d : DateOnly) : Except String String :=
  if d.toTime.IsZero then Except.ok "null"
  else Except.ok ("\"" ++ d.toTime.FormatDateOnly ++ "\"")

/-- Source function `PreviousWeek`, for the argument `t` (without an argument the
source takes `time.Now()`); `loc` is what `time.LoadLocation("Europe/Stockholm")`
returned (the source exits when that fails). -/
def PreviousWeek (loc : Location) (t : Time) : DateOnly × DateOnly :=
  let now := t.In loc
  let weekday := if now.Weekday = 0 then 7 else now.Weekday
  let offset := 1 - weekday
  let mostRecentMonday := now.AddDate 0 0 offset
  let previousMonday := mostRecentMonday.AddDate 0 0 (-7)
  let previousSunday := previousMonday.AddDate 0 0 6
  (⟨timeDate previousMonday.Year previousMonday.Month previousMonday.Day 0 0 0 0 loc⟩,
    ⟨timeDate previousSunday.Year previousSunday.Month previousSunday.Day 0 0 0 0 loc⟩)

/-- Source function `PreviousMonth`, for the argument `t`; `loc` as in
`PreviousWeek`. -/
def PreviousMonth (loc : Location) (t : Time) : DateOnly × DateOnly :=
  let now := t.In loc
  let firstDayCurrentMonth := timeDate now.Year now.Month 1 0 0 0 0 loc
  let lastDayPreviousMonth := firstDayCurrentMonth.AddDate 0 0 (-1)
  let firstDayPreviousMonth :=
    timeDate lastDayPreviousMonth.Year lastDayPreviousMonth.Month 1 0 0 0 0 loc
  (⟨firstDayPreviousMonth⟩, ⟨lastDayPreviousMonth⟩)

/-- Source function `FirstDayOfMonth`. -/
def FirstDayOfMonth (year month : Int) : DateOnly := ⟨timeDate year month 1 0 0 0 0 UTC⟩

/-- Source function `LastDayOfMonth`. -/
def LastDayOfMonth (year month : Int) : DateOnly :=
  ⟨timeDate year (month + 1) 0 0 0 0 0 UTC⟩

/-! ## `blikk/models.go` -/

/-- Source type `ListOptions`.  `Page` and `PageSize` are Go `int`s; `UserIDs` is a
slice of `uint16`, `none` being the nil slice and `some []` an empty non-nil slice;
`FromDate` and `ToDate` are pointers, `none` being nil. -/
structure ListOptions where
  Page : Int
  PageSize : Int
  UserIDs : Option (List (Fin 65536))
  FromDate : Option DateOnly
  ToDate : Option DateOnly

/-- Source function `NewListOptions`. -/
def NewListOptions : ListOptions := ⟨1, 100, none, none, none⟩

/-- Model of `len(options.UserIDs)`. -/
def ListOptions.lenUserIDs (o : ListOptions) : Nat :=
  match o.UserIDs with
  | none => 0
  | some ids => ids.length

/-- Source interface `ListItem`, together with the name that `%T` prints for the
implementing type. -/
structure ListItem where
  typeName : String
  path : String
  validFilter : ListOptions → Bool

/-- Source type `ListResponse[T]`: the paginated envelope. -/
structure ListResponse (α : Type) where
  ObjectName : String
  Page : Int
  PageSize : Int
  ItemCount : Int
  TotalItemCount : Int
  TotalPages : Int
  Items : List α

/-- Source type `Users` as a `ListItem`: `path` and `validFilter`. -/
def Users : ListItem where
  typeName := "blikk.Users"
  path := "v1/Admin/Users"
  validFilter := fun options =>
    if 0 < options.lenUserIDs ∨ options.FromDate.isSome ∨ options.ToDate.isSome then false
    else true

/-- Source type `TimeReports` as a `ListItem`: `path` and `validFilter`. -/
def TimeReports : ListItem where
  typeName := "blikk.TimeReports"
  path := "v1/Core/TimeReports"
  validFilter := fun options =>
    match options.FromDate, options.ToDate with
    | some fromDate, some toDate => if fromDate.toTime.After toDate.toTime then false else true
    | _, _ => true

/-- Source type `UserDayStatistics` as a `ListItem`: `path` and `validFilter`. -/
def UserDayStatistics : ListItem where
  typeName := "blikk.UserDayStatistics"
  path := "v1/Core/TimeReports/UserDayStatistics"
  validFilter := fun options =>
    match options.FromDate, options.ToDate with
    | some fromDate, some toDate =>
      if fromDate.toTime.After toDate.toTime then false
      else if toDate.toTime.Sub fromDate.toTime > 31 * 24 * Hour then false
      else true
    | _, _ => true

/-- Source type `Projects` as a `ListItem`: `path` and `validFilter`. -/
def Projects : ListItem where
  typeName := "blikk.Projects"
  path := "v1/Core/Projects"
  validFilter := fun options =>
    if 0 < options.lenUserIDs ∨ options.FromDate.isSome ∨ options.ToDate.isSome then false
    else true

/-- Source interface `GetItem`. -/
structure GetItem where
  path : String → String

/-- Source type `User` as a `GetItem`. -/
def User : GetItem where
  path := fun query => "v1/Admin/Users/" ++ query

/-! ## URLs, requests, responses, the transport -/

/-- Model of `url.Values`: the list of values stored under each key. -/
abbrev Values := String → Option (List String)

/-- Model of `Values.Set`: replaces whatever is stored under `key` by the single
value `value`. -/
def Values.set (q : Values) (key value : String) : Values :=
  fun k => if k = key then some [value] else q k

/-- The empty `url.Values`. -/
def Values.empty : Values := fun _ => none

/-- Model of a parsed `*url.URL`: everything but the query (`rest`) and the query. -/
structure URL where
  rest : String
  query : Values

/-- An outgoing `GET` request: its URL and its `Authorization` header. -/
structure Request where
  url : URL
  authorization : String

/-- An HTTP response as the client sees it: status code, `Retry-After` header (the
empty string when absent), the body bytes that could be read and the error of
`io.ReadAll`, if any. -/
structure Response where
  StatusCode : Int
  RetryAfter : String
  Body : String
  readErr : Option String

/-- Model of `http.Client.Do`: the outcome of the current attempt, given all the
requests sent so far (the current one last). -/
abbrev Transport := List Request → Except String Response

/-- Source type `Client`. -/
structure Client where
  baseURL : String
  token : String
  httpClient : Transport

/-- The standard-library collaborators that are left abstract: `url.Parse`,
`http.ParseTime`, and `time.Now` (the reading taken after the given number of
requests). -/
structure Env where
  parseURL : String → Except String URL
  parseHTTPTime : String → Option Time
  now : Nat → Time

/-- What the client has done to the outside world: the requests it sent and the
durations (nanoseconds) it slept, both in order. -/
structure World where
  requests : List Request
  sleeps : List Int

/-! ## `blikk/blikk.go` -/

/-- The wait computed by `retryRequest` on a 429 response (source lines 238-251),
in nanoseconds, from the `Retry-After` header and the current time. -/
def retryWait (env : Env) (now : Time) (retryAfter : String) : Int :=
  let waitDuration : Int :=
    if retryAfter ≠ "" then
      match atoi retryAfter with
      | some seconds => wrap64 (seconds * Second)
      | none =>
        match env.parseHTTPTime retryAfter with
        | some d => d.Sub now
        | none => Second
    else Second
  if waitDuration < 0 then Second else waitDuration

/-- Source function `(*Client).retryRequest`. -/
def Client.retryRequest (c : Client) (env : Env) (req : Request) :
    Nat → World → Option (Except String Response × World)
  | 0, _ => none
  | fuel + 1, w =>
    let w1 : World := ⟨w.requests ++ [req], w.sleeps⟩
    match c.httpClient w1.requests with
    | Except.error err => some (Except.error err, w1)
    | Except.ok resp =>
      if resp.StatusCode = 429 then
        Client.retryRequest c env req fuel
          ⟨w1.requests, w1.sleeps ++ [retryWait env (env.now w1.requests.length) resp.RetryAfter]⟩
      else some (Except.ok resp, w1)

/-- Source function `(*Client).doGetRequest`.  `http.NewRequest` cannot fail on the
string of a parsed URL, so that branch is not modelled. -/
def Client.doGetRequest (c : Client) (env : Env) (u : URL) (fuel : Nat) (w : World) :
    Option (Except String String × World) :=
  match c.retryRequest env ⟨u, "Bearer " ++ c.token⟩ fuel w with
  | none => none
  | some (Except.error err, w1) => some (Except.error err, w1)
  | some (Except.ok resp, w1) =>
    if resp.StatusCode ≠ 200 then
      some (Except.error
        ("unexpected status code " ++ fmtInt resp.StatusCode ++ ": " ++ resp.Body), w1)
    else match resp.readErr with
      | some err => some (Except.error ("failed to read response body: " ++ err), w1)
      | none => some (Except.ok resp.Body, w1)

/-- Model of `strings.Join(values, ",")`. -/
def joinComma (values : List String) : String := String.intercalate "," values

/-- The query-building loop of `List` (source lines 126-153), unrolled over the five
tagged fields of `ListOptions` in declaration order. -/
def buildQuery (q : Values) (options : ListOptions) : Values :=
  let q := if options.Page = 0 then q else q.set "page" (fmtInt options.Page)
  let q := if options.PageSize = 0 then q else q.set "pageSize" (fmtInt options.PageSize)
  let q := match options.UserIDs with
    | none => q
    | some ids => q.set "filter.userIds" (joinComma (ids.map fun i => fmtNat i.val))
  let q := match options.FromDate with
    | none => q
    | some date => q.set "filter.from" date.toTime.FormatDateOnly
  match options.ToDate with
  | none => q
  | some date => q.set "filter.to" date.toTime.FormatDateOnly

/-- The paging loop of `List` (source lines 157-179): `q` is the current query,
`items` the items accumulated so far. -/
def listLoop {α : Type} (c : Client) (env : Env)
    (decode : String → Except String (ListResponse α)) (u : URL) :
    Nat → Values → List α → World → Option (Except String (List α) × World)
  | 0, _, _, _ => none
  | fuel + 1, q, items, w =>
    match c.doGetRequest env ⟨u.rest, q⟩ (fuel + 1) w with
    | none => none
    | some (Except.error err, w1) => some (Except.error err, w1)
    | some (Except.ok body, w1) =>
      match decode body with
      | Except.error err => some (Except.error ("failed to unmarshal response: " ++ err), w1)
      | Except.ok response =>
        if response.Page ≥ response.TotalPages then some (Except.ok (items ++ response.Items), w1)
        else
          listLoop c env decode u fuel (q.set "page" (fmtInt (response.Page + 1)))
            (items ++ response.Items) w1

/-- Source function `List[T]`, named after its first argument, the client; `decode`
is `json.Unmarshal` into `ListResponse[T]`. -/
def Client.List {α : Type} (c : Client) (env : Env) (T : ListItem)
    (decode : String → Except String (ListResponse α)) (options : ListOptions)
    (fuel : Nat) (w : World) : Option (Except String (List α) × World) :=
  if ¬ T.validFilter options then
    some (Except.error ("invalid filter options for " ++ T.typeName), w)
  else match env.parseURL (c.baseURL ++ T.path) with
    | Except.error err => some (Except.error ("invalid base URL: " ++ err), w)
    | Except.ok u => listLoop c env decode u fuel (buildQuery u.query options) [] w

/-- Source function `Get[T]`, named after its first argument, the client; `decode` is
`json.Unmarshal` into `T`. -/
def Client.Get {α : Type} (c : Client) (env : Env) (T : GetItem)
    (decode : String → Except String α) (query : String) (fuel : Nat) (w : World) :
    Option (Except String α × World) :=
  match env.parseURL (c.baseURL ++ T.path query) with
  | Except.error err => some (Except.error ("invalid base URL: " ++ err), w)
  | Except.ok u =>
    match c.doGetRequest env u fuel w with
    | none => none
    | some (Except.error err, w1) => some (Except.error err, w1)
    | some (Except.ok body, w1) =>
      match decode body with
      | Except.error err => some (Except.error ("failed to unmarshal response: " ++ err), w1)
      | Except.ok item => some (Except.ok item, w1)

/-! ## Auxiliary definitions for the statements -/

/-- The sleeps of `k` consecutive rate-limited attempts that start after `n` earlier
requests, the `i`-th answered by `resps i`. -/
def retrySleeps (env : Env) (resps : Nat → Response) (n : Nat) : Nat → List Int
  | 0 => []
  | k + 1 => retryWait env (env.now (n + 1)) (resps 0).RetryAfter ::
      retrySleeps env (fun i => resps (i + 1)) (n + 1) k

/-- A `url.Parse` that accepts every string and finds no query in it. -/
def exampleEnv : Env where
  parseURL := fun s => Except.ok ⟨s, Values.empty⟩
  parseHTTPTime := fun _ => none
  now := fun _ => Time.zero

/-- A decoder for envelopes of numbers that knows three bodies: `p1` and `p2`, the
two pages of a two-page listing, and `single`, a one-page listing. -/
def exampleDecode (body : String) : Except String (ListResponse Nat) :=
  if body = "p1" then Except.ok ⟨"list", 1, 100, 1, 2, 2, [1]⟩
  else if body = "p2" then Except.ok ⟨"list", 2, 100, 1, 2, 2, [2]⟩
  else if body = "single" then Except.ok ⟨"list", 1, 100, 1, 1, 1, [7]⟩
  else Except.error "unexpected end of JSON input"

/-- A server with two pages: it answers `page=1` with body `p1` and `page=2` with
body `p2`. -/
def twoPageServer : Transport := fun history =>
  match history.getLast? with
  | none => Except.error "no request"
  | some r =>
    if r.url.query "page" = some ["1"] then Except.ok ⟨200, "", "p1", none⟩
    else if r.url.query "page" = some ["2"] then Except.ok ⟨200, "", "p2", none⟩
    else Except.error "connection refused"

/-- The items of the two pages of `twoPageServer`. -/
def twoPageItems (i : Nat) : List Nat := if i = 1 then [1] else [2]

/-- A server that answers the first attempt with 429 and `Retry-After: 1`, and every
later attempt with 200 and the body `single`. -/
def rateLimitedServer : Transport := fun history =>
  if history.length = 1 then Except.ok ⟨429, "1", "", none⟩
  else Except.ok ⟨200, "", "single", none⟩

/-- A server that answers every attempt with 200 and the body `single`. -/
def singlePageServer : Transport := fun _ => Except.ok ⟨200, "", "single", none⟩

/-- A decoder for a single resource (a number) that knows the body `single`. -/
def exampleDecodeItem (body : String) : Except String Nat :=
  if body = "single" then Except.ok 1 else Except.error "unexpected end of JSON input"

/-- A server that answers `page=1` with the first page of two and every other request
with a truncated body. -/
def truncatedSecondPageServer : Transport := fun history =>
  match history.getLast? with
  | none => Except.error "no request"
  | some r =>
    if r.url.query "page" = some ["1"] then Except.ok ⟨200, "", "p1", none⟩
    else Except.ok ⟨200, "", "truncated", none⟩

/-- A server that answers every attempt with 500 and the body
`internal server error`. -/
def failingServer : Transport := fun _ =>
  Except.ok ⟨500, "", "internal server error", none⟩

/-- A server that answers every attempt with 200 and a truncated body. -/
def badJSONServer : Transport := fun _ =>
  Except.ok ⟨200, "", "truncated", none⟩

/-- The rendering `YYYY-MM-DD` in the spec's words: a four-digit year, a two-digit
month and a two-digit day, each zero-padded, separated by hyphens. -/
def specYMD (y m d : Nat) : String :=
  String.mk [digitChar (y / 1000 % 10), digitChar (y / 100 % 10), digitChar (y / 10 % 10),
    digitChar (y % 10), '-', digitChar (m / 10 % 10), digitChar (m % 10), '-',
    digitChar (d / 10 % 10), digitChar (d % 10)]

/-! ## The chain of requests of a run of `List` -/

/-- How a request `b` may follow the request `a` in a run of `List`, `hist` being the
requests sent before `a`: the response to `a` is a 429 and `b` is `a` sent again, or
the response to `a` is a 200 whose body decodes to an envelope `e` that is not the
last page, and `b` is `a` with the query parameter `page` overwritten by
`e.Page + 1`. -/
def NextRequest {α : Type} (c : Client) (decode : String → Except String (ListResponse α))
    (hist : List Request) (a b : Request) : Prop :=
  match c.httpClient (hist ++ [a]) with
  | Except.ok r =>
    (r.StatusCode = 429 ∧ b = a) ∨
    (r.StatusCode = 200 ∧ r.readErr = none ∧ ∃ e, decode r.Body = Except.ok e ∧
      e.Page < e.TotalPages ∧
      b = ⟨⟨a.url.rest, a.url.query.set "page" (fmtInt (e.Page + 1))⟩, a.authorization⟩)
  | Except.error _ => False

/-- Every request of the list but the first follows its predecessor as `NextRequest`
says, `hist` being the requests sent before the list. -/
def RequestChain {α : Type} (c : Client) (decode : String → Except String (ListResponse α)) :
    List Request → List Request → Prop
  | _, [] => True
  | _, [_] => True
  | hist, a :: b :: rest =>
    NextRequest c decode hist a b ∧ RequestChain c decode (hist ++ [a]) (b :: rest)

/-- The server `twoPageServer` behind a rate limiter: the very first attempt is
answered with 429 and `Retry-After: 1`. -/
def rateLimitedTwoPageServer : Transport := fun history =>
  if history.length = 1 then Except.ok ⟨429, "1", "", none⟩ else twoPageServer history

/-! ## Calendar lemmas -/

theorem yearOfEra_bounds (doe : Int) (h0 : 0 ≤ doe) (h1 : doe < 146097) :
    0 ≤ yearOfEra doe ∧ yearOfEra doe ≤ 399 := by
  simp only [yearOfEra]
  omega

theorem dayOfYear_bounds (doe : Int) (h0 : 0 ≤ doe) (h1 : doe < 146097) :
    0 ≤ dayOfYear doe ∧ dayOfYear doe ≤ 365 ∧
      (dayOfYear doe = 365 →
        (yearOfEra doe + 1) % 4 = 0 ∧ ((yearOfEra doe + 1) % 100 ≠ 0 ∨ yearOfEra doe = 399)) := by
  simp only [dayOfYear, yearOfEra]
  generalize hc : min (doe / 36524) 3 = c
  generalize hq : (doe - 36524 * c) / 1461 = q
  generalize hyq : min ((doe - 36524 * c - 1461 * q) / 365) 3 = yq
  have hc3 : c = 0 ∨ c = 1 ∨ c = 2 ∨ c = 3 := by omega
  have hy3 : yq = 0 ∨ yq = 1 ∨ yq = 2 ∨ yq = 3 := by omega
  rcases hc3 with h | h | h | h <;> rcases hy3 with k | k | k | k <;> subst h <;> subst k <;> omega

theorem dayOfYear_spec (doe : Int) :
    doe = yearOfEra doe * 365 + yearOfEra doe / 4 - yearOfEra doe / 100 + dayOfYear doe := by
  unfold dayOfYear
  omega

theorem monthIndex_bounds (doy : Int) (h0 : 0 ≤ doy) (h1 : doy ≤ 365) :
    0 ≤ monthIndex doy ∧ monthIndex doy ≤ 11 := by
  unfold monthIndex
  omega

/-- Converting a day number to a civil date and back gives the day number. -/
theorem daysFromCivil_civilFromDays (z : Int) :
    daysFromCivil (civilFromDays z).1 (civilFromDays z).2.1 (civilFromDays z).2.2 = z := by
  have h0 : 0 ≤ (z + 306) % 146097 := Int.emod_nonneg _ (by decide)
  have h1 : (z + 306) % 146097 < 146097 := Int.emod_lt_of_pos _ (by decide)
  have hy := yearOfEra_bounds _ h0 h1
  have hd := dayOfYear_bounds _ h0 h1
  have hs := dayOfYear_spec ((z + 306) % 146097)
  have hm := monthIndex_bounds _ hd.1 hd.2.1
  simp only [civilFromDays, daysFromCivil]
  generalize yearOfEra ((z + 306) % 146097) = yoe at *
  generalize dayOfYear ((z + 306) % 146097) = doy at *
  generalize hmp : monthIndex doy = mp at *
  unfold monthIndex at hmp
  have e1 : mp + 3 - 3 = mp := by omega
  have e2 : mp - 9 + 9 = mp := by omega
  have e3 : yoe + (z + 306) / 146097 * 400 + 1 - 1 = yoe + (z + 306) / 146097 * 400 := by omega
  have e4 : (yoe + (z + 306) / 146097 * 400) / 400 = (z + 306) / 146097 := by omega
  have e5 : (yoe + (z + 306) / 146097 * 400) % 400 = yoe := by omega
  split_ifs <;> simp only [e1, e2, e3, e4, e5] <;> omega

theorem civil_valid_aux (e yoe doy mp : Int)
    (hd0 : 0 ≤ doy) (hd1 : doy ≤ 365)
    (hl : doy = 365 → (yoe + 1) % 4 = 0 ∧ ((yoe + 1) % 100 ≠ 0 ∨ yoe = 399))
    (hmp : mp = (5 * doy + 2) / 153) :
    1 ≤ (if mp < 10 then mp + 3 else mp - 9) ∧ (if mp < 10 then mp + 3 else mp - 9) ≤ 12 ∧
      1 ≤ doy - (153 * mp + 2) / 5 + 1 ∧
      doy - (153 * mp + 2) / 5 + 1 ≤
        daysIn (if mp < 10 then mp + 3 else mp - 9)
          (if (if mp < 10 then mp + 3 else mp - 9) ≤ 2 then yoe + e * 400 + 1
            else yoe + e * 400) := by
  have hmp12 : mp = 0 ∨ mp = 1 ∨ mp = 2 ∨ mp = 3 ∨ mp = 4 ∨ mp = 5 ∨ mp = 6 ∨ mp = 7 ∨
      mp = 8 ∨ mp = 9 ∨ mp = 10 ∨ mp = 11 := by omega
  rcases hmp12 with h | h | h | h | h | h | h | h | h | h | h | h <;> subst h <;>
    simp only [daysIn, isLeap, decide_eq_true_eq] <;> split_ifs <;> omega

/-- The civil date of a day number is a valid calendar date. -/
theorem civilFromDays_valid (z : Int) :
    1 ≤ (civilFromDays z).2.1 ∧ (civilFromDays z).2.1 ≤ 12 ∧ 1 ≤ (civilFromDays z).2.2 ∧
      (civilFromDays z).2.2 ≤ daysIn (civilFromDays z).2.1 (civilFromDays z).1 := by
  have h0 : 0 ≤ (z + 306) % 146097 := Int.emod_nonneg _ (by decide)
  have h1 : (z + 306) % 146097 < 146097 := Int.emod_lt_of_pos _ (by decide)
  have hd := dayOfYear_bounds _ h0 h1
  exact civil_valid_aux ((z + 306) / 146097) _ _ _ hd.1 hd.2.1 hd.2.2 rfl

/-! ## The 64-bit counts of package `time` -/

theorem wrapUnix_of_range (x : Int) (h0 : -(2 ^ 63) + unixToInternal ≤ x)
    (h1 : x < 2 ^ 63 + unixToInternal) : wrapUnix x = x := by
  unfold wrapUnix wrap64
  unfold unixToInternal at h0 h1 ⊢
  omega

theorem wrap64_wrapUnix_mod (x : Int) : wrap64 (wrapUnix x) % 2 ^ 64 = x % 2 ^ 64 := by
  unfold wrapUnix wrap64 unixToInternal
  omega

theorem century_days (Y : Int) :
    146097 * (Y / 100) / 4 + 1461 * (Y % 100) / 4 =
      Y / 400 * 146097 + (Y % 400 * 365 + Y % 400 / 4 - Y % 400 / 100) := by
  have e1 : Y / 100 = 4 * (Y / 400) + Y % 400 / 100 := by omega
  have e2 : Y % 400 = 100 * (Y % 400 / 100) + Y % 100 := by omega
  have hk : Y % 400 / 100 = 0 ∨ Y % 400 / 100 = 1 ∨ Y % 400 / 100 = 2 ∨ Y % 400 / 100 = 3 := by
    omega
  have hr : 0 ≤ Y % 100 ∧ Y % 100 < 100 := by omega
  rw [e1]
  generalize Y / 400 = b at *
  generalize Y % 100 = r at *
  generalize hk' : Y % 400 / 100 = k at *
  generalize Y % 400 = s at *
  subst e2
  rcases hk with h | h | h | h <;> subst h <;> omega

theorem dateToAbsDays_aux (y1 a d : Int) (h0 : 0 ≤ y1 + 292277022400)
    (h1 : y1 ≤ 1000000000000000) :
    (146097 * ((y1 + 292277022400) % 2 ^ 64 / 100) % 2 ^ 64 / 4 +
      (1461 * ((y1 + 292277022400) % 2 ^ 64 % 100) / 4 + a + d - 1)) % 2 ^ 64 =
    (y1 / 400 * 146097 + (y1 % 400 * 365 + y1 % 400 / 4 - y1 % 400 / 100 + (a + d - 1)) - 306 +
      106751990354238) % 2 ^ 64 := by
  have e0 : (y1 + 292277022400) % 2 ^ 64 = y1 + 292277022400 := by omega
  have e1 : 146097 * ((y1 + 292277022400) / 100) % 2 ^ 64 =
      146097 * ((y1 + 292277022400) / 100) := by omega
  have e2 := century_days (y1 + 292277022400)
  have e3 : (y1 + 292277022400) / 400 = y1 / 400 + 730692556 := by omega
  have e4 : (y1 + 292277022400) % 400 = y1 % 400 := by omega
  rw [e0, e1]
  rw [e3, e4] at e2
  congr 1
  omega

/-- In the years from -292277022400 (from March) to 10 ^ 15 the products of
`dateToAbsDays` do not overflow: the count is the day number of the date, taken from the
absolute zero, modulo `2 ^ 64`. -/
theorem dateToAbsDays_of_range (y m d : Int) (hm0 : 1 ≤ m) (hm1 : m ≤ 12)
    (hy0 : -292277022400 < y ∨ (y = -292277022400 ∧ 3 ≤ m)) (hy1 : y ≤ 1000000000000000) :
    dateToAbsDays y m d = (daysFromCivil y m d + absoluteDays) % 2 ^ 64 := by
  have hmc : m = 1 ∨ m = 2 ∨ m = 3 ∨ m = 4 ∨ m = 5 ∨ m = 6 ∨ m = 7 ∨ m = 8 ∨ m = 9 ∨
      m = 10 ∨ m = 11 ∨ m = 12 := by omega
  by_cases hjf : m < 3
  · have hm2 : m ≤ 2 := by omega
    have h := dateToAbsDays_aux (y - 1) ((979 * (m + 12 * 1) - 2919) / 32) d (by omega) (by omega)
    simp only [dateToAbsDays, daysFromCivil, absoluteYears, absoluteDays, hjf, hm2, if_true]
    rw [h]
    congr 1
    rcases hmc with h | h | h | h | h | h | h | h | h | h | h | h <;> subst h <;> omega
  · have hm2 : ¬ m ≤ 2 := by omega
    have h := dateToAbsDays_aux y ((979 * (m + 12 * 0) - 2919) / 32) d (by omega) (by omega)
    simp only [dateToAbsDays, daysFromCivil, absoluteYears, absoluteDays, hjf, hm2, if_false]
    rw [sub_zero, h]
    congr 1
    rcases hmc with h | h | h | h | h | h | h | h | h | h | h | h <;> subst h <;> omega

theorem daysFromCivil_ge_absoluteZero (y m d : Int) (hm0 : 1 ≤ m) (hm1 : m ≤ 12)
    (hy0 : -292277022400 < y ∨ (y = -292277022400 ∧ 3 ≤ m)) :
    d - 1 ≤ daysFromCivil y m d + absoluteDays := by
  simp only [daysFromCivil, absoluteDays]
  split_ifs <;> omega

theorem year_of_daysFromCivil_ge (y m d : Int) (hm0 : 1 ≤ m) (hm1 : m ≤ 12) (hd : d ≤ 31)
    (h : 306 ≤ daysFromCivil y m d + absoluteDays) : -292277022399 ≤ y := by
  simp only [daysFromCivil, absoluteDays] at h
  by_contra hc
  split_ifs at h with hm
  · have b1 : (y - 1) % 400 / 4 ≤ 99 := by omega
    have b2 : 0 ≤ (y - 1) % 400 / 100 := by omega
    have b3 : (y - 1) / 400 ≤ -730692557 := by omega
    have b4 : (y - 1) % 400 ≤ 399 := by omega
    omega
  · have b1 : y % 400 / 4 ≤ 99 := by omega
    have b2 : 0 ≤ y % 400 / 100 := by omega
    have b3 : y / 400 ≤ -730692556 := by omega
    have b4 : y % 400 ≤ 399 := by omega
    have b5 : y / 400 = -730692556 → y % 400 = 0 := by omega
    by_cases hq : y / 400 = -730692556
    · have := b5 hq
      omega
    · omega

theorem year_of_daysFromCivil_le (y m d : Int) (hm0 : 1 ≤ m) (hm1 : m ≤ 12) (hd : 1 ≤ d)
    (h : daysFromCivil y m d + absoluteDays ≤ 213503982334601) :
    y ≤ 292277026854 := by
  simp only [daysFromCivil, absoluteDays] at h
  split_ifs at h <;> omega

theorem Time.localDay_range (t : Time) :
    0 ≤ t.localDay + absoluteDays ∧ t.localDay + absoluteDays ≤ 213503982334601 := by
  simp only [Time.localDay, Time.abs]
  omega

/-- What `time.Date` returns for midnight UTC of a day that `time.Time` can show: its
wall clock reads 00:00:00 of that day. -/
theorem timeDate_UTC_day (y m d : Int) (hm0 : 1 ≤ m) (hm1 : m ≤ 12)
    (hy0 : -292277022400 < y ∨ (y = -292277022400 ∧ 3 ≤ m)) (hy1 : y ≤ 1000000000000000)
    (h0 : 0 ≤ daysFromCivil y m d + absoluteDays)
    (h1 : daysFromCivil y m d + absoluteDays ≤ 213503982334601) :
    (timeDate y m d 0 0 0 0 UTC).localDay = daysFromCivil y m d ∧
      (timeDate y m d 0 0 0 0 UTC).secondOfDay = 0 ∧
      (timeDate y m d 0 0 0 0 UTC).abs = (daysFromCivil y m d + absoluteDays) * 86400 := by
  have e1 : (m - 1) / 12 = 0 := by omega
  have e2 : (m - 1) % 12 + 1 = m := by omega
  have hd := dateToAbsDays_of_range y m d hm0 hm1 hy0 hy1
  have hd2 : dateToAbsDays y m d = daysFromCivil y m d + absoluteDays := by
    rw [hd]
    omega
  have habs : (timeDate y m d 0 0 0 0 UTC).abs = (daysFromCivil y m d + absoluteDays) * 86400 := by
    simp only [Time.abs, Time.offset, timeDate, UTC, Location.resolve, e1, e2, add_zero, hd2,
      internalToAbsolute, sub_zero, zero_mul, Int.zero_ediv]
    generalize daysFromCivil y m d + absoluteDays = A at *
    clear hd hd2
    simp only [wrap64, wrapUnix, unixToInternal, absoluteDays]
    omega
  refine ⟨?_, ?_, habs⟩
  · simp only [Time.localDay, habs]
    omega
  · simp only [Time.secondOfDay, habs]
    omega

/-! ## The request executor -/

theorem retrySleeps_length (env : Env) (resps : Nat → Response) (n k : Nat) :
    (retrySleeps env resps n k).length = k := by
  induction k generalizing resps n with
  | zero => rfl
  | succ k ih => simp [retrySleeps, ih]

theorem retryRequest_after_429s (env : Env) (c : Client) (req : Request) (r : Response)
    (k : Nat) : ∀ (resps : Nat → Response) (w : World) (fuel : Nat),
    (∀ i, i < k → c.httpClient (w.requests ++ List.replicate (i + 1) req) = Except.ok (resps i) ∧
      (resps i).StatusCode = 429) →
    c.httpClient (w.requests ++ List.replicate (k + 1) req) = Except.ok r →
    r.StatusCode ≠ 429 → k < fuel →
    c.retryRequest env req fuel w =
      some (Except.ok r, ⟨w.requests ++ List.replicate (k + 1) req,
        w.sleeps ++ retrySleeps env resps w.requests.length k⟩) := by
  induction k with
  | zero =>
    intro resps w fuel _ hr hne hfuel
    obtain ⟨f, rfl⟩ : ∃ f, fuel = f + 1 := ⟨fuel - 1, by omega⟩
    simp only [List.replicate, zero_add] at hr
    simp [Client.retryRequest, hr, hne, retrySleeps, List.replicate]
  | succ k ih =>
    intro resps w fuel h429 hr hne hfuel
    obtain ⟨f, rfl⟩ : ∃ f, fuel = f + 1 := ⟨fuel - 1, by omega⟩
    have h0 := h429 0 (by omega)
    simp only [zero_add, List.replicate] at h0
    have key := ih (fun i => resps (i + 1))
      ⟨w.requests ++ [req], w.sleeps ++ [retryWait env (env.now (w.requests ++ [req]).length)
        (resps 0).RetryAfter]⟩ f
      (by
        intro i hi
        have := h429 (i + 1) (by omega)
        simpa [List.replicate_succ, List.append_assoc] using this)
      (by simpa [List.replicate_succ, List.append_assoc] using hr) hne (by omega)
    simp only [Client.retryRequest, h0.1, h0.2, if_true]
    rw [key]
    simp [retrySleeps, List.replicate_succ, List.append_assoc]

theorem doGetRequest_ok (c : Client) (env : Env) (u : URL) (w : World) (fuel : Nat)
    (resp : Response)
    (hresp : c.httpClient (w.requests ++ [⟨u, "Bearer " ++ c.token⟩]) = Except.ok resp)
    (hs : resp.StatusCode = 200) (hread : resp.readErr = none) :
    c.doGetRequest env u (fuel + 1) w =
      some (Except.ok resp.Body, ⟨w.requests ++ [⟨u, "Bearer " ++ c.token⟩], w.sleeps⟩) := by
  have h := retryRequest_after_429s env c ⟨u, "Bearer " ++ c.token⟩ resp 0 (fun _ => resp) w
    (fuel + 1) (by intro i hi; omega) (by simpa using hresp) (by rw [hs]; decide) (by omega)
  simp only [Client.doGetRequest, h, hs, hread]
  simp [retrySleeps]

theorem Values.set_self (q : Values) (k v : String) (h : q k = some [v]) : q.set k v = q := by
  funext x
  unfold Values.set
  split_ifs with hx
  · rw [hx, h]
  · rfl

theorem Values.set_set (q : Values) (k v v2 : String) : (q.set k v).set k v2 = q.set k v2 := by
  funext x
  unfold Values.set
  split_ifs <;> rfl

theorem listLoop_pages {α : Type} (c : Client) (env : Env)
    (decode : String → Except String (ListResponse α)) (u : URL) (N : Nat)
    (I : Nat → List α)
    (hsrv : ∀ (h : List Request) (r : Request) (i : Nat), 1 ≤ i → i ≤ N →
      r.url.query "page" = some [fmtInt (i : Int)] →
      ∃ resp, c.httpClient (h ++ [r]) = Except.ok resp ∧ resp.StatusCode = 200 ∧
        resp.readErr = none ∧ ∃ e, decode resp.Body = Except.ok e ∧ e.Page = (i : Int) ∧
          e.TotalPages = (N : Int) ∧ e.Items = I i)
    (m : Nat) : ∀ (i : Nat) (q : Values) (acc : List α) (w : World) (fuel : Nat),
    i + m = N → 1 ≤ i → q "page" = some [fmtInt (i : Int)] → m < fuel →
    listLoop c env decode u fuel q acc w =
      some (Except.ok (acc ++ (List.range (m + 1)).flatMap (fun j => I (i + j))),
        ⟨w.requests ++ (List.range (m + 1)).map (fun j =>
          (⟨⟨u.rest, q.set "page" (fmtInt ((i + j : Nat) : Int))⟩, "Bearer " ++ c.token⟩ : Request)),
          w.sleeps⟩) := by
  induction m with
  | zero =>
    intro i q acc w fuel hi h1 hq hfuel
    obtain ⟨f, rfl⟩ : ∃ f, fuel = f + 1 := ⟨fuel - 1, by omega⟩
    obtain ⟨resp, hresp, hs, hread, e, hdec, hp, htp, hit⟩ :=
      hsrv w.requests ⟨⟨u.rest, q⟩, "Bearer " ++ c.token⟩ i h1 (by omega) hq
    have hge : e.Page ≥ e.TotalPages := by rw [hp, htp]; exact_mod_cast (by omega : N ≤ i)
    simp only [listLoop, doGetRequest_ok c env ⟨u.rest, q⟩ w f resp hresp hs hread, hdec, hge,
      if_true, hit]
    have hr1 : List.range 1 = [0] := rfl
    rw [hr1]
    simp [Values.set_self q "page" _ hq]
  | succ m ih =>
    intro i q acc w fuel hi h1 hq hfuel
    obtain ⟨f, rfl⟩ : ∃ f, fuel = f + 1 := ⟨fuel - 1, by omega⟩
    obtain ⟨resp, hresp, hs, hread, e, hdec, hp, htp, hit⟩ :=
      hsrv w.requests ⟨⟨u.rest, q⟩, "Bearer " ++ c.token⟩ i h1 (by omega) hq
    have hlt : ¬ e.Page ≥ e.TotalPages := by
      rw [hp, htp]; exact_mod_cast (by omega : ¬ N ≤ i)
    have hnext : e.Page + 1 = ((i + 1 : Nat) : Int) := by rw [hp]; push_cast; rfl
    have key := ih (i + 1) (q.set "page" (fmtInt ((i + 1 : Nat) : Int))) (acc ++ I i)
      ⟨w.requests ++ [⟨⟨u.rest, q⟩, "Bearer " ++ c.token⟩], w.sleeps⟩ f (by omega) (by omega)
      (by simp [Values.set]) (by omega)
    simp only [listLoop, doGetRequest_ok c env ⟨u.rest, q⟩ w f resp hresp hs hread, hdec, hlt,
      if_false, hit, hnext]
    have hij : ∀ j, i + 1 + j = i + Nat.succ j := by intro j; omega
    rw [key, List.range_succ_eq_map (m + 1)]
    simp only [hij, List.flatMap_cons, List.map_cons, List.flatMap_map, List.map_map,
      Values.set_set, List.append_assoc, List.singleton_append, Nat.add_zero,
      Values.set_self q "page" _ hq, Function.comp_def]

/-! ## The pagination driver -/

theorem buildQuery_page (q : Values) (o : ListOptions) (h : o.Page ≠ 0) :
    buildQuery q o "page" = some [fmtInt o.Page] := by
  unfold buildQuery
  cases o.UserIDs <;> cases o.FromDate <;> cases o.ToDate <;>
    by_cases hs : o.PageSize = 0 <;> simp [Values.set, h, hs]

theorem doGetRequest_after_429s (c : Client) (env : Env) (u : URL) (r : Response) (k : Nat)
    (resps : Nat → Response) (w : World) (fuel : Nat)
    (h429 : ∀ i, i < k →
      c.httpClient (w.requests ++ List.replicate (i + 1) ⟨u, "Bearer " ++ c.token⟩) =
        Except.ok (resps i) ∧ (resps i).StatusCode = 429)
    (hr : c.httpClient (w.requests ++ List.replicate (k + 1) ⟨u, "Bearer " ++ c.token⟩) =
      Except.ok r)
    (hne : r.StatusCode ≠ 429) (hfuel : k < fuel) :
    c.doGetRequest env u fuel w =
      (if r.StatusCode ≠ 200 then
        some (Except.error
          ("unexpected status code " ++ fmtInt r.StatusCode ++ ": " ++ r.Body),
          ⟨w.requests ++ List.replicate (k + 1) ⟨u, "Bearer " ++ c.token⟩,
            w.sleeps ++ retrySleeps env resps w.requests.length k⟩)
      else match r.readErr with
        | some err => some (Except.error ("failed to read response body: " ++ err),
            ⟨w.requests ++ List.replicate (k + 1) ⟨u, "Bearer " ++ c.token⟩,
              w.sleeps ++ retrySleeps env resps w.requests.length k⟩)
        | none => some (Except.ok r.Body,
            ⟨w.requests ++ List.replicate (k + 1) ⟨u, "Bearer " ++ c.token⟩,
              w.sleeps ++ retrySleeps env resps w.requests.length k⟩)) := by
  have h := retryRequest_after_429s env c ⟨u, "Bearer " ++ c.token⟩ r k resps w fuel h429 hr
    hne hfuel
  simp only [Client.doGetRequest, h]

theorem listLoop_last_page {α : Type} (c : Client) (env : Env)
    (decode : String → Except String (ListResponse α)) (u : URL) (q : Values)
    (acc : List α) (r : Response) (e : ListResponse α) (k : Nat)
    (resps : Nat → Response) (w : World) (fuel : Nat)
    (h429 : ∀ i, i < k →
      c.httpClient (w.requests ++ List.replicate (i + 1) ⟨⟨u.rest, q⟩, "Bearer " ++ c.token⟩) =
        Except.ok (resps i) ∧ (resps i).StatusCode = 429)
    (hr : c.httpClient (w.requests ++ List.replicate (k + 1) ⟨⟨u.rest, q⟩, "Bearer " ++ c.token⟩) =
      Except.ok r)
    (hs : r.StatusCode = 200) (hread : r.readErr = none) (hdec : decode r.Body = Except.ok e)
    (hlast : e.Page ≥ e.TotalPages) (hfuel : k < fuel) :
    listLoop c env decode u fuel q acc w =
      some (Except.ok (acc ++ e.Items),
        ⟨w.requests ++ List.replicate (k + 1) ⟨⟨u.rest, q⟩, "Bearer " ++ c.token⟩,
          w.sleeps ++ retrySleeps env resps w.requests.length k⟩) := by
  obtain ⟨f, rfl⟩ : ∃ f, fuel = f + 1 := ⟨fuel - 1, by omega⟩
  have h := doGetRequest_after_429s c env ⟨u.rest, q⟩ r k resps w (f + 1) h429 hr
    (by rw [hs]; decide) hfuel
  simp only [hs, ne_eq, not_true_eq_false, if_false, hread] at h
  simp only [listLoop, h, hdec, hlast, if_true]

/-! ## Decimal digits and the layout `2006-01-02` -/

theorem natDigits_fuel (f1 : Nat) : ∀ (f2 n : Nat), n < f1 → n < f2 →
    natDigits f1 n = natDigits f2 n := by
  induction f1 with
  | zero => intro f2 n h; omega
  | succ f1 ih =>
    intro f2 n h1 h2
    obtain ⟨g, rfl⟩ : ∃ g, f2 = g + 1 := ⟨f2 - 1, by omega⟩
    unfold natDigits
    split_ifs with h
    · rfl
    · rw [ih g (n / 10) (by omega) (by omega)]

theorem natDigits_small (n : Nat) (h : n < 10) : natDigits (n + 1) n = [digitChar n] := by
  unfold natDigits
  simp [h]

theorem natDigits_step (n : Nat) (h : 10 ≤ n) :
    natDigits (n + 1) n = natDigits (n / 10 + 1) (n / 10) ++ [digitChar (n % 10)] := by
  conv_lhs => unfold natDigits
  rw [if_neg (by omega), natDigits_fuel n (n / 10 + 1) (n / 10) (by omega) (by omega)]

theorem padDigits_two (n : Nat) (h : n < 100) :
    padDigits 2 n = [digitChar (n / 10 % 10), digitChar (n % 10)] := by
  unfold padDigits
  by_cases h1 : n < 10
  · have e : n / 10 % 10 = 0 := by omega
    have e2 : n % 10 = n := by omega
    rw [natDigits_small n h1, e, e2]
    rfl
  · have e : n / 10 % 10 = n / 10 := by omega
    rw [natDigits_step n (by omega), natDigits_small (n / 10) (by omega), e]
    rfl

theorem padDigits_four (n : Nat) (h : n < 10000) :
    padDigits 4 n = [digitChar (n / 1000 % 10), digitChar (n / 100 % 10),
      digitChar (n / 10 % 10), digitChar (n % 10)] := by
  unfold padDigits
  by_cases h1 : n < 10
  · have e1 : n / 1000 % 10 = 0 := by omega
    have e2 : n / 100 % 10 = 0 := by omega
    have e3 : n / 10 % 10 = 0 := by omega
    have e4 : n % 10 = n := by omega
    rw [natDigits_small n h1, e1, e2, e3, e4]
    rfl
  · by_cases h2 : n < 100
    · have e1 : n / 1000 % 10 = 0 := by omega
      have e2 : n / 100 % 10 = 0 := by omega
      have e3 : n / 10 % 10 = n / 10 := by omega
      rw [natDigits_step n (by omega), natDigits_small (n / 10) (by omega), e1, e2, e3]
      rfl
    · by_cases h3 : n < 1000
      · have e1 : n / 1000 % 10 = 0 := by omega
        have e2 : n / 100 % 10 = n / 10 / 10 := by omega
        have e3 : n / 10 % 10 = n / 10 % 10 := rfl
        rw [natDigits_step n (by omega), natDigits_step (n / 10) (by omega),
          natDigits_small (n / 10 / 10) (by omega), e1, e2]
        rfl
      · have e1 : n / 1000 % 10 = n / 10 / 10 / 10 := by omega
        have e2 : n / 100 % 10 = n / 10 / 10 % 10 := by omega
        rw [natDigits_step n (by omega), natDigits_step (n / 10) (by omega),
          natDigits_step (n / 10 / 10) (by omega),
          natDigits_small (n / 10 / 10 / 10) (by omega), e1, e2]
        rfl

/-- Within the years 0..9999 the layout `2006-01-02` produces the ten characters
`YYYY-MM-DD`. -/
theorem formatCivil_eq_specYMD (y m d : Int) (hy0 : 0 ≤ y) (hy1 : y ≤ 9999) (hm0 : 0 ≤ m)
    (hm1 : m ≤ 99) (hd0 : 0 ≤ d) (hd1 : d ≤ 99) :
    formatCivil y m d = specYMD y.toNat m.toNat d.toNat := by
  obtain ⟨yn, rfl⟩ := Int.eq_ofNat_of_zero_le hy0
  obtain ⟨mn, rfl⟩ := Int.eq_ofNat_of_zero_le hm0
  obtain ⟨dn, rfl⟩ := Int.eq_ofNat_of_zero_le hd0
  have hy : ¬ ((yn : Int) < 0) := by omega
  have hm : ¬ ((mn : Int) < 0) := by omega
  have hd : ¬ ((dn : Int) < 0) := by omega
  simp only [formatCivil, specYMD, appendInt, hy, hm, hd, if_false, Int.natAbs_ofNat,
    Int.toNat_ofNat]
  rw [padDigits_four yn (by omega), padDigits_two mn (by omega), padDigits_two dn (by omega)]
  rfl

theorem digitVal_digitChar (k : Nat) (h : k < 10) : digitVal (digitChar k) = some k := by
  interval_cases k <;> rfl

theorem daysIn_le (m y : Int) : daysIn m y ≤ 31 := by
  unfold daysIn
  split_ifs <;> omega

/-- Parsing the rendering `YYYY-MM-DD` of a valid date gives that date at midnight
UTC. -/
theorem parseDateOnly_specYMD (y m d : Nat) (hy : y ≤ 9999) (hm0 : 1 ≤ m) (hm1 : m ≤ 12)
    (hd0 : 1 ≤ d) (hd1 : (d : Int) ≤ daysIn m y) :
    parseDateOnly (specYMD y m d) = Except.ok (dateUTC y m d) := by
  have hd31 : d ≤ 31 := by have := daysIn_le m y; omega
  have ey : y / 1000 % 10 * 1000 + y / 100 % 10 * 100 + y / 10 % 10 * 10 + y % 10 = y := by
    omega
  have em : m / 10 % 10 * 10 + m % 10 = m := by omega
  have ed : d / 10 % 10 * 10 + d % 10 = d := by omega
  have hmr : ¬ ((m : Int) ≤ 0 ∨ 12 < (m : Int)) := by omega
  have hdr : ¬ ((d : Int) < 1 ∨ daysIn m y < (d : Int)) := by omega
  simp only [parseDateOnly, specYMD,
    digitVal_digitChar _ (Nat.mod_lt _ (by decide : 0 < 10)), ey, em, ed, hmr, hdr, if_false]

/-! ## The date-only type -/

theorem digitChar_ne_quote (k : Nat) (h : k < 10) : (digitChar k == '"') = false := by
  interval_cases k <;> rfl

theorem trimQuotes_specYMD (y m d : Nat) :
    trimQuotes (("\"" ++ specYMD y m d ++ "\"").data) = (specYMD y m d).data := by
  have q := fun k => digitChar_ne_quote (k % 10) (Nat.mod_lt _ (by decide : 0 < 10))
  simp [trimQuotes, specYMD, String.data_append, List.dropWhile, q]

theorem specYMD_ne_null (y m d : Nat) : specYMD y m d ≠ "null" := by
  intro h
  have := congrArg String.length h
  simp [specYMD, String.length] at this

theorem UnmarshalJSON_specYMD (y m d : Nat) (hy : y ≤ 9999) (hm0 : 1 ≤ m) (hm1 : m ≤ 12)
    (hd0 : 1 ≤ d) (hd1 : (d : Int) ≤ daysIn m y) :
    DateOnly.UnmarshalJSON ("\"" ++ specYMD y m d ++ "\"") = Except.ok ⟨dateUTC y m d⟩ := by
  have h1 : String.mk (trimQuotes ("\"" ++ specYMD y m d ++ "\"").data) = specYMD y m d := by
    rw [trimQuotes_specYMD]
  simp only [DateOnly.UnmarshalJSON, h1, specYMD_ne_null, if_false,
    parseDateOnly_specYMD y m d hy hm0 hm1 hd0 hd1]

theorem dateUTC_Date (z y m d : Int) (hc : civilFromDays z = (y, m, d))
    (hy0 : -292277022399 ≤ y) (hy1 : y ≤ 1000000000000000) (h0 : 0 ≤ z + absoluteDays)
    (h1 : z + absoluteDays ≤ 213503982334601) :
    civilFromDays (dateUTC y m d).localDay = (y, m, d) := by
  have hv := civilFromDays_valid z
  have hz := daysFromCivil_civilFromDays z
  rw [hc] at hv hz
  simp only at hv hz
  obtain ⟨hl, _, _⟩ := timeDate_UTC_day y m d hv.1 hv.2.1 (Or.inl (by omega)) hy1
    (by rw [hz]; exact h0) (by rw [hz]; exact h1)
  rw [dateUTC, hl, hz, hc]

/-! ## The first request of a run -/

theorem retryRequest_first_request (c : Client) (env : Env) (req : Request) (fuel : Nat) :
    ∀ (w w1 : World) (res : Except String Response),
    c.retryRequest env req fuel w = some (res, w1) →
    ∃ rest, w1.requests = w.requests ++ req :: rest := by
  induction fuel with
  | zero => intro w w1 res h; simp [Client.retryRequest] at h
  | succ f ih =>
    intro w w1 res h
    simp only [Client.retryRequest] at h
    split at h
    · injection h with h; injection h with _ h2
      exact ⟨[], by rw [← h2]⟩
    · split_ifs at h
      · obtain ⟨rest, hr⟩ := ih _ _ _ h
        exact ⟨req :: rest, by rw [hr]; simp⟩
      · injection h with h; injection h with _ h2
        exact ⟨[], by rw [← h2]⟩

theorem doGetRequest_first_request (c : Client) (env : Env) (u : URL) (fuel : Nat)
    (w w1 : World) (res : Except String String)
    (h : c.doGetRequest env u fuel w = some (res, w1)) :
    ∃ rest, w1.requests = w.requests ++ (⟨u, "Bearer " ++ c.token⟩ : Request) :: rest := by
  simp only [Client.doGetRequest] at h
  split at h
  · simp at h
  · rename_i err w2 hr
    injection h with h; injection h with _ h2
    rw [← h2]; exact retryRequest_first_request c env _ fuel w w2 _ hr
  · rename_i resp w2 hr
    have := retryRequest_first_request c env _ fuel w w2 _ hr
    split_ifs at h
    · injection h with h; injection h with _ h2
      rw [← h2]; exact this
    · split at h <;> (injection h with h; injection h with _ h2; rw [← h2]; exact this)

theorem listLoop_first_request {α : Type} (c : Client) (env : Env)
    (decode : String → Except String (ListResponse α)) (u : URL) (fuel : Nat) :
    ∀ (q : Values) (acc : List α) (w w1 : World) (res : Except String (List α)),
    listLoop c env decode u fuel q acc w = some (res, w1) →
    ∃ rest, w1.requests = w.requests ++ (⟨⟨u.rest, q⟩, "Bearer " ++ c.token⟩ : Request) :: rest := by
  induction fuel with
  | zero => intro q acc w w1 res h; simp [listLoop] at h
  | succ f ih =>
    intro q acc w w1 res h
    simp only [listLoop] at h
    split at h
    · simp at h
    · rename_i err w2 hr
      injection h with h; injection h with _ h2
      rw [← h2]; exact doGetRequest_first_request c env _ _ w w2 _ hr
    · rename_i body w2 hr
      have hfirst := doGetRequest_first_request c env _ _ w w2 _ hr
      split at h
      · injection h with h; injection h with _ h2
        rw [← h2]; exact hfirst
      · split_ifs at h
        · injection h with h; injection h with _ h2
          rw [← h2]; exact hfirst
        · obtain ⟨rest1, h1⟩ := hfirst
          obtain ⟨rest2, h2⟩ := ih _ _ _ _ _ h
          rename_i response _ _
          exact ⟨rest1 ++ (⟨⟨u.rest, q.set "page" (fmtInt (response.Page + 1))⟩,
            "Bearer " ++ c.token⟩ : Request) :: rest2, by rw [h2, h1]; simp⟩

theorem List_first_request {α : Type} (c : Client) (env : Env) (T : ListItem)
    (decode : String → Except String (ListResponse α)) (options : ListOptions) (u : URL)
    (fuel : Nat) (w w1 : World) (res : Except String (List α))
    (hvalid : T.validFilter options = true)
    (hurl : env.parseURL (c.baseURL ++ T.path) = Except.ok u)
    (hrun : c.List env T decode options fuel w = some (res, w1)) :
    ∃ rest, w1.requests = w.requests ++
      (⟨⟨u.rest, buildQuery u.query options⟩, "Bearer " ++ c.token⟩ : Request) :: rest := by
  simp only [Client.List, hvalid, hurl, not_true_eq_false, if_false] at hrun
  exact listLoop_first_request c env decode u fuel _ _ w w1 res hrun

/-! ## The query built from the options -/

theorem buildQuery_other (q : Values) (o : ListOptions) (key : String)
    (hids : o.UserIDs = none) (hfrom : o.FromDate = none) (hto : o.ToDate = none)
    (h1 : key ≠ "page") (h2 : key ≠ "pageSize") : buildQuery q o key = q key := by
  unfold buildQuery
  rw [hids, hfrom, hto]
  by_cases hp : o.Page = 0 <;> by_cases hs : o.PageSize = 0 <;> simp [Values.set, hp, hs, h1, h2]

theorem buildQuery_page_zero (q : Values) (o : ListOptions) (hp : o.Page = 0) :
    buildQuery q o "page" = q "page" := by
  unfold buildQuery
  cases o.UserIDs <;> cases o.FromDate <;> cases o.ToDate <;>
    by_cases hs : o.PageSize = 0 <;> simp [Values.set, hp, hs]

theorem buildQuery_pageSize_zero (q : Values) (o : ListOptions) (hs : o.PageSize = 0) :
    buildQuery q o "pageSize" = q "pageSize" := by
  unfold buildQuery
  cases o.UserIDs <;> cases o.FromDate <;> cases o.ToDate <;>
    by_cases hp : o.Page = 0 <;> simp [Values.set, hp, hs]

theorem buildQuery_pageSize (q : Values) (o : ListOptions) (hs : o.PageSize ≠ 0) :
    buildQuery q o "pageSize" = some [fmtInt o.PageSize] := by
  unfold buildQuery
  cases o.UserIDs <;> cases o.FromDate <;> cases o.ToDate <;>
    by_cases hp : o.Page = 0 <;> simp [Values.set, hp, hs]

theorem buildQuery_userIds (q : Values) (o : ListOptions) (ids : List (Fin 65536))
    (h : o.UserIDs = some ids) :
    buildQuery q o "filter.userIds" = some [joinComma (ids.map fun i => fmtNat i.val)] := by
  unfold buildQuery
  rw [h]
  cases o.FromDate <;> cases o.ToDate <;> simp [Values.set]

theorem buildQuery_from (q : Values) (o : ListOptions) (d : DateOnly)
    (h : o.FromDate = some d) :
    buildQuery q o "filter.from" = some [d.toTime.FormatDateOnly] := by
  unfold buildQuery
  rw [h]
  cases o.ToDate <;> simp [Values.set]

theorem buildQuery_to (q : Values) (o : ListOptions) (d : DateOnly)
    (h : o.ToDate = some d) :
    buildQuery q o "filter.to" = some [d.toTime.FormatDateOnly] := by
  unfold buildQuery
  rw [h]
  simp [Values.set]

/-- Within the years 0..9999 `Format(time.DateOnly)` is the rendering `YYYY-MM-DD` of
the calendar date. -/
theorem FormatDateOnly_eq_specYMD (t : Time) (hy0 : 0 ≤ t.Year) (hy1 : t.Year ≤ 9999) :
    t.FormatDateOnly = specYMD t.Year.toNat t.Month.toNat t.Day.toNat := by
  have hv := civilFromDays_valid t.localDay
  have h31 := daysIn_le (civilFromDays t.localDay).2.1 (civilFromDays t.localDay).1
  simp only [Time.Year, Time.Month, Time.Day, Time.Date, Time.FormatDateOnly] at hy0 hy1 ⊢
  exact formatCivil_eq_specYMD _ _ _ hy0 hy1 (by omega) (by omega) (by omega) (by omega)

/-! ## `fmtInt` writes the decimal numeral that `atoi` reads -/

theorem parseDigits_append (xs ys : List Char) : ∀ acc,
    parseDigits (xs ++ ys) acc = (parseDigits xs acc).bind (parseDigits ys) := by
  induction xs with
  | nil => intro acc; rfl
  | cons x xs ih =>
    intro acc
    simp only [List.cons_append, parseDigits]
    cases digitVal x with
    | none => rfl
    | some d => exact ih _

theorem parseDigits_natDigits (n : Nat) : parseDigits (natDigits (n + 1) n) 0 = some n := by
  induction n using Nat.strong_induction_on with
  | _ n ih =>
    by_cases h : n < 10
    · rw [natDigits_small n h]
      simp [parseDigits, digitVal_digitChar n h]
    · rw [natDigits_step n (by omega), parseDigits_append, ih (n / 10) (by omega)]
      simp only [Option.some_bind, parseDigits, digitVal_digitChar (n % 10) (by omega)]
      congr 1
      omega

theorem natDigits_head (n : Nat) :
    ∃ k cs, k < 10 ∧ natDigits (n + 1) n = digitChar k :: cs := by
  induction n using Nat.strong_induction_on with
  | _ n ih =>
    by_cases h : n < 10
    · exact ⟨n, [], h, natDigits_small n h⟩
    · obtain ⟨k, cs, hk, hcs⟩ := ih (n / 10) (by omega)
      exact ⟨k, cs ++ [digitChar (n % 10)], hk, by
        rw [natDigits_step n (by omega), hcs]; rfl⟩

theorem atoi_fmtNat (n : Nat) (h : n < 2 ^ 63) : atoi (fmtNat n) = some (n : Int) := by
  obtain ⟨k, cs, hk, hcs⟩ := natDigits_head n
  have hp := parseDigits_natDigits n
  rw [hcs] at hp
  have h2 : n < 9223372036854775808 := h
  unfold atoi fmtNat
  simp only [hcs]
  interval_cases k <;> simp only [digitChar] at hp ⊢ <;> simp [hp, h2]

theorem atoi_neg_fmtNat (n : Nat) (h : n ≤ 2 ^ 63) :
    atoi ("-" ++ fmtNat n) = some (-(n : Int)) := by
  obtain ⟨k, cs, hk, hcs⟩ := natDigits_head n
  have hp := parseDigits_natDigits n
  have hd : ("-" ++ fmtNat n).data = '-' :: natDigits (n + 1) n := by
    simp [fmtNat, String.data_append]
  have h2 : n ≤ 9223372036854775808 := h
  unfold atoi
  simp only [hd]
  rw [hcs] at hp ⊢
  simp [hp, h2]

/-- The rendering of a Go `int` is read back by `strconv.Atoi`. -/
theorem atoi_fmtInt (n : Int) (h0 : -(2 ^ 63) ≤ n) (h1 : n < 2 ^ 63) :
    atoi (fmtInt n) = some n := by
  cases n with
  | ofNat m =>
    have h2 : (m : Int) < 2 ^ 63 := h1
    have hm : m < 2 ^ 63 := by omega
    exact atoi_fmtNat m hm
  | negSucc m =>
    have hm : m + 1 ≤ 2 ^ 63 := by
      rw [Int.negSucc_eq] at h0
      omega
    have := atoi_neg_fmtNat (m + 1) hm
    simp only [fmtInt, this, Int.negSucc_eq]
    push_cast
    rfl

/-! ## The wait on a rate-limit response -/

theorem wrap64_of_range (x : Int) (h0 : -(2 ^ 63) ≤ x) (h1 : x < 2 ^ 63) : wrap64 x = x := by
  unfold wrap64
  omega

/-! ## Retry, status propagation, malformed payloads -/

theorem Get_after_429s {α : Type} (c : Client) (env : Env) (T : GetItem)
    (decode : String → Except String α) (query : String) (u : URL) (r : Response) (k : Nat)
    (resps : Nat → Response) (w : World) (fuel : Nat)
    (hurl : env.parseURL (c.baseURL ++ T.path query) = Except.ok u)
    (h429 : ∀ i, i < k →
      c.httpClient (w.requests ++ List.replicate (i + 1) ⟨u, "Bearer " ++ c.token⟩) =
        Except.ok (resps i) ∧ (resps i).StatusCode = 429)
    (hr : c.httpClient (w.requests ++ List.replicate (k + 1) ⟨u, "Bearer " ++ c.token⟩) =
      Except.ok r)
    (hne : r.StatusCode ≠ 429) (hfuel : k < fuel) :
    c.Get env T decode query fuel w =
      some (
        (if r.StatusCode ≠ 200 then
          Except.error ("unexpected status code " ++ fmtInt r.StatusCode ++ ": " ++ r.Body)
        else match r.readErr with
          | some err => Except.error ("failed to read response body: " ++ err)
          | none =>
            match decode r.Body with
            | Except.error err => Except.error ("failed to unmarshal response: " ++ err)
            | Except.ok item => Except.ok item),
        ⟨w.requests ++ List.replicate (k + 1) ⟨u, "Bearer " ++ c.token⟩,
          w.sleeps ++ retrySleeps env resps w.requests.length k⟩) := by
  have h := doGetRequest_after_429s c env u r k resps w fuel h429 hr hne hfuel
  simp only [Client.Get, hurl, h]
  split_ifs
  · rfl
  · cases r.readErr with
    | some err => rfl
    | none =>
      simp only
      cases decode r.Body <;> rfl

theorem listLoop_after_429s {α : Type} (c : Client) (env : Env)
    (decode : String → Except String (ListResponse α)) (u : URL) (q : Values)
    (acc : List α) (r : Response) (k : Nat) (resps : Nat → Response) (w : World) (fuel : Nat)
    (h429 : ∀ i, i < k →
      c.httpClient (w.requests ++ List.replicate (i + 1) ⟨⟨u.rest, q⟩, "Bearer " ++ c.token⟩) =
        Except.ok (resps i) ∧ (resps i).StatusCode = 429)
    (hr : c.httpClient (w.requests ++ List.replicate (k + 1) ⟨⟨u.rest, q⟩, "Bearer " ++ c.token⟩) =
      Except.ok r)
    (hne : r.StatusCode ≠ 429) (hfuel : k < fuel) :
    (r.StatusCode ≠ 200 →
      listLoop c env decode u fuel q acc w =
        some (Except.error
          ("unexpected status code " ++ fmtInt r.StatusCode ++ ": " ++ r.Body),
          ⟨w.requests ++ List.replicate (k + 1) ⟨⟨u.rest, q⟩, "Bearer " ++ c.token⟩,
            w.sleeps ++ retrySleeps env resps w.requests.length k⟩)) ∧
    (∀ err, r.StatusCode = 200 → r.readErr = none → decode r.Body = Except.error err →
      listLoop c env decode u fuel q acc w =
        some (Except.error ("failed to unmarshal response: " ++ err),
          ⟨w.requests ++ List.replicate (k + 1) ⟨⟨u.rest, q⟩, "Bearer " ++ c.token⟩,
            w.sleeps ++ retrySleeps env resps w.requests.length k⟩)) := by
  obtain ⟨f, rfl⟩ : ∃ f, fuel = f + 1 := ⟨fuel - 1, by omega⟩
  have h := doGetRequest_after_429s c env ⟨u.rest, q⟩ r k resps w (f + 1) h429 hr hne hfuel
  constructor
  · intro h200
    simp only [h200, ne_eq, not_false_eq_true, if_true] at h
    simp only [listLoop, h]
  · intro err hs hread hdec
    simp only [hs, ne_eq, not_true_eq_false, if_false, hread] at h
    simp only [listLoop, h, hdec]

/-! ## From a civil date to its day number and back -/

theorem yearOfEra_of_parts (yoe doy : Int) (hy0 : 0 ≤ yoe) (hy1 : yoe ≤ 399) (hd0 : 0 ≤ doy)
    (hd1 : doy ≤ 365)
    (hl : doy = 365 → (yoe + 1) % 4 = 0 ∧ ((yoe + 1) % 100 ≠ 0 ∨ yoe = 399)) :
    yearOfEra (yoe * 365 + yoe / 4 - yoe / 100 + doy) = yoe := by
  simp only [yearOfEra]
  generalize hc : yoe / 100 = c
  generalize hq : yoe % 100 / 4 = q
  generalize hr : yoe % 4 = r
  have hyoe : yoe = 100 * c + 4 * q + r := by omega
  have hc3 : c = 0 ∨ c = 1 ∨ c = 2 ∨ c = 3 := by omega
  have hr3 : r = 0 ∨ r = 1 ∨ r = 2 ∨ r = 3 := by omega
  have hq0 : 0 ≤ q := by omega
  have hq1 : q ≤ 24 := by omega
  have hq4 : yoe / 4 = 25 * c + q := by omega
  have hl2 : doy = 365 → r = 3 ∧ (q ≠ 24 ∨ c = 3) := by
    intro h
    have := hl h
    omega
  rw [hq4]
  clear hl hq4 hc hq hr hy0 hy1
  subst hyoe
  rcases hc3 with h | h | h | h <;> rcases hr3 with k | k | k | k <;> subst h <;> subst k <;>
    omega

theorem civilFromDays_of_parts (era yoe doy : Int) (hy0 : 0 ≤ yoe) (hy1 : yoe ≤ 399)
    (hd0 : 0 ≤ doy) (hd1 : doy ≤ 365)
    (hl : doy = 365 → (yoe + 1) % 4 = 0 ∧ ((yoe + 1) % 100 ≠ 0 ∨ yoe = 399)) :
    civilFromDays (era * 146097 + (yoe * 365 + yoe / 4 - yoe / 100 + doy) - 306) =
      (if (if monthIndex doy < 10 then monthIndex doy + 3 else monthIndex doy - 9) ≤ 2
          then yoe + era * 400 + 1 else yoe + era * 400,
        if monthIndex doy < 10 then monthIndex doy + 3 else monthIndex doy - 9,
        doy - (153 * monthIndex doy + 2) / 5 + 1) := by
  have hyoe := yearOfEra_of_parts yoe doy hy0 hy1 hd0 hd1 hl
  generalize hdoe : yoe * 365 + yoe / 4 - yoe / 100 + doy = doe at hyoe ⊢
  have hb0 : 0 ≤ doe := by omega
  have hb1 : doe < 146097 := by omega
  have e1 : (era * 146097 + doe - 306 + 306) / 146097 = era := by omega
  have e2 : (era * 146097 + doe - 306 + 306) % 146097 = doe := by omega
  have e3 : dayOfYear doe = doy := by
    unfold dayOfYear
    rw [hyoe]
    omega
  simp only [civilFromDays, e1, e2, e3, hyoe]

theorem daysIn_cases (m y d : Int) (hd1 : d ≤ daysIn m y) :
    d ≤ 31 ∧ ((m = 4 ∨ m = 6 ∨ m = 9 ∨ m = 11) → d ≤ 30) ∧ (m = 2 → d ≤ 29) ∧
      (m = 2 → d = 29 → y % 4 = 0 ∧ (y % 100 ≠ 0 ∨ y % 400 = 0)) := by
  unfold daysIn isLeap at hd1
  simp only [decide_eq_true_eq] at hd1
  split_ifs at hd1 with h2 hl h30
  · exact ⟨by omega, by omega, by omega, fun _ _ => hl⟩
  · exact ⟨by omega, by omega, by omega, by omega⟩
  · exact ⟨by omega, by omega, by omega, by omega⟩
  · exact ⟨by omega, by omega, by omega, by omega⟩

/-- Converting a valid civil date to its day number and back gives the date. -/
theorem civilFromDays_daysFromCivil (y m d : Int) (hm0 : 1 ≤ m) (hm1 : m ≤ 12)
    (hd0 : 1 ≤ d) (hd1 : d ≤ daysIn m y) :
    civilFromDays (daysFromCivil y m d) = (y, m, d) := by
  obtain ⟨h31, h30, h29, hleap⟩ := daysIn_cases m y d hd1
  have hmc : m = 1 ∨ m = 2 ∨ m = 3 ∨ m = 4 ∨ m = 5 ∨ m = 6 ∨ m = 7 ∨ m = 8 ∨ m = 9 ∨
      m = 10 ∨ m = 11 ∨ m = 12 := by omega
  simp only [daysFromCivil]
  generalize hy1 : (if m ≤ 2 then y - 1 else y) = y1
  generalize hmp : (if m ≤ 2 then m + 9 else m - 3) = mp
  generalize hdoy : (153 * mp + 2) / 5 + d - 1 = doy
  have hyr : 0 ≤ y1 % 400 ∧ y1 % 400 ≤ 399 := by omega
  have hmpr : 0 ≤ mp ∧ mp ≤ 11 := by split_ifs at hmp <;> omega
  have hdr : 0 ≤ doy ∧ doy ≤ 365 := by
    rcases hmc with h | h | h | h | h | h | h | h | h | h | h | h <;> subst h <;>
      simp at hmp <;> subst hmp <;> omega
  have hmi : monthIndex doy = mp := by
    unfold monthIndex
    rcases hmc with h | h | h | h | h | h | h | h | h | h | h | h <;> subst h <;>
      simp at hmp <;> subst hmp <;> omega
  have hl : doy = 365 → (y1 % 400 + 1) % 4 = 0 ∧ ((y1 % 400 + 1) % 100 ≠ 0 ∨ y1 % 400 = 399) := by
    intro h365
    have hm2 : m = 2 := by
      rcases hmc with h | h | h | h | h | h | h | h | h | h | h | h <;> subst h <;>
        simp at hmp <;> subst hmp <;> omega
    subst hm2
    simp at hmp hy1
    subst hmp
    have hd29 : d = 29 := by omega
    have := hleap rfl hd29
    omega
  rw [civilFromDays_of_parts (y1 / 400) (y1 % 400) doy hyr.1 hyr.2 hdr.1 hdr.2 hl, hmi]
  rcases hmc with h | h | h | h | h | h | h | h | h | h | h | h <;> subst h <;>
    simp at hmp hy1 <;> subst hmp <;> subst hy1 <;> simp <;> omega

/-! ## Months -/

theorem daysFromCivil_add (y m d k : Int) :
    daysFromCivil y m (d + k) = daysFromCivil y m d + k := by
  simp only [daysFromCivil]
  omega

/-- The day after the last day of a month is the first day of the next month. -/
theorem daysFromCivil_next_month (y m : Int) (hm0 : 1 ≤ m) (hm1 : m ≤ 12) :
    daysFromCivil y m (daysIn m y) + 1 =
      daysFromCivil (if m = 12 then y + 1 else y) (if m = 12 then 1 else m + 1) 1 := by
  have hmc : m = 1 ∨ m = 2 ∨ m = 3 ∨ m = 4 ∨ m = 5 ∨ m = 6 ∨ m = 7 ∨ m = 8 ∨ m = 9 ∨
      m = 10 ∨ m = 11 ∨ m = 12 := by omega
  rcases hmc with h | h | h | h | h | h | h | h | h | h | h | h <;> subst h <;>
    simp only [daysFromCivil, daysIn, isLeap, decide_eq_true_eq] <;> norm_num <;>
    (try split_ifs) <;> omega

theorem daysIn_ge (m y : Int) : 28 ≤ daysIn m y := by
  unfold daysIn
  split_ifs <;> omega

theorem daysIn_le_31 (m y : Int) : daysIn m y ≤ 31 := by
  unfold daysIn
  split_ifs <;> omega

/-- The days of the years up to 292277026853 are days that `time.Time` can show. -/
theorem daysFromCivil_le_max (y m d : Int) (hm0 : 1 ≤ m) (hm1 : m ≤ 12)
    (hy1 : y ≤ 292277026853) (hd : d ≤ 32) :
    daysFromCivil y m d + absoluteDays ≤ 213503982334601 := by
  simp only [daysFromCivil, absoluteDays]
  split_ifs with hm
  · have b1 : (y - 1) % 400 / 4 ≤ 99 := by omega
    have b2 : 0 ≤ (y - 1) % 400 / 100 := by omega
    have b3 : (y - 1) / 400 ≤ 730692567 := by omega
    have b4 : (y - 1) % 400 ≤ 399 := by omega
    have b5 : (y - 1) / 400 = 730692567 → (y - 1) % 400 ≤ 52 := by omega
    by_cases hq : (y - 1) / 400 = 730692567
    · have := b5 hq
      omega
    · omega
  · have b1 : y % 400 / 4 ≤ 99 := by omega
    have b2 : 0 ≤ y % 400 / 100 := by omega
    have b3 : y / 400 ≤ 730692567 := by omega
    have b4 : y % 400 ≤ 399 := by omega
    have b5 : y / 400 = 730692567 → y % 400 ≤ 53 := by omega
    by_cases hq : y / 400 = 730692567
    · have := b5 hq
      omega
    · omega

theorem timeDate_month_succ (y m d h mi s n : Int) (loc : Location) (hm0 : 1 ≤ m)
    (hm1 : m ≤ 12) :
    timeDate y (m + 1) d h mi s n loc =
      timeDate (if m = 12 then y + 1 else y) (if m = 12 then 1 else m + 1) d h mi s n loc := by
  by_cases h12 : m = 12
  · subst h12
    simp [timeDate]
  · have e1 : (m + 1 - 1) / 12 = 0 := by omega
    have e2 : (m + 1 - 1) % 12 + 1 = m + 1 := by omega
    simp only [timeDate, h12, if_false, e1, e2, add_zero]

/-- The month after a month that lies between March of the year -292277022400 and
December of the year 292277026853. -/
theorem next_month_range (y m : Int) (hm0 : 1 ≤ m) (hm1 : m ≤ 12)
    (hy0 : -292277022400 < y ∨ (y = -292277022400 ∧ 3 ≤ m)) (hy1 : y ≤ 292277026853) :
    1 ≤ (if m = 12 then 1 else m + 1) ∧ (if m = 12 then 1 else m + 1) ≤ 12 ∧
    (-292277022400 < (if m = 12 then y + 1 else y) ∨
      ((if m = 12 then y + 1 else y) = -292277022400 ∧ 3 ≤ (if m = 12 then 1 else m + 1))) ∧
    (if m = 12 then y + 1 else y) ≤ 1000000000000000 := by
  by_cases h12 : m = 12
  · simp only [h12, if_true]
    omega
  · simp only [h12, if_false]
    omega

/-! ## Lemmas on `Europe/Stockholm` and on midnights -/

theorem stockholmOffset_shift (D o : Int)
    (ho : o = 0 ∨ o = 3600 ∨ o = 3614 ∨ o = 4332 ∨ o = 7200) :
    (D * 86400 - o < 59263915668 ∧ stockholmOffset (D * 86400 - o) = 4332) ∨
    (59263915668 ≤ D * 86400 - o ∧ D * 86400 - o < 59926604386 ∧
      stockholmOffset (D * 86400 - o) = 3614) ∨
    (59926604386 ≤ D * 86400 - o ∧ D * 86400 - o < 60443100000 ∧
      stockholmOffset (D * 86400 - o) = 3600) ∨
    (60443100000 ≤ D * 86400 - o ∧ D * 86400 - o < 60455113200 ∧
      stockholmOffset (D * 86400 - o) = 7200) ∨
    (60455113200 ≤ D * 86400 - o ∧ D * 86400 - o < 62451126000 ∧
      stockholmOffset (D * 86400 - o) = 3600) ∨
    (62451126000 ≤ D * 86400 - o ∧
      stockholmOffset (D * 86400 - o) = if euSummer (D - 1) then 7200 else 3600) := by
  have c1 : daysFromCivil 1879 1 1 * 86400 - 4332 = 59263915668 := by decide
  have c2 : daysFromCivil 1900 1 1 * 86400 - 3614 = 59926604386 := by decide
  have c3 : daysFromCivil 1916 5 14 * 86400 + 23 * 3600 - 3600 = 60443100000 := by decide
  have c4 : daysFromCivil 1916 10 1 * 86400 + 3600 - 7200 = 60455113200 := by decide
  have c5 : daysFromCivil 1980 1 1 * 86400 - 3600 = 62451126000 := by decide
  have hd : (D * 86400 - o - 3600) / 86400 = D - 1 := by omega
  unfold stockholmOffset
  rw [c1, c2, c3, c4, c5, hd]
  by_cases h1 : D * 86400 - o < 59263915668
  · left; exact ⟨h1, if_pos h1⟩
  rw [if_neg h1]
  by_cases h2 : D * 86400 - o < 59926604386
  · right; left; exact ⟨by omega, h2, if_pos h2⟩
  rw [if_neg h2]
  by_cases h3 : D * 86400 - o < 60443100000
  · right; right; left; exact ⟨by omega, h3, if_pos h3⟩
  rw [if_neg h3]
  by_cases h4 : D * 86400 - o < 60455113200
  · right; right; right; left; exact ⟨by omega, h4, if_pos h4⟩
  rw [if_neg h4]
  by_cases h5 : D * 86400 - o < 62451126000
  · right; right; right; right; left; exact ⟨by omega, h5, if_pos h5⟩
  rw [if_neg h5]
  right; right; right; right; right; exact ⟨by omega, rfl⟩

theorem stockholmOffset_values (D o : Int)
    (ho : o = 0 ∨ o = 3600 ∨ o = 3614 ∨ o = 4332 ∨ o = 7200) :
    stockholmOffset (D * 86400 - o) = 0 ∨ stockholmOffset (D * 86400 - o) = 3600 ∨
      stockholmOffset (D * 86400 - o) = 3614 ∨ stockholmOffset (D * 86400 - o) = 4332 ∨
      stockholmOffset (D * 86400 - o) = 7200 := by
  rcases stockholmOffset_shift D o ho with h | h | h | h | h | h
  · omega
  · omega
  · omega
  · omega
  · omega
  · rcases h with ⟨_, h⟩
    rw [h]
    split_ifs
    · omega
    · omega

/-- In `Europe/Stockholm` every midnight exists on the wall clock: at the instant
that the double lookup of `time.Date` finds for 00:00:00 of the day `D`, the offset in
force is the one that was subtracted, so that the wall clock reads 00:00:00 of the day
`D`. -/
theorem stockholm_midnight (D : Int) :
    stockholm.offsetAt (D * 86400 -
        stockholm.offsetAt (D * 86400 - stockholm.offsetAt (D * 86400))) =
      stockholm.offsetAt (D * 86400 - stockholm.offsetAt (D * 86400)) := by
  show stockholmOffset (D * 86400 - stockholmOffset (D * 86400 -
      stockholmOffset (D * 86400))) =
    stockholmOffset (D * 86400 - stockholmOffset (D * 86400))
  have e0 : stockholmOffset (D * 86400) = stockholmOffset (D * 86400 - 0) := by
    rw [sub_zero]
  have v1 := stockholmOffset_values D 0 (Or.inl rfl)
  have s1 := stockholmOffset_shift D 0 (Or.inl rfl)
  rw [← e0] at v1
  rw [sub_zero] at s1
  generalize stockholmOffset (D * 86400) = o1 at *
  have v2 := stockholmOffset_values D o1 v1
  have s2 := stockholmOffset_shift D o1 v1
  generalize stockholmOffset (D * 86400 - o1) = o2 at *
  have s3 := stockholmOffset_shift D o2 v2
  generalize stockholmOffset (D * 86400 - o2) = o3 at *
  have hb : (if euSummer (D - 1) = true then (7200 : Int) else 3600) = 7200 ∨
      (if euSummer (D - 1) = true then (7200 : Int) else 3600) = 3600 := by
    split_ifs
    · exact Or.inl rfl
    · exact Or.inr rfl
  have hD : D = 722814 → (if euSummer (D - 1) = true then (7200 : Int) else 3600) = 3600 := by
    intro h
    subst h
    rfl
  generalize (if euSummer (D - 1) = true then (7200 : Int) else 3600) = e at *
  omega

/-- The offsets of `Europe/Stockholm` are less than a day. -/
theorem stockholm_offset_range (s : Int) :
    -86400 ≤ stockholm.offsetAt s ∧ stockholm.offsetAt s ≤ 86400 := by
  show -86400 ≤ stockholmOffset s ∧ stockholmOffset s ≤ 86400
  unfold stockholmOffset
  split_ifs <;> omega

theorem month_of_daysFromCivil_ge (y m d : Int) (hm0 : 1 ≤ m) (hm1 : m ≤ 12) (hd : d ≤ 31)
    (h : 31 ≤ daysFromCivil y m d + absoluteDays) :
    -292277022400 < y ∨ (y = -292277022400 ∧ 4 ≤ m) := by
  simp only [daysFromCivil, absoluteDays] at h
  by_contra hc
  split_ifs at h with hm
  · have b1 : (y - 1) % 400 / 4 ≤ 99 := by omega
    have b2 : 0 ≤ (y - 1) % 400 / 100 := by omega
    have b3 : (y - 1) / 400 ≤ -730692557 := by omega
    have b4 : (y - 1) % 400 ≤ 399 := by omega
    omega
  · have b1 : y % 400 / 4 ≤ 99 := by omega
    have b2 : 0 ≤ y % 400 / 100 := by omega
    have b3 : y / 400 ≤ -730692556 := by omega
    have b4 : y % 400 ≤ 399 := by omega
    have b5 : y / 400 = -730692556 → y % 400 = 0 ∧ m = 3 := by omega
    by_cases hq : y / 400 = -730692556
    · have := b5 hq
      omega
    · omega

/-- What `time.Date` returns for 00:00:00 of a day in a zone in which that midnight
exists, when no 64-bit count wraps around: its wall clock reads 00:00:00 of that day. -/
theorem timeDate_midnight (loc : Location)
    (hoff : ∀ s : Int, -86400 ≤ loc.offsetAt s ∧ loc.offsetAt s ≤ 86400)
    (hmid : ∀ D : Int,
      loc.offsetAt (D * 86400 - loc.offsetAt (D * 86400 - loc.offsetAt (D * 86400))) =
        loc.offsetAt (D * 86400 - loc.offsetAt (D * 86400)))
    (y m d : Int) (hm0 : 1 ≤ m) (hm1 : m ≤ 12)
    (hy0 : -292277022400 < y ∨ (y = -292277022400 ∧ 3 ≤ m)) (hy1 : y ≤ 1000000000000000)
    (h0 : 0 ≤ daysFromCivil y m d + absoluteDays)
    (h1 : daysFromCivil y m d * 86400 + 86400 < 2 ^ 63) :
    (timeDate y m d 0 0 0 0 loc).localDay = daysFromCivil y m d ∧
      (timeDate y m d 0 0 0 0 loc).secondOfDay = 0 ∧ (timeDate y m d 0 0 0 0 loc).nsec = 0 ∧
      (timeDate y m d 0 0 0 0 loc).loc = loc := by
  have e1 : (m - 1) / 12 = 0 := by omega
  have e2 : (m - 1) % 12 + 1 = m := by omega
  have hd := dateToAbsDays_of_range y m d hm0 hm1 hy0 hy1
  have hd2 : dateToAbsDays y m d = daysFromCivil y m d + absoluteDays := by
    rw [hd]
    simp only [absoluteDays] at h0 ⊢
    omega
  have hl : (timeDate y m d 0 0 0 0 loc).loc = loc := rfl
  generalize hD : daysFromCivil y m d = D at *
  have hb1 := hoff (D * 86400)
  have hb2 := hoff (D * 86400 - loc.offsetAt (D * 86400))
  have hm' := hmid D
  have w0 : wrapUnix (D * 86400) = D * 86400 := by
    apply wrapUnix_of_range <;> simp only [unixToInternal, absoluteDays] at * <;> omega
  have w1 : wrapUnix (D * 86400 - loc.offsetAt (D * 86400)) =
      D * 86400 - loc.offsetAt (D * 86400) := by
    apply wrapUnix_of_range <;> simp only [unixToInternal, absoluteDays] at * <;> omega
  have w2 : wrapUnix (D * 86400 - loc.offsetAt (D * 86400 - loc.offsetAt (D * 86400))) =
      D * 86400 - loc.offsetAt (D * 86400 - loc.offsetAt (D * 86400)) := by
    apply wrapUnix_of_range <;> simp only [unixToInternal, absoluteDays] at * <;> omega
  have s64 : wrap64 (D * 86400 - loc.offsetAt (D * 86400 - loc.offsetAt (D * 86400))) =
      D * 86400 - loc.offsetAt (D * 86400 - loc.offsetAt (D * 86400)) := by
    unfold wrap64
    simp only [absoluteDays] at *
    omega
  have hw : (D + absoluteDays) * 86400 + 0 * 3600 + 0 * 60 + 0 / 1000000000 -
      internalToAbsolute = D * 86400 := by
    simp only [internalToAbsolute]
    ring
  have hsec : (timeDate y m d 0 0 0 0 loc).sec =
      D * 86400 - loc.offsetAt (D * 86400 - loc.offsetAt (D * 86400)) := by
    simp only [timeDate, Location.resolve, e1, e2, add_zero, hd2, hw, w0, w1, w2, s64]
  have habs : (timeDate y m d 0 0 0 0 loc).abs = (D + absoluteDays) * 86400 := by
    simp only [Time.abs, Time.offset, hl, hsec, w2, hm', internalToAbsolute]
    simp only [absoluteDays] at *
    omega
  refine ⟨?_, ?_, rfl, rfl⟩
  · simp only [Time.localDay, habs]
    omega
  · simp only [Time.secondOfDay, habs]
    omega

theorem daysFromCivil_prev_month (y m : Int) (hm0 : 1 ≤ m) (hm1 : m ≤ 12) :
    daysFromCivil y m 1 - 1 =
      daysFromCivil (if m = 1 then y - 1 else y) (if m = 1 then 12 else m - 1)
        (daysIn (if m = 1 then 12 else m - 1) (if m = 1 then y - 1 else y)) := by
  have hp : 1 ≤ (if m = 1 then 12 else m - 1) ∧ (if m = 1 then 12 else m - 1) ≤ 12 := by
    split_ifs <;> omega
  have h := daysFromCivil_next_month (if m = 1 then y - 1 else y)
    (if m = 1 then 12 else m - 1) hp.1 hp.2
  have e : daysFromCivil (if (if m = 1 then 12 else m - 1) = 12 then
        (if m = 1 then y - 1 else y) + 1 else (if m = 1 then y - 1 else y))
      (if (if m = 1 then 12 else m - 1) = 12 then 1 else (if m = 1 then 12 else m - 1) + 1) 1 =
      daysFromCivil y m 1 := by
    by_cases h1 : m = 1
    · subst h1
      simp
    · have h13 : ¬ (m - 1 = 12) := by omega
      simp [h1, h13]
  rw [e] at h
  omega

/-- The date that the methods of `t` show when none of its 64-bit counts wraps
around. -/
theorem Time.In_localDay (t : Time) (loc : Location)
    (hoff : ∀ s : Int, -86400 ≤ loc.offsetAt s ∧ loc.offsetAt s ≤ 86400)
    (hlo : 0 ≤ t.sec + loc.offsetAt t.sec + internalToAbsolute)
    (hhi : t.sec + loc.offsetAt t.sec + 86400 < 2 ^ 63) :
    (t.In loc).localDay = (t.sec + loc.offsetAt t.sec) / 86400 := by
  have hb := hoff t.sec
  have w : wrapUnix t.sec = t.sec := by
    apply wrapUnix_of_range <;>
      simp only [unixToInternal, internalToAbsolute, absoluteDays] at * <;> omega
  simp only [Time.localDay, Time.abs, Time.offset, Time.In, w]
  simp only [internalToAbsolute, absoluteDays] at *
  omega

/-- The three times that `PreviousMonth` computes, in a zone where every midnight
exists, for an instant from 1 April of the year -292277022400 on: the first day of the
month of `t`, the day before it and the first day of that day's month, each at
midnight. -/
theorem PreviousMonth_days (loc : Location) (t : Time)
    (hoff : ∀ s : Int, -86400 ≤ loc.offsetAt s ∧ loc.offsetAt s ≤ 86400)
    (hmid : ∀ D : Int,
      loc.offsetAt (D * 86400 - loc.offsetAt (D * 86400 - loc.offsetAt (D * 86400))) =
        loc.offsetAt (D * 86400 - loc.offsetAt (D * 86400)))
    (hlo : 31 * 86400 ≤ t.sec + loc.offsetAt t.sec + internalToAbsolute)
    (hhi : t.sec + loc.offsetAt t.sec + 86400 < 2 ^ 63) :
    (PreviousMonth loc t).2.toTime.localDay =
        daysFromCivil (t.In loc).Year (t.In loc).Month 1 - 1 ∧
      (PreviousMonth loc t).2.toTime.Date =
        (if (t.In loc).Month = 1 then (t.In loc).Year - 1 else (t.In loc).Year,
          if (t.In loc).Month = 1 then 12 else (t.In loc).Month - 1,
          daysIn (if (t.In loc).Month = 1 then 12 else (t.In loc).Month - 1)
            (if (t.In loc).Month = 1 then (t.In loc).Year - 1 else (t.In loc).Year)) ∧
      (PreviousMonth loc t).1.toTime.Date =
        (if (t.In loc).Month = 1 then (t.In loc).Year - 1 else (t.In loc).Year,
          if (t.In loc).Month = 1 then 12 else (t.In loc).Month - 1, 1) ∧
      (PreviousMonth loc t).1.toTime.secondOfDay = 0 ∧
      (PreviousMonth loc t).2.toTime.secondOfDay = 0 := by
  have hz := Time.In_localDay t loc hoff (by omega) hhi
  have hv := civilFromDays_valid (t.In loc).localDay
  have hdc := daysFromCivil_civilFromDays (t.In loc).localDay
  have hr := Time.localDay_range (t.In loc)
  have h31 := daysIn_le_31 (civilFromDays (t.In loc).localDay).2.1
    (civilFromDays (t.In loc).localDay).1
  have hm0 : 1 ≤ (t.In loc).Month := hv.1
  have hm1 : (t.In loc).Month ≤ 12 := hv.2.1
  have hzlo : 31 ≤ (t.In loc).localDay + absoluteDays := by
    rw [hz]
    simp only [internalToAbsolute, absoluteDays] at hlo ⊢
    omega
  have hzhi : (t.In loc).localDay * 86400 + 86400 < 2 ^ 63 := by
    rw [hz]
    omega
  have hy0 : -292277022400 < (t.In loc).Year ∨
      ((t.In loc).Year = -292277022400 ∧ 4 ≤ (t.In loc).Month) :=
    month_of_daysFromCivil_ge (civilFromDays (t.In loc).localDay).1
      (civilFromDays (t.In loc).localDay).2.1 (civilFromDays (t.In loc).localDay).2.2
      hv.1 hv.2.1 (by omega) (by rw [hdc]; exact hzlo)
  have hy1 : (t.In loc).Year ≤ 292277026854 :=
    year_of_daysFromCivil_le (civilFromDays (t.In loc).localDay).1
      (civilFromDays (t.In loc).localDay).2.1 (civilFromDays (t.In loc).localDay).2.2
      hv.1 hv.2.1 hv.2.2.1 (by rw [hdc]; exact hr.2)
  have hD1 : daysFromCivil (t.In loc).Year (t.In loc).Month 1 ≤ (t.In loc).localDay := by
    have := daysFromCivil_add (civilFromDays (t.In loc).localDay).1
      (civilFromDays (t.In loc).localDay).2.1 1 ((civilFromDays (t.In loc).localDay).2.2 - 1)
    rw [show (1 : Int) + ((civilFromDays (t.In loc).localDay).2.2 - 1) =
      (civilFromDays (t.In loc).localDay).2.2 from by ring, hdc] at this
    have hd1 := hv.2.2.1
    show daysFromCivil (civilFromDays (t.In loc).localDay).1
      (civilFromDays (t.In loc).localDay).2.1 1 ≤ _
    omega
  have hPM2 : (PreviousMonth loc t).2.toTime =
      (timeDate (t.In loc).Year (t.In loc).Month 1 0 0 0 0 loc).AddDate 0 0 (-1) := rfl
  have hPM1 : (PreviousMonth loc t).1.toTime =
      timeDate ((timeDate (t.In loc).Year (t.In loc).Month 1 0 0 0 0 loc).AddDate 0 0 (-1)).Year
        ((timeDate (t.In loc).Year (t.In loc).Month 1 0 0 0 0 loc).AddDate 0 0 (-1)).Month
        1 0 0 0 0 loc := rfl
  rw [hPM1, hPM2]
  clear hPM1 hPM2 hv hdc h31 hz hr
  generalize (t.In loc).localDay = z at *
  generalize (t.In loc).Year = y at *
  generalize (t.In loc).Month = m at *
  have hp : 1 ≤ (if m = 1 then 12 else m - 1) ∧ (if m = 1 then 12 else m - 1) ≤ 12 := by
    split_ifs <;> omega
  have hpy0 : -292277022400 < (if m = 1 then y - 1 else y) ∨
      ((if m = 1 then y - 1 else y) = -292277022400 ∧ 3 ≤ (if m = 1 then 12 else m - 1)) := by
    split_ifs <;> omega
  have hpy1 : (if m = 1 then y - 1 else y) ≤ 1000000000000000 := by
    split_ifs <;> omega
  have hg := daysIn_ge (if m = 1 then 12 else m - 1) (if m = 1 then y - 1 else y)
  have hprev := daysFromCivil_prev_month y m hm0 hm1
  have hpge := daysFromCivil_ge_absoluteZero (if m = 1 then y - 1 else y)
    (if m = 1 then 12 else m - 1)
    (daysIn (if m = 1 then 12 else m - 1) (if m = 1 then y - 1 else y)) hp.1 hp.2 hpy0
  have hpge1 := daysFromCivil_ge_absoluteZero (if m = 1 then y - 1 else y)
    (if m = 1 then 12 else m - 1) 1 hp.1 hp.2 hpy0
  have hpadd := daysFromCivil_add (if m = 1 then y - 1 else y) (if m = 1 then 12 else m - 1) 1
    (daysIn (if m = 1 then 12 else m - 1) (if m = 1 then y - 1 else y) - 1)
  rw [show (1 : Int) + (daysIn (if m = 1 then 12 else m - 1) (if m = 1 then y - 1 else y) - 1) =
    daysIn (if m = 1 then 12 else m - 1) (if m = 1 then y - 1 else y) from by ring] at hpadd
  have hz0 : daysFromCivil y m 0 = daysFromCivil y m 1 - 1 := by
    have := daysFromCivil_add y m 1 (-1)
    simpa using this
  have hmy0 : -292277022400 < y ∨ (y = -292277022400 ∧ 3 ≤ m) := by omega
  -- the first day of the current month
  obtain ⟨f1, f2, f3, f4⟩ := timeDate_midnight loc hoff hmid y m 1 hm0 hm1 hmy0 (by omega)
    (by omega) (by omega)
  have fD : (timeDate y m 1 0 0 0 0 loc).Date = (y, m, 1) := by
    simp only [Time.Date, f1]
    exact civilFromDays_daysFromCivil y m 1 hm0 hm1 (by decide) (by have := daysIn_ge m y; omega)
  -- the day before
  have hlast : (timeDate y m 1 0 0 0 0 loc).AddDate 0 0 (-1) = timeDate y m 0 0 0 0 0 loc := by
    simp only [Time.AddDate, Time.Year, Time.Month, Time.Day, fD, f2, f3, f4]
    simp
  obtain ⟨l1, l2, _, _⟩ := timeDate_midnight loc hoff hmid y m 0 hm0 hm1 hmy0 (by omega)
    (by omega) (by omega)
  have l1' : (timeDate y m 0 0 0 0 0 loc).localDay = daysFromCivil y m 1 - 1 := by
    rw [l1, hz0]
  have lD : (timeDate y m 0 0 0 0 0 loc).Date =
      (if m = 1 then y - 1 else y, if m = 1 then 12 else m - 1,
        daysIn (if m = 1 then 12 else m - 1) (if m = 1 then y - 1 else y)) := by
    simp only [Time.Date, l1', daysFromCivil_prev_month y m hm0 hm1]
    exact civilFromDays_daysFromCivil _ _ _ hp.1 hp.2 (by omega) (le_refl _)
  -- the first day of its month
  obtain ⟨p1, p2, _, _⟩ := timeDate_midnight loc hoff hmid (if m = 1 then y - 1 else y)
    (if m = 1 then 12 else m - 1) 1 hp.1 hp.2 hpy0 hpy1 (by omega) (by omega)
  have pD : (timeDate (if m = 1 then y - 1 else y) (if m = 1 then 12 else m - 1) 1 0 0 0 0 loc).Date
      = (if m = 1 then y - 1 else y, if m = 1 then 12 else m - 1, 1) := by
    simp only [Time.Date, p1]
    exact civilFromDays_daysFromCivil _ _ 1 hp.1 hp.2 (by decide) (by omega)
  rw [hlast]
  simp only [Time.Year, Time.Month, lD]
  exact ⟨l1', trivial, pD, p2, l2⟩

/-- The cases of `TestPreviousWeek`: a Wednesday, a Sunday and a Monday of March 2024
at noon in Stockholm. -/
theorem PreviousWeek_tests :
    ((PreviousWeek stockholm (timeDate 2024 3 27 12 0 0 0 stockholm)).1.toTime.FormatDateOnly,
      (PreviousWeek stockholm (timeDate 2024 3 27 12 0 0 0 stockholm)).2.toTime.FormatDateOnly) =
        ("2024-03-18", "2024-03-24") ∧
    ((PreviousWeek stockholm (timeDate 2024 3 24 12 0 0 0 stockholm)).1.toTime.FormatDateOnly,
      (PreviousWeek stockholm (timeDate 2024 3 24 12 0 0 0 stockholm)).2.toTime.FormatDateOnly) =
        ("2024-03-11", "2024-03-17") ∧
    ((PreviousWeek stockholm (timeDate 2024 3 25 12 0 0 0 stockholm)).1.toTime.FormatDateOnly,
      (PreviousWeek stockholm (timeDate 2024 3 25 12 0 0 0 stockholm)).2.toTime.FormatDateOnly) =
        ("2024-03-18", "2024-03-24") := by
  set_option maxRecDepth 100000 in
  decide

/-- The cases of `TestPreviousMonth`. -/
theorem PreviousMonth_tests :
    ((PreviousMonth stockholm (timeDate 2024 4 15 0 0 0 0 stockholm)).1.toTime.FormatDateOnly,
      (PreviousMonth stockholm (timeDate 2024 4 15 0 0 0 0 stockholm)).2.toTime.FormatDateOnly) =
        ("2024-03-01", "2024-03-31") ∧
    ((PreviousMonth stockholm (timeDate 2024 3 1 0 0 0 0 stockholm)).1.toTime.FormatDateOnly,
      (PreviousMonth stockholm (timeDate 2024 3 1 0 0 0 0 stockholm)).2.toTime.FormatDateOnly) =
        ("2024-02-01", "2024-02-29") ∧
    ((PreviousMonth stockholm (timeDate 2024 1 10 0 0 0 0 stockholm)).1.toTime.FormatDateOnly,
      (PreviousMonth stockholm (timeDate 2024 1 10 0 0 0 0 stockholm)).2.toTime.FormatDateOnly) =
        ("2023-12-01", "2023-12-31") := by
  set_option maxRecDepth 100000 in
  decide

/-! ## Lemmas on the requests of a run -/

theorem retryRequest_trace (c : Client) (env : Env) (req : Request) (fuel : Nat) :
    ∀ (w w1 : World) (res : Except String Response),
    c.retryRequest env req fuel w = some (res, w1) →
    ∃ k, w1.requests = w.requests ++ List.replicate k req ++ [req] ∧
      (∀ i, i < k → ∃ r, c.httpClient (w.requests ++ List.replicate (i + 1) req) = Except.ok r ∧
        r.StatusCode = 429) ∧
      c.httpClient (w.requests ++ List.replicate k req ++ [req]) = res ∧
      (∀ r, res = Except.ok r → r.StatusCode ≠ 429) := by
  induction fuel with
  | zero => intro w w1 res h; simp [Client.retryRequest] at h
  | succ f ih =>
    intro w w1 res h
    simp only [Client.retryRequest] at h
    split at h
    · rename_i err herr
      injection h with h; injection h with h1 h2
      refine ⟨0, ?_, ?_, ?_, ?_⟩
      · rw [← h2]; simp
      · intro i hi; omega
      · rw [← h1]; simpa using herr
      · intro r hr; rw [← h1] at hr; cases hr
    · rename_i resp hresp
      split_ifs at h with h429
      · obtain ⟨k, hk1, hk2, hk3, hk4⟩ := ih _ _ _ h
        refine ⟨k + 1, ?_, ?_, ?_, hk4⟩
        · rw [hk1]; simp [List.replicate_succ]
        · intro i hi
          cases i with
          | zero => exact ⟨resp, by simpa using hresp, h429⟩
          | succ j =>
            obtain ⟨r, hr1, hr2⟩ := hk2 j (by omega)
            exact ⟨r, by simpa [List.replicate_succ] using hr1, hr2⟩
        · simpa [List.replicate_succ] using hk3
      · injection h with h; injection h with h1 h2
        refine ⟨0, ?_, ?_, ?_, ?_⟩
        · rw [← h2]; simp
        · intro i hi; omega
        · rw [← h1]; simpa using hresp
        · intro r hr; rw [← h1] at hr; injection hr with hr; rw [← hr]; exact h429

theorem replicate_append_cons {β : Type} (a : β) (rest : List β) :
    ∀ k : Nat, List.replicate k a ++ a :: rest = a :: (List.replicate k a ++ rest) := by
  intro k
  induction k with
  | zero => rfl
  | succ k ih => simp [List.replicate_succ, ih]

theorem RequestChain_retries {α : Type} (c : Client)
    (decode : String → Except String (ListResponse α)) (a : Request) (rest : List Request) :
    ∀ (k : Nat) (hist : List Request),
    (∀ i, i < k → ∃ r, c.httpClient (hist ++ List.replicate (i + 1) a) = Except.ok r ∧
      r.StatusCode = 429) →
    RequestChain c decode (hist ++ List.replicate k a) (a :: rest) →
    RequestChain c decode hist (List.replicate k a ++ a :: rest) := by
  intro k
  induction k with
  | zero => intro hist _ h; simpa using h
  | succ k ih =>
    intro hist h429 h
    have e : List.replicate (k + 1) a ++ a :: rest = a :: (List.replicate k a ++ a :: rest) := by
      simp [List.replicate_succ]
    have e2 := replicate_append_cons a rest k
    have hnext : NextRequest c decode hist a a := by
      obtain ⟨r, hr1, hr2⟩ := h429 0 (by omega)
      have hr1' : c.httpClient (hist ++ [a]) = Except.ok r := by simpa using hr1
      simp only [NextRequest, hr1']
      exact Or.inl ⟨hr2, trivial⟩
    have hrec : RequestChain c decode (hist ++ [a]) (List.replicate k a ++ a :: rest) := by
      apply ih
      · intro i hi
        obtain ⟨r, hr1, hr2⟩ := h429 (i + 1) (by omega)
        exact ⟨r, by simpa [List.replicate_succ] using hr1, hr2⟩
      · simpa [List.replicate_succ] using h
    rw [e]
    rw [e2] at hrec ⊢
    exact ⟨hnext, hrec⟩

theorem doGetRequest_trace (c : Client) (env : Env) (u : URL) (fuel : Nat)
    (w w1 : World) (res : Except String String)
    (h : c.doGetRequest env u fuel w = some (res, w1)) :
    ∃ k, w1.requests = w.requests ++
        List.replicate k (⟨u, "Bearer " ++ c.token⟩ : Request) ++ [⟨u, "Bearer " ++ c.token⟩] ∧
      (∀ i, i < k → ∃ r, c.httpClient (w.requests ++
        List.replicate (i + 1) (⟨u, "Bearer " ++ c.token⟩ : Request)) = Except.ok r ∧
        r.StatusCode = 429) ∧
      ∀ body, res = Except.ok body →
        ∃ r, c.httpClient (w.requests ++
            List.replicate k (⟨u, "Bearer " ++ c.token⟩ : Request) ++
            [⟨u, "Bearer " ++ c.token⟩]) = Except.ok r ∧
          r.StatusCode = 200 ∧ r.readErr = none ∧ r.Body = body := by
  simp only [Client.doGetRequest] at h
  split at h
  · simp at h
  · rename_i err w2 hr
    injection h with h; injection h with h1 h2
    obtain ⟨k, hk1, hk2, _, _⟩ := retryRequest_trace c env _ fuel w w2 _ hr
    refine ⟨k, by rw [← h2]; exact hk1, hk2, ?_⟩
    intro body hb
    rw [← h1] at hb
    cases hb
  · rename_i resp w2 hr
    obtain ⟨k, hk1, hk2, hk3, _⟩ := retryRequest_trace c env _ fuel w w2 _ hr
    split_ifs at h with hs
    · injection h with h; injection h with h1 h2
      refine ⟨k, by rw [← h2]; exact hk1, hk2, ?_⟩
      intro body hb
      rw [← h1] at hb
      cases hb
    · split at h
      · injection h with h; injection h with h1 h2
        refine ⟨k, by rw [← h2]; exact hk1, hk2, ?_⟩
        intro body hb
        rw [← h1] at hb
        cases hb
      · rename_i hre
        injection h with h; injection h with h1 h2
        refine ⟨k, by rw [← h2]; exact hk1, hk2, ?_⟩
        intro body hb
        rw [← h1] at hb
        injection hb with hb
        exact ⟨resp, hk3, by simpa using hs, hre, hb⟩

theorem listLoop_trace {α : Type} (c : Client) (env : Env)
    (decode : String → Except String (ListResponse α)) (u : URL) (fuel : Nat) :
    ∀ (q : Values) (acc : List α) (w w1 : World) (res : Except String (List α)),
    listLoop c env decode u fuel q acc w = some (res, w1) →
    ∃ rest, w1.requests =
        w.requests ++ (⟨⟨u.rest, q⟩, "Bearer " ++ c.token⟩ : Request) :: rest ∧
      RequestChain c decode w.requests ((⟨⟨u.rest, q⟩, "Bearer " ++ c.token⟩ : Request) :: rest) ∧
      ∀ r, r ∈ (⟨⟨u.rest, q⟩, "Bearer " ++ c.token⟩ : Request) :: rest →
        r.url.rest = u.rest ∧ r.authorization = "Bearer " ++ c.token ∧
        ∀ key, key ≠ "page" → r.url.query key = q key := by
  induction fuel with
  | zero => intro q acc w w1 res h; simp [listLoop] at h
  | succ f ih =>
    intro q acc w w1 res h
    -- every run of the executor sends the request `k + 1` times
    have hterm : ∀ (w2 : World) (k : Nat),
        w2.requests = w.requests ++
          List.replicate k (⟨⟨u.rest, q⟩, "Bearer " ++ c.token⟩ : Request) ++
          [⟨⟨u.rest, q⟩, "Bearer " ++ c.token⟩] →
        (∀ i, i < k → ∃ r, c.httpClient (w.requests ++
          List.replicate (i + 1) (⟨⟨u.rest, q⟩, "Bearer " ++ c.token⟩ : Request)) = Except.ok r ∧
          r.StatusCode = 429) →
        ∃ rest, w2.requests =
            w.requests ++ (⟨⟨u.rest, q⟩, "Bearer " ++ c.token⟩ : Request) :: rest ∧
          RequestChain c decode w.requests
            ((⟨⟨u.rest, q⟩, "Bearer " ++ c.token⟩ : Request) :: rest) ∧
          ∀ r, r ∈ (⟨⟨u.rest, q⟩, "Bearer " ++ c.token⟩ : Request) :: rest →
            r.url.rest = u.rest ∧ r.authorization = "Bearer " ++ c.token ∧
            ∀ key, key ≠ "page" → r.url.query key = q key := by
      intro w2 k hw2 h429
      have e3 : (⟨⟨u.rest, q⟩, "Bearer " ++ c.token⟩ : Request) ::
          List.replicate k ⟨⟨u.rest, q⟩, "Bearer " ++ c.token⟩ =
          List.replicate k ⟨⟨u.rest, q⟩, "Bearer " ++ c.token⟩ ++
            [⟨⟨u.rest, q⟩, "Bearer " ++ c.token⟩] := by
        have := replicate_append_cons (⟨⟨u.rest, q⟩, "Bearer " ++ c.token⟩ : Request) [] k
        simpa using this.symm
      refine ⟨List.replicate k ⟨⟨u.rest, q⟩, "Bearer " ++ c.token⟩, ?_, ?_, ?_⟩
      · rw [hw2, e3, List.append_assoc]
      · rw [e3]
        exact RequestChain_retries c decode _ [] k w.requests h429 trivial
      · intro r hr
        have : r = ⟨⟨u.rest, q⟩, "Bearer " ++ c.token⟩ := by
          rcases List.mem_cons.mp hr with h1 | h1
          · exact h1
          · exact List.eq_of_mem_replicate h1
        subst this
        exact ⟨rfl, rfl, fun _ _ => rfl⟩
    simp only [listLoop] at h
    split at h
    · simp at h
    · rename_i err w2 hr
      injection h with h; injection h with _ h2
      obtain ⟨k, hk1, hk2, _⟩ := doGetRequest_trace c env _ _ w w2 _ hr
      rw [← h2]
      exact hterm w2 k hk1 hk2
    · rename_i body w2 hr
      obtain ⟨k, hk1, hk2, hk3⟩ := doGetRequest_trace c env _ _ w w2 _ hr
      obtain ⟨r200, hr1, hr2, hr3, hr4⟩ := hk3 body rfl
      split at h
      · injection h with h; injection h with _ h2
        rw [← h2]
        exact hterm w2 k hk1 hk2
      · rename_i response hdec
        split_ifs at h with hlast
        · injection h with h; injection h with _ h2
          rw [← h2]
          exact hterm w2 k hk1 hk2
        · obtain ⟨rest1, hi1, hi2, hi3⟩ := ih _ _ _ _ _ h
          have e4 := replicate_append_cons (⟨⟨u.rest, q⟩, "Bearer " ++ c.token⟩ : Request)
            ((⟨⟨u.rest, q.set "page" (fmtInt (response.Page + 1))⟩,
              "Bearer " ++ c.token⟩ : Request) :: rest1) k
          refine ⟨List.replicate k ⟨⟨u.rest, q⟩, "Bearer " ++ c.token⟩ ++
            (⟨⟨u.rest, q.set "page" (fmtInt (response.Page + 1))⟩,
              "Bearer " ++ c.token⟩ : Request) :: rest1, ?_, ?_, ?_⟩
          · rw [hi1, hk1, ← e4]
            simp
          · rw [← e4]
            apply RequestChain_retries c decode _ _ k w.requests hk2
            refine ⟨?_, ?_⟩
            · simp only [NextRequest]
              rw [hr1]
              exact Or.inr ⟨hr2, hr3, response, by rw [hr4]; exact hdec, by omega, rfl⟩
            · rw [← hk1]
              exact hi2
          · intro r hr
            rw [← e4] at hr
            rcases List.mem_append.mp hr with hm | hm
            · have := List.eq_of_mem_replicate hm
              subst this
              exact ⟨rfl, rfl, fun _ _ => rfl⟩
            · rcases List.mem_cons.mp hm with hm | hm
              · subst hm
                exact ⟨rfl, rfl, fun _ _ => rfl⟩
              · obtain ⟨f1, f2, f3⟩ := hi3 r hm
                refine ⟨f1, f2, ?_⟩
                intro key hkey
                rw [f3 key hkey]
                simp [Values.set, hkey]

/-! ## C1: Pagination completeness -/

/-- C1 (pagination completeness): if the server answers every request carrying
`page=i`, `1 ≤ i ≤ N`, with status 200 and an envelope with `page = i`,
`totalPages = N` and items `I i`, then `List`, called with accepted options whose
`Page` is 1, returns `I 1 ++ ... ++ I N` without error and sends exactly `N` requests,
the `i`-th carrying `page=i`. -/
theorem List_pagination_completeness {α : Type} (c : Client) (env : Env) (T : ListItem)
    (decode : String → Except String (ListResponse α)) (options : ListOptions) (u : URL)
    (N : Nat) (I : Nat → List α) (hN : 1 ≤ N) (hpage : options.Page = 1)
    (hvalid : T.validFilter options = true)
    (hurl : env.parseURL (c.baseURL ++ T.path) = Except.ok u)
    (hsrv : ∀ (h : List Request) (r : Request) (i : Nat), 1 ≤ i → i ≤ N →
      r.url.query "page" = some [fmtInt (i : Int)] →
      ∃ resp, c.httpClient (h ++ [r]) = Except.ok resp ∧ resp.StatusCode = 200 ∧
        resp.readErr = none ∧ ∃ e, decode resp.Body = Except.ok e ∧ e.Page = (i : Int) ∧
          e.TotalPages = (N : Int) ∧ e.Items = I i)
    (fuel : Nat) (hfuel : N ≤ fuel) (w : World) :
    ∃ reqs : List Request,
      c.List env T decode options fuel w =
        some (Except.ok ((List.range N).flatMap (fun j => I (j + 1))),
          ⟨w.requests ++ reqs, w.sleeps⟩) ∧
      reqs.length = N ∧
      ∀ j, j < N →
        (reqs[j]?).map (fun r => r.url.query "page") = some (some [fmtInt ((j + 1 : Nat) : Int)]) := by
  obtain ⟨m, rfl⟩ : ∃ m, N = m + 1 := ⟨N - 1, by omega⟩
  have hq : buildQuery u.query options "page" = some [fmtInt ((1 : Nat) : Int)] := by
    rw [buildQuery_page _ _ (by rw [hpage]; decide), hpage]; rfl
  have key := listLoop_pages c env decode u (m + 1) I hsrv m 1 (buildQuery u.query options) []
    w fuel (by omega) (by omega) hq (by omega)
  refine ⟨(List.range (m + 1)).map (fun j =>
    (⟨⟨u.rest, (buildQuery u.query options).set "page" (fmtInt ((1 + j : Nat) : Int))⟩,
      "Bearer " ++ c.token⟩ : Request)), ?_, ?_, ?_⟩
  · simp only [Client.List, hvalid, hurl, key, not_true_eq_false, if_false, List.nil_append]
    simp only [Nat.add_comm 1]
  · simp
  · intro j hj
    simp [List.getElem?_map, List.getElem?_range hj, Values.set, Int.add_comm 1 (j : Int)]

/-- Witness for C1: the two-page server, listed with `NewListOptions`. -/
theorem List_pagination_completeness_witness :
    ∃ reqs : List Request,
      (⟨"https://publicapi.blikk.com/", "token", twoPageServer⟩ : Client).List exampleEnv Users
          exampleDecode NewListOptions 2 ⟨[], []⟩ =
        some (Except.ok [1, 2], ⟨reqs, []⟩) ∧
      reqs.length = 2 := by
  obtain ⟨reqs, h1, h2, _⟩ := List_pagination_completeness
    ⟨"https://publicapi.blikk.com/", "token", twoPageServer⟩ exampleEnv Users exampleDecode
    NewListOptions ⟨"https://publicapi.blikk.com/" ++ Users.path, Values.empty⟩ 2 twoPageItems
    (by decide) rfl (by decide) rfl
    (by
      intro h r i h1 h2 hq
      have hi : i = 1 ∨ i = 2 := by omega
      have f1 : fmtInt ((1 : Nat) : Int) = "1" := by decide
      have f2 : fmtInt ((2 : Nat) : Int) = "2" := by decide
      rcases hi with rfl | rfl
      · rw [f1] at hq
        exact ⟨⟨200, "", "p1", none⟩, by simp [twoPageServer, hq], rfl, rfl,
          ⟨"list", 1, 100, 1, 2, 2, [1]⟩, by simp [exampleDecode], rfl, rfl, rfl⟩
      · rw [f2] at hq
        exact ⟨⟨200, "", "p2", none⟩, by simp [twoPageServer, hq], rfl, rfl,
          ⟨"list", 2, 100, 1, 2, 2, [2]⟩, by simp [exampleDecode], rfl, rfl, rfl⟩)
    2 (by decide) ⟨[], []⟩
  exact ⟨reqs, by simpa [twoPageItems, List.range_succ, List.flatMap] using h1, h2⟩

/-! ## C2: Single-page termination -/

/-- C2, counterexample to the claim as stated: every 200 response of
`rateLimitedServer` is an envelope with `page ≥ totalPages` and the options are
accepted, yet `List` sends two requests, because the first attempt is answered with
429. -/
theorem List_single_page_counterexample :
    Users.validFilter NewListOptions = true ∧
    (∀ history resp, rateLimitedServer history = Except.ok resp → resp.StatusCode = 200 →
      ∃ e, exampleDecode resp.Body = Except.ok e ∧ e.Page ≥ e.TotalPages) ∧
    ∃ w1, (⟨"https://publicapi.blikk.com/", "token", rateLimitedServer⟩ : Client).List
        exampleEnv Users exampleDecode NewListOptions 2 ⟨[], []⟩ = some (Except.ok [7], w1) ∧
      w1.requests.length = 2 := by
  refine ⟨by decide, ?_, ?_⟩
  · intro history resp h hs
    unfold rateLimitedServer at h
    split_ifs at h
    · injection h with h; subst h; simp at hs
    · injection h with h; subst h
      exact ⟨⟨"list", 1, 100, 1, 1, 1, [7]⟩, by simp [exampleDecode], by decide⟩
  · have h := listLoop_last_page ⟨"https://publicapi.blikk.com/", "token", rateLimitedServer⟩
      exampleEnv exampleDecode ⟨"https://publicapi.blikk.com/v1/Admin/Users", Values.empty⟩
      (buildQuery Values.empty NewListOptions) [] ⟨200, "", "single", none⟩
      ⟨"list", 1, 100, 1, 1, 1, [7]⟩ 1 (fun _ => ⟨429, "1", "", none⟩) ⟨[], []⟩ 2
      (by intro i hi; obtain rfl : i = 0 := by omega
          exact ⟨rfl, rfl⟩)
      rfl rfl rfl (by simp [exampleDecode]) (by decide) (by decide)
    have hv : Users.validFilter NewListOptions = true := by decide
    refine ⟨?w1, ?hrun, ?hlen⟩
    case hrun =>
      simp only [Client.List, hv, not_true_eq_false, if_false, exampleEnv]
      exact h
    case hlen => simp

/-- C2, as amended (single-page termination): for accepted options, if the server
answers the first request with `k ≥ 0` rate-limit responses (429) and then with a 200
envelope whose `page ≥ totalPages`, `List` sends exactly `k + 1` requests (exactly one
when the first response is that envelope) and returns exactly the items of that
envelope, with no error. -/
theorem List_single_page_termination {α : Type} (c : Client) (env : Env) (T : ListItem)
    (decode : String → Except String (ListResponse α)) (options : ListOptions) (u : URL)
    (r : Response) (e : ListResponse α) (k : Nat) (resps : Nat → Response) (w : World)
    (fuel : Nat) (hvalid : T.validFilter options = true)
    (hurl : env.parseURL (c.baseURL ++ T.path) = Except.ok u)
    (h429 : ∀ i, i < k →
      c.httpClient (w.requests ++ List.replicate (i + 1)
        ⟨⟨u.rest, buildQuery u.query options⟩, "Bearer " ++ c.token⟩) =
        Except.ok (resps i) ∧ (resps i).StatusCode = 429)
    (hr : c.httpClient (w.requests ++ List.replicate (k + 1)
      ⟨⟨u.rest, buildQuery u.query options⟩, "Bearer " ++ c.token⟩) = Except.ok r)
    (hs : r.StatusCode = 200) (hread : r.readErr = none) (hdec : decode r.Body = Except.ok e)
    (hlast : e.Page ≥ e.TotalPages) (hfuel : k < fuel) :
    c.List env T decode options fuel w =
      some (Except.ok e.Items,
        ⟨w.requests ++ List.replicate (k + 1)
          ⟨⟨u.rest, buildQuery u.query options⟩, "Bearer " ++ c.token⟩,
          w.sleeps ++ retrySleeps env resps w.requests.length k⟩) := by
  have h := listLoop_last_page c env decode u (buildQuery u.query options) [] r e k resps w
    fuel h429 hr hs hread hdec hlast hfuel
  simp only [Client.List, hvalid, hurl, h, not_true_eq_false, if_false, List.nil_append]

/-- Witness for C2 as amended: a server that answers at once with a one-page
envelope; one request is sent. -/
theorem List_single_page_termination_witness :
    (⟨"https://publicapi.blikk.com/", "token", singlePageServer⟩ : Client).List exampleEnv Users exampleDecode NewListOptions 1 ⟨[], []⟩ =
      some (Except.ok [7],
        ⟨[⟨⟨"https://publicapi.blikk.com/v1/Admin/Users",
          buildQuery Values.empty NewListOptions⟩, "Bearer token"⟩], []⟩) :=
  List_single_page_termination
    ⟨"https://publicapi.blikk.com/", "token", singlePageServer⟩ exampleEnv Users exampleDecode NewListOptions
    ⟨"https://publicapi.blikk.com/v1/Admin/Users", Values.empty⟩
    ⟨200, "", "single", none⟩ ⟨"list", 1, 100, 1, 1, 1, [7]⟩ 0 (fun _ => ⟨429, "", "", none⟩)
    ⟨[], []⟩ 1 (by decide) rfl (by intro i hi; omega) rfl rfl rfl (by simp [exampleDecode])
    (by decide) (by decide)

/-! ## C3: Filter rejection -/

/-- C3 (filter rejection): when the filter predicate of the resource type rejects the
options, `List` returns the error `invalid filter options for <T>` and leaves the world
untouched: no request is sent. -/
theorem List_filter_rejection {α : Type} (c : Client) (env : Env) (T : ListItem)
    (decode : String → Except String (ListResponse α)) (options : ListOptions)
    (hreject : T.validFilter options = false) (fuel : Nat) (w : World) :
    c.List env T decode options fuel w =
      some (Except.error ("invalid filter options for " ++ T.typeName), w) := by
  simp [Client.List, hreject]

/-- Witness for C3: `Users` rejects an identifier filter. -/
theorem List_filter_rejection_witness :
    (⟨"https://publicapi.blikk.com/", "token", twoPageServer⟩ : Client).List exampleEnv Users
        exampleDecode ⟨1, 100, some [7], none, none⟩ 5 ⟨[], []⟩ =
      some (Except.error "invalid filter options for blikk.Users", ⟨[], []⟩) :=
  List_filter_rejection _ exampleEnv Users exampleDecode ⟨1, 100, some [7], none, none⟩
    (by decide) 5 ⟨[], []⟩

/-! ## C4: Query omission -/

/-- C4, counterexample to the claim as stated: with `UserIDs` an empty non-nil slice
and no date filter, `Users` accepts the options and the first request of `List` carries
the key `filter.userIds` with the empty value. -/
theorem List_query_omission_counterexample :
    (⟨1, 100, some [], none, none⟩ : ListOptions).lenUserIDs = 0 ∧
    Users.validFilter ⟨1, 100, some [], none, none⟩ = true ∧
    ∃ req, (⟨"https://publicapi.blikk.com/", "token", singlePageServer⟩ : Client).List
        exampleEnv Users exampleDecode ⟨1, 100, some [], none, none⟩ 1 ⟨[], []⟩ =
        some (Except.ok [7], ⟨[req], []⟩) ∧
      req.url.query "filter.userIds" = some [""] :=
  ⟨rfl, by decide, _, rfl, by decide⟩

/-- C4, as amended (query omission): for accepted options whose filter fields are all
nil (`UserIDs`, `FromDate`, `ToDate`), the first request of `List` carries the query of
the parsed base URL with at most `page` and `pageSize` set on top of it: every other
key is as in the base URL, so with a base URL that has no query the only keys are
`page` and `pageSize`, and no filter key is present; a `Page` or `PageSize` equal to 0
is not set either. -/
theorem List_query_omission {α : Type} (c : Client) (env : Env) (T : ListItem)
    (decode : String → Except String (ListResponse α)) (options : ListOptions) (u : URL)
    (fuel : Nat) (w w1 : World) (res : Except String (List α))
    (hids : options.UserIDs = none) (hfrom : options.FromDate = none)
    (hto : options.ToDate = none) (hvalid : T.validFilter options = true)
    (hurl : env.parseURL (c.baseURL ++ T.path) = Except.ok u)
    (hrun : c.List env T decode options fuel w = some (res, w1)) :
    ∃ req rest, w1.requests = w.requests ++ req :: rest ∧
      (∀ key, key ≠ "page" → key ≠ "pageSize" → req.url.query key = u.query key) ∧
      ((∀ key, u.query key = none) →
        ∀ key, req.url.query key ≠ none → key = "page" ∨ key = "pageSize") ∧
      (options.Page = 0 → req.url.query "page" = u.query "page") ∧
      (options.PageSize = 0 → req.url.query "pageSize" = u.query "pageSize") := by
  obtain ⟨rest, hrest⟩ := List_first_request c env T decode options u fuel w w1 res hvalid hurl hrun
  refine ⟨_, rest, hrest, ?_, ?_, ?_, ?_⟩
  · intro key h1 h2
    exact buildQuery_other u.query options key hids hfrom hto h1 h2
  · intro hempty key hkey
    by_contra hne
    push_neg at hne
    exact hkey (by
      show buildQuery u.query options key = none
      rw [buildQuery_other u.query options key hids hfrom hto hne.1 hne.2, hempty])
  · intro hp
    exact buildQuery_page_zero u.query options hp
  · intro hs
    exact buildQuery_pageSize_zero u.query options hs

/-- Witness for C4 as amended: `NewListOptions` against a one-page server; the query
of the request that is sent has no filter key. -/
theorem List_query_omission_witness :
    buildQuery Values.empty NewListOptions "filter.userIds" = none ∧
    buildQuery Values.empty NewListOptions "filter.from" = none ∧
    buildQuery Values.empty NewListOptions "filter.to" = none := by
  obtain ⟨req, rest, h1, h2, _, _, _⟩ := List_query_omission
    ⟨"https://publicapi.blikk.com/", "token", singlePageServer⟩ exampleEnv Users exampleDecode
    NewListOptions ⟨"https://publicapi.blikk.com/v1/Admin/Users", Values.empty⟩ 1 ⟨[], []⟩
    ⟨[⟨⟨"https://publicapi.blikk.com/v1/Admin/Users", buildQuery Values.empty NewListOptions⟩,
      "Bearer token"⟩], []⟩ (Except.ok [7]) rfl rfl rfl (by decide) rfl rfl
  simp only [List.nil_append, List.cons.injEq] at h1
  rw [← h1.1] at h2
  exact ⟨h2 "filter.userIds" (by decide) (by decide), h2 "filter.from" (by decide) (by decide),
    h2 "filter.to" (by decide) (by decide)⟩

/-! ## C5: Query rendering -/

/-- C5, counterexample to the claim as stated: with `FromDate` the first day of the
year 10000, `TimeReports` accepts the options and the first request of `List` carries
`filter.from=10000-01-01`, which is not of the form `YYYY-MM-DD`. -/
theorem List_query_rendering_counterexample :
    TimeReports.validFilter ⟨1, 100, none, some ⟨dateUTC 10000 1 1⟩, none⟩ = true ∧
    (∃ req, (⟨"https://publicapi.blikk.com/", "token", singlePageServer⟩ : Client).List
        exampleEnv TimeReports exampleDecode
        ⟨1, 100, none, some ⟨dateUTC 10000 1 1⟩, none⟩ 1 ⟨[], []⟩ =
        some (Except.ok [7], ⟨[req], []⟩) ∧
      req.url.query "filter.from" = some ["10000-01-01"]) ∧
    ∀ y m d, "10000-01-01" ≠ specYMD y m d := by
  refine ⟨by set_option maxRecDepth 20000 in decide, ⟨_, rfl, by set_option maxRecDepth 20000 in decide⟩, ?_⟩
  intro y m d h
  have := congrArg String.length h
  simp [specYMD, String.length] at this

/-- C5, as amended (query rendering): in the first request of `List` every set field
appears under its wire name with a single value: a non-zero `Page` / `PageSize` as its
decimal rendering under `page` / `pageSize`, a non-nil `UserIDs` as the decimal
renderings of its elements joined by commas, in order, under `filter.userIds`, and a
set `FromDate` / `ToDate` whose year lies in 0..9999 as `YYYY-MM-DD` under
`filter.from` / `filter.to`. -/
theorem List_query_rendering {α : Type} (c : Client) (env : Env) (T : ListItem)
    (decode : String → Except String (ListResponse α)) (options : ListOptions) (u : URL)
    (fuel : Nat) (w w1 : World) (res : Except String (List α))
    (hvalid : T.validFilter options = true)
    (hurl : env.parseURL (c.baseURL ++ T.path) = Except.ok u)
    (hrun : c.List env T decode options fuel w = some (res, w1)) :
    ∃ req rest, w1.requests = w.requests ++ req :: rest ∧
      (options.Page ≠ 0 → req.url.query "page" = some [fmtInt options.Page]) ∧
      (options.PageSize ≠ 0 → req.url.query "pageSize" = some [fmtInt options.PageSize]) ∧
      (∀ ids, options.UserIDs = some ids →
        req.url.query "filter.userIds" =
          some [String.intercalate "," (ids.map fun i => fmtNat i.val)]) ∧
      (∀ d, options.FromDate = some d → 0 ≤ d.toTime.Year → d.toTime.Year ≤ 9999 →
        req.url.query "filter.from" =
          some [specYMD d.toTime.Year.toNat d.toTime.Month.toNat d.toTime.Day.toNat]) ∧
      (∀ d, options.ToDate = some d → 0 ≤ d.toTime.Year → d.toTime.Year ≤ 9999 →
        req.url.query "filter.to" =
          some [specYMD d.toTime.Year.toNat d.toTime.Month.toNat d.toTime.Day.toNat]) := by
  obtain ⟨rest, hrest⟩ := List_first_request c env T decode options u fuel w w1 res hvalid hurl hrun
  refine ⟨_, rest, hrest, ?_, ?_, ?_, ?_, ?_⟩
  · exact buildQuery_page u.query options
  · exact buildQuery_pageSize u.query options
  · intro ids h
    exact buildQuery_userIds u.query options ids h
  · intro d h hy0 hy1
    show buildQuery u.query options "filter.from" = _
    rw [buildQuery_from u.query options d h, FormatDateOnly_eq_specYMD d.toTime hy0 hy1]
  · intro d h hy0 hy1
    show buildQuery u.query options "filter.to" = _
    rw [buildQuery_to u.query options d h, FormatDateOnly_eq_specYMD d.toTime hy0 hy1]

/-- Witness for C5 as amended: time reports of users 3 and 12 from 2 January 2024 to
29 February 2024, against a one-page server. -/
theorem List_query_rendering_witness :
    ∃ req : Request,
      req.url.query "page" = some ["1"] ∧ req.url.query "pageSize" = some ["100"] ∧
      req.url.query "filter.userIds" = some ["3,12"] ∧
      req.url.query "filter.from" = some ["2024-01-02"] ∧
      req.url.query "filter.to" = some ["2024-02-29"] := by
  obtain ⟨req, rest, _, h1, h2, h3, h4, h5⟩ := List_query_rendering
    ⟨"https://publicapi.blikk.com/", "token", singlePageServer⟩ exampleEnv TimeReports
    exampleDecode ⟨1, 100, some [3, 12], some ⟨dateUTC 2024 1 2⟩, some ⟨dateUTC 2024 2 29⟩⟩
    ⟨"https://publicapi.blikk.com/v1/Core/TimeReports", Values.empty⟩ 1 ⟨[], []⟩
    ⟨[⟨⟨"https://publicapi.blikk.com/v1/Core/TimeReports", buildQuery Values.empty
      ⟨1, 100, some [3, 12], some ⟨dateUTC 2024 1 2⟩, some ⟨dateUTC 2024 2 29⟩⟩⟩,
      "Bearer token"⟩], []⟩ (Except.ok [7]) (by set_option maxRecDepth 20000 in decide) rfl
    (by set_option maxRecDepth 20000 in rfl)
  set_option maxRecDepth 20000 in
  exact ⟨req, h1 (by decide), h2 (by decide), h3 _ rfl, h4 _ rfl (by decide) (by decide),
    h5 _ rfl (by decide) (by decide)⟩

/-! ## C6: Retry-After wait -/

/-- C6, counterexample to the claim as stated: `9223372037` and `18446744074` are
non-negative integers accepted by `Atoi`, yet the wait is 1 second for the first and
0.290448384 seconds for the second: the product with `time.Second` wraps around. -/
theorem retryWait_counterexample :
    atoi "9223372037" = some 9223372037 ∧
    (∀ env now, retryWait env now "9223372037" = Second) ∧
    Second ≠ 9223372037 * Second ∧
    atoi "18446744074" = some 18446744074 ∧
    (∀ env now, retryWait env now "18446744074" = 290448384) ∧
    (290448384 : Int) ≠ 18446744074 * Second :=
  ⟨by decide, fun _ _ => rfl, by decide, by decide, fun _ _ => rfl, by decide⟩

/-- C6, as amended (Retry-After wait): the wait computed on a 429 response is `n`
seconds when the header is an integer `n` accepted by `strconv.Atoi` with
`0 ≤ n ≤ 9223372036` (so that `n` seconds fit a `time.Duration`), and 1 second when
`-9223372036 ≤ n < 0`; when `Atoi` rejects the header and it parses as an HTTP-date
`d`, the wait is `time.Until(d)` (`d - now`, saturated to the range of a duration),
replaced by 1 second when negative; when the header is absent or unparsable it is 1
second.  For every header the wait is non-negative, for the decimal numeral of every
`n` with `0 ≤ n ≤ 9223372036` it is exactly `n` seconds, and it is the duration that
`retryRequest` sleeps before the next attempt. -/
theorem retryWait_spec (env : Env) (now : Time) (retryAfter : String) :
    (∀ n, atoi retryAfter = some n → 0 ≤ n → n ≤ 9223372036 →
      retryWait env now retryAfter = n * Second) ∧
    (∀ n, atoi retryAfter = some n → -9223372036 ≤ n → n < 0 →
      retryWait env now retryAfter = Second) ∧
    (∀ d, retryAfter ≠ "" → atoi retryAfter = none → env.parseHTTPTime retryAfter = some d →
      retryWait env now retryAfter = if d.Sub now < 0 then Second else d.Sub now) ∧
    (atoi retryAfter = none → env.parseHTTPTime retryAfter = none →
      retryWait env now retryAfter = Second) ∧
    (retryAfter = "" → retryWait env now retryAfter = Second) ∧
    0 ≤ retryWait env now retryAfter ∧
    (∀ n : Int, 0 ≤ n → n ≤ 9223372036 → retryWait env now (fmtInt n) = n * Second) ∧
    (∀ (c : Client) (req : Request) (resp : Response) (fuel : Nat) (w : World),
      c.httpClient (w.requests ++ [req]) = Except.ok resp → resp.StatusCode = 429 →
      c.retryRequest env req (fuel + 1) w =
        c.retryRequest env req fuel ⟨w.requests ++ [req],
          w.sleeps ++ [retryWait env (env.now (w.requests.length + 1)) resp.RetryAfter]⟩) := by
  have hne : ∀ n, atoi retryAfter = some n → retryAfter ≠ "" := by
    intro n h he
    have h0 : atoi "" = none := by decide
    rw [he, h0] at h
    exact Option.noConfusion h
  have hsec : ∀ (hdr : String) (n : Int), atoi hdr = some n → 0 ≤ n → n ≤ 9223372036 →
      retryWait env now hdr = n * Second := by
    intro hdr n h h0 h1
    have hne2 : hdr ≠ "" := by
      intro he
      have h0 : atoi "" = none := by decide
      rw [he, h0] at h
      exact Option.noConfusion h
    have hw : wrap64 (n * Second) = n * Second :=
      wrap64_of_range _ (by unfold Second; omega) (by unfold Second; omega)
    have hnn : ¬ n * Second < 0 := by unfold Second; omega
    simp only [retryWait, hne2, ne_eq, not_false_eq_true, if_true, h, hw, hnn, if_false]
  refine ⟨hsec retryAfter, ?_, ?_, ?_, ?_, ?_, ?_, ?_⟩
  · intro n h h0 h1
    have hw : wrap64 (n * Second) = n * Second :=
      wrap64_of_range _ (by unfold Second; omega) (by unfold Second; omega)
    have hneg : n * Second < 0 := by unfold Second; omega
    simp only [retryWait, hne n h, ne_eq, not_false_eq_true, if_true, h, hw, hneg]
  · intro d he h hd
    simp only [retryWait, ne_eq, he, not_false_eq_true, if_true, h, hd]
  · intro h hd
    by_cases he : retryAfter = ""
    · simp [retryWait, he, Second]
    · simp [retryWait, he, h, hd, Second]
  · intro he
    simp [retryWait, he, Second]
  · unfold retryWait
    simp only
    split_ifs <;> first | (unfold Second; omega) | omega
  · intro n h0 h1
    exact hsec (fmtInt n) n (atoi_fmtInt n (by omega) (by omega)) h0 h1
  · intro c req resp fuel w hresp hs
    simp only [Client.retryRequest, hresp, hs, if_true, List.length_append, List.length_singleton]

/-- Witness for C6 as amended: `Retry-After: 120` gives a wait of 120 seconds. -/
theorem retryWait_spec_witness :
    retryWait exampleEnv Time.zero "120" = 120 * Second :=
  (retryWait_spec exampleEnv Time.zero "120").1 120 (by decide) (by decide) (by decide)

/-! ## C7: Rate-limit retry -/

/-- C7 (rate-limit retry): if the server answers the first `k` attempts of a request
with 429 and attempt `k + 1` with a response `r` whose status is not 429, the executor
sends exactly `k + 1` copies of the request, sleeps after each 429, and returns `r`; so
`Get` succeeds with `k + 1` requests when `r` is a 200 response whose body decodes. -/
theorem retryRequest_rate_limit_retry (c : Client) (env : Env) (req : Request) (r : Response)
    (k : Nat) (resps : Nat → Response) (w : World) (fuel : Nat)
    (h429 : ∀ i, i < k → c.httpClient (w.requests ++ List.replicate (i + 1) req) =
      Except.ok (resps i) ∧ (resps i).StatusCode = 429)
    (hr : c.httpClient (w.requests ++ List.replicate (k + 1) req) = Except.ok r)
    (hne : r.StatusCode ≠ 429) (hfuel : k < fuel) :
    c.retryRequest env req fuel w =
      some (Except.ok r, ⟨w.requests ++ List.replicate (k + 1) req,
        w.sleeps ++ retrySleeps env resps w.requests.length k⟩) ∧
    (retrySleeps env resps w.requests.length k).length = k ∧
    ∀ (α : Type) (T : GetItem) (decode : String → Except String α) (query : String) (u : URL)
      (item : α), env.parseURL (c.baseURL ++ T.path query) = Except.ok u →
      req = ⟨u, "Bearer " ++ c.token⟩ → r.StatusCode = 200 → r.readErr = none →
      decode r.Body = Except.ok item →
      c.Get env T decode query fuel w =
        some (Except.ok item, ⟨w.requests ++ List.replicate (k + 1) req,
          w.sleeps ++ retrySleeps env resps w.requests.length k⟩) := by
  refine ⟨retryRequest_after_429s env c req r k resps w fuel h429 hr hne hfuel,
    retrySleeps_length env resps _ k, ?_⟩
  intro α T decode query u item hurl hreq hs hread hdec
  subst hreq
  have h := Get_after_429s c env T decode query u r k resps w fuel hurl h429 hr hne hfuel
  simp only [hs, ne_eq, not_true_eq_false, if_false, hread, hdec] at h
  exact h

/-- Witness for C7: one 429 with `Retry-After: 1`, then a 200; `Get` succeeds, two
requests are sent and one second is slept in between. -/
theorem retryRequest_rate_limit_retry_witness :
    (⟨"https://publicapi.blikk.com/", "token", rateLimitedServer⟩ : Client).Get exampleEnv User
        exampleDecodeItem "1" 2 ⟨[], []⟩ =
      some (Except.ok 1,
        ⟨[⟨⟨"https://publicapi.blikk.com/v1/Admin/Users/1", Values.empty⟩, "Bearer token"⟩,
          ⟨⟨"https://publicapi.blikk.com/v1/Admin/Users/1", Values.empty⟩, "Bearer token"⟩],
          [1000000000]⟩) :=
  (retryRequest_rate_limit_retry ⟨"https://publicapi.blikk.com/", "token", rateLimitedServer⟩
    exampleEnv ⟨⟨"https://publicapi.blikk.com/v1/Admin/Users/1", Values.empty⟩, "Bearer token"⟩
    ⟨200, "", "single", none⟩ 1 (fun _ => ⟨429, "1", "", none⟩) ⟨[], []⟩ 2
    (by intro i hi; obtain rfl : i = 0 := by omega
        exact ⟨rfl, rfl⟩)
    rfl (by decide) (by decide)).2.2 Nat User exampleDecodeItem "1"
    ⟨"https://publicapi.blikk.com/v1/Admin/Users/1", Values.empty⟩ 1 rfl rfl rfl rfl rfl

/-! ## C8: Status propagation -/

/-- C8 (status propagation): when the response that ends the retry loop has a status
`s` other than 200 (and 429) and body `b`, `doGetRequest` fails with the message
`unexpected status code <s>: <b>` without sending anything more, and so do `List` (on
any page) and `Get`; no result is returned.  The message contains the decimal status
code and the body; for 500 and `internal server error` it is
`unexpected status code 500: internal server error`. -/
theorem doGetRequest_status_propagation (c : Client) (env : Env) (u : URL) (r : Response)
    (k : Nat) (resps : Nat → Response) (w : World) (fuel : Nat)
    (h429 : ∀ i, i < k →
      c.httpClient (w.requests ++ List.replicate (i + 1) ⟨u, "Bearer " ++ c.token⟩) =
        Except.ok (resps i) ∧ (resps i).StatusCode = 429)
    (hr : c.httpClient (w.requests ++ List.replicate (k + 1) ⟨u, "Bearer " ++ c.token⟩) =
      Except.ok r)
    (h200 : r.StatusCode ≠ 200) (hne : r.StatusCode ≠ 429) (hfuel : k < fuel) :
    c.doGetRequest env u fuel w =
      some (Except.error ("unexpected status code " ++ fmtInt r.StatusCode ++ ": " ++ r.Body),
        ⟨w.requests ++ List.replicate (k + 1) ⟨u, "Bearer " ++ c.token⟩,
          w.sleeps ++ retrySleeps env resps w.requests.length k⟩) ∧
    (∀ (α : Type) (decode : String → Except String (ListResponse α)) (u0 : URL) (q : Values)
      (acc : List α), u = ⟨u0.rest, q⟩ →
      listLoop c env decode u0 fuel q acc w =
        some (Except.error ("unexpected status code " ++ fmtInt r.StatusCode ++ ": " ++ r.Body),
          ⟨w.requests ++ List.replicate (k + 1) ⟨u, "Bearer " ++ c.token⟩,
            w.sleeps ++ retrySleeps env resps w.requests.length k⟩)) ∧
    (∀ (α : Type) (T : ListItem) (decode : String → Except String (ListResponse α))
      (options : ListOptions) (u0 : URL), T.validFilter options = true →
      env.parseURL (c.baseURL ++ T.path) = Except.ok u0 →
      u = ⟨u0.rest, buildQuery u0.query options⟩ →
      c.List env T decode options fuel w =
        some (Except.error ("unexpected status code " ++ fmtInt r.StatusCode ++ ": " ++ r.Body),
          ⟨w.requests ++ List.replicate (k + 1) ⟨u, "Bearer " ++ c.token⟩,
            w.sleeps ++ retrySleeps env resps w.requests.length k⟩)) ∧
    (∀ (α : Type) (T : GetItem) (decode : String → Except String α) (query : String),
      env.parseURL (c.baseURL ++ T.path query) = Except.ok u →
      c.Get env T decode query fuel w =
        some (Except.error ("unexpected status code " ++ fmtInt r.StatusCode ++ ": " ++ r.Body),
          ⟨w.requests ++ List.replicate (k + 1) ⟨u, "Bearer " ++ c.token⟩,
            w.sleeps ++ retrySleeps env resps w.requests.length k⟩)) ∧
    (∃ before after, "unexpected status code " ++ fmtInt r.StatusCode ++ ": " ++ r.Body =
      before ++ fmtInt r.StatusCode ++ after) ∧
    (∃ before, "unexpected status code " ++ fmtInt r.StatusCode ++ ": " ++ r.Body =
      before ++ r.Body) ∧
    (r.StatusCode = 500 → r.Body = "internal server error" →
      "unexpected status code " ++ fmtInt r.StatusCode ++ ": " ++ r.Body =
        "unexpected status code 500: internal server error") := by
  refine ⟨?_, ?_, ?_, ?_, ?_, ?_, ?_⟩
  · have h := doGetRequest_after_429s c env u r k resps w fuel h429 hr hne hfuel
    simp only [h200, ne_eq, not_false_eq_true, if_true] at h
    exact h
  · intro α decode u0 q acc hu
    subst hu
    exact (listLoop_after_429s c env decode u0 q acc r k resps w fuel h429 hr hne hfuel).1 h200
  · intro α T decode options u0 hvalid hurl hu
    subst hu
    simp only [Client.List, hvalid, hurl, not_true_eq_false, if_false]
    exact (listLoop_after_429s c env decode u0 _ [] r k resps w fuel h429 hr hne hfuel).1 h200
  · intro α T decode query hurl
    have h := Get_after_429s c env T decode query u r k resps w fuel hurl h429 hr hne hfuel
    simp only [h200, ne_eq, not_false_eq_true, if_true] at h
    exact h
  · exact ⟨"unexpected status code ", ": " ++ r.Body, by simp [String.append_assoc]⟩
  · exact ⟨"unexpected status code " ++ fmtInt r.StatusCode ++ ": ", rfl⟩
  · intro hs hb
    rw [hs, hb]
    decide

/-- Witness for C8: a server that always answers 500 `internal server error`; `List`
fails with the status and the body in the message after a single request. -/
theorem doGetRequest_status_propagation_witness :
    (⟨"https://publicapi.blikk.com/", "token", failingServer⟩ : Client).List exampleEnv Users
        exampleDecode NewListOptions 1 ⟨[], []⟩ =
      some (Except.error "unexpected status code 500: internal server error",
        ⟨[⟨⟨"https://publicapi.blikk.com/v1/Admin/Users", buildQuery Values.empty NewListOptions⟩,
          "Bearer token"⟩], []⟩) :=
  (doGetRequest_status_propagation ⟨"https://publicapi.blikk.com/", "token", failingServer⟩
    exampleEnv ⟨"https://publicapi.blikk.com/v1/Admin/Users", buildQuery Values.empty NewListOptions⟩
    ⟨500, "", "internal server error", none⟩ 0 (fun _ => ⟨429, "", "", none⟩) ⟨[], []⟩ 1
    (by intro i hi; omega) rfl (by decide) (by decide) (by decide)).2.2.1 Nat Users exampleDecode
    NewListOptions ⟨"https://publicapi.blikk.com/v1/Admin/Users", Values.empty⟩ (by decide) rfl rfl

/-! ## C9: Malformed payload -/

/-- C9 (malformed payload): when the 200 response that ends the retry loop has a body
that fails to decode, `Get` fails with a message that starts with
`failed to unmarshal response`, and so does `List`, on whatever page it happens: the
items accumulated from earlier pages are not returned. -/
theorem malformed_payload_error (c : Client) (env : Env) (u : URL) (r : Response)
    (k : Nat) (resps : Nat → Response) (w : World) (fuel : Nat)
    (h429 : ∀ i, i < k →
      c.httpClient (w.requests ++ List.replicate (i + 1) ⟨u, "Bearer " ++ c.token⟩) =
        Except.ok (resps i) ∧ (resps i).StatusCode = 429)
    (hr : c.httpClient (w.requests ++ List.replicate (k + 1) ⟨u, "Bearer " ++ c.token⟩) =
      Except.ok r)
    (hs : r.StatusCode = 200) (hread : r.readErr = none) (hfuel : k < fuel) :
    (∀ (α : Type) (T : GetItem) (decode : String → Except String α) (query : String)
      (err : String), env.parseURL (c.baseURL ++ T.path query) = Except.ok u →
      decode r.Body = Except.error err →
      c.Get env T decode query fuel w =
        some (Except.error ("failed to unmarshal response: " ++ err),
          ⟨w.requests ++ List.replicate (k + 1) ⟨u, "Bearer " ++ c.token⟩,
            w.sleeps ++ retrySleeps env resps w.requests.length k⟩)) ∧
    (∀ (α : Type) (decode : String → Except String (ListResponse α)) (u0 : URL) (q : Values)
      (acc : List α) (err : String), u = ⟨u0.rest, q⟩ → decode r.Body = Except.error err →
      listLoop c env decode u0 fuel q acc w =
        some (Except.error ("failed to unmarshal response: " ++ err),
          ⟨w.requests ++ List.replicate (k + 1) ⟨u, "Bearer " ++ c.token⟩,
            w.sleeps ++ retrySleeps env resps w.requests.length k⟩)) ∧
    (∀ (α : Type) (T : ListItem) (decode : String → Except String (ListResponse α))
      (options : ListOptions) (u0 : URL) (err : String), T.validFilter options = true →
      env.parseURL (c.baseURL ++ T.path) = Except.ok u0 →
      u = ⟨u0.rest, buildQuery u0.query options⟩ → decode r.Body = Except.error err →
      c.List env T decode options fuel w =
        some (Except.error ("failed to unmarshal response: " ++ err),
          ⟨w.requests ++ List.replicate (k + 1) ⟨u, "Bearer " ++ c.token⟩,
            w.sleeps ++ retrySleeps env resps w.requests.length k⟩)) := by
  have hne : r.StatusCode ≠ 429 := by rw [hs]; decide
  refine ⟨?_, ?_, ?_⟩
  · intro α T decode query err hurl hdec
    have h := Get_after_429s c env T decode query u r k resps w fuel hurl h429 hr hne hfuel
    simp only [hs, ne_eq, not_true_eq_false, if_false, hread, hdec] at h
    exact h
  · intro α decode u0 q acc err hu hdec
    subst hu
    exact (listLoop_after_429s c env decode u0 q acc r k resps w fuel h429 hr hne hfuel).2
      err hs hread hdec
  · intro α T decode options u0 err hvalid hurl hu hdec
    subst hu
    simp only [Client.List, hvalid, hurl, not_true_eq_false, if_false]
    exact (listLoop_after_429s c env decode u0 _ [] r k resps w fuel h429 hr hne hfuel).2
      err hs hread hdec

/-- Witness for C9: `Get` against a server that sends a truncated body fails with the
decode error; and when the second page of a listing is truncated, the loop, entered for
page 2 with the item of page 1 accumulated, fails and returns no item. -/
theorem malformed_payload_error_witness :
    (⟨"https://publicapi.blikk.com/", "token", badJSONServer⟩ : Client).Get exampleEnv User
        exampleDecodeItem "1" 1 ⟨[], []⟩ =
      some (Except.error "failed to unmarshal response: unexpected end of JSON input",
        ⟨[⟨⟨"https://publicapi.blikk.com/v1/Admin/Users/1", Values.empty⟩, "Bearer token"⟩],
          []⟩) ∧
    listLoop ⟨"https://publicapi.blikk.com/", "token", truncatedSecondPageServer⟩ exampleEnv
        exampleDecode ⟨"https://publicapi.blikk.com/v1/Admin/Users", Values.empty⟩ 1
        ((buildQuery Values.empty NewListOptions).set "page" "2") [1]
        ⟨[⟨⟨"https://publicapi.blikk.com/v1/Admin/Users",
          buildQuery Values.empty NewListOptions⟩, "Bearer token"⟩], []⟩ =
      some (Except.error "failed to unmarshal response: unexpected end of JSON input",
        ⟨[⟨⟨"https://publicapi.blikk.com/v1/Admin/Users",
            buildQuery Values.empty NewListOptions⟩, "Bearer token"⟩,
          ⟨⟨"https://publicapi.blikk.com/v1/Admin/Users",
            (buildQuery Values.empty NewListOptions).set "page" "2"⟩, "Bearer token"⟩], []⟩) :=
  ⟨(malformed_payload_error ⟨"https://publicapi.blikk.com/", "token", badJSONServer⟩
      exampleEnv ⟨"https://publicapi.blikk.com/v1/Admin/Users/1", Values.empty⟩
      ⟨200, "", "truncated", none⟩ 0 (fun _ => ⟨429, "", "", none⟩) ⟨[], []⟩ 1
      (by intro i hi; omega) rfl rfl rfl (by decide)).1 Nat User exampleDecodeItem "1"
      "unexpected end of JSON input" rfl rfl,
    (malformed_payload_error ⟨"https://publicapi.blikk.com/", "token", truncatedSecondPageServer⟩
      exampleEnv ⟨"https://publicapi.blikk.com/v1/Admin/Users",
        (buildQuery Values.empty NewListOptions).set "page" "2"⟩
      ⟨200, "", "truncated", none⟩ 0 (fun _ => ⟨429, "", "", none⟩)
      ⟨[⟨⟨"https://publicapi.blikk.com/v1/Admin/Users",
        buildQuery Values.empty NewListOptions⟩, "Bearer token"⟩], []⟩ 1
      (by intro i hi; omega) rfl rfl rfl (by decide)).2.1 Nat exampleDecode
      ⟨"https://publicapi.blikk.com/v1/Admin/Users", Values.empty⟩
      ((buildQuery Values.empty NewListOptions).set "page" "2") [1]
      "unexpected end of JSON input" rfl rfl⟩

/-! ## C10: Date round trip -/

/-- C10, counterexample to the claim as stated: the first day of the year 10000 is
not zero; it is marshalled with a five-digit year, which `UnmarshalJSON` rejects. -/
theorem DateOnly_round_trip_counterexample :
    (dateUTC 10000 1 1).IsZero = false ∧
    (⟨dateUTC 10000 1 1⟩ : DateOnly).MarshalJSON = Except.ok "\"10000-01-01\"" ∧
    ∃ err, DateOnly.UnmarshalJSON "\"10000-01-01\"" = Except.error err :=
  ⟨by set_option maxRecDepth 20000 in decide, by set_option maxRecDepth 20000 in rfl, _, rfl⟩

/-- C10, as amended (date round trip): for every `DateOnly` that is not zero and whose
year lies in 0..9999, `MarshalJSON` gives the quoted `YYYY-MM-DD` rendering of its
calendar date, and `UnmarshalJSON` of that output succeeds with the same year, month and
day; a zero `DateOnly` is marshalled to `null`, and `UnmarshalJSON` of `null` succeeds
with the zero value. -/
theorem DateOnly_round_trip (d : DateOnly) :
    (d.toTime.IsZero = false → 0 ≤ d.toTime.Year → d.toTime.Year ≤ 9999 →
      d.MarshalJSON = Except.ok
        ("\"" ++ specYMD d.toTime.Year.toNat d.toTime.Month.toNat d.toTime.Day.toNat ++ "\"") ∧
      ∃ d2, DateOnly.UnmarshalJSON
          ("\"" ++ specYMD d.toTime.Year.toNat d.toTime.Month.toNat d.toTime.Day.toNat ++ "\"") =
          Except.ok d2 ∧
        d2.toTime.Year = d.toTime.Year ∧ d2.toTime.Month = d.toTime.Month ∧
        d2.toTime.Day = d.toTime.Day) ∧
    (d.toTime.IsZero = true → d.MarshalJSON = Except.ok "null") ∧
    DateOnly.UnmarshalJSON "null" = Except.ok ⟨Time.zero⟩ ∧ Time.zero.IsZero = true := by
  refine ⟨?_, ?_, ?_, ?_⟩
  · intro hz hy0 hy1
    have hr := Time.localDay_range d.toTime
    have hv := civilFromDays_valid d.toTime.localDay
    have h31 := daysIn_le (civilFromDays d.toTime.localDay).2.1 (civilFromDays d.toTime.localDay).1
    simp only [Time.Year, Time.Month, Time.Day, Time.Date] at hy0 hy1 ⊢
    generalize hc : civilFromDays d.toTime.localDay = cd at *
    obtain ⟨y, m, dd⟩ := cd
    simp only at hv h31 hy0 hy1 ⊢
    obtain ⟨yn, rfl⟩ := Int.eq_ofNat_of_zero_le hy0
    obtain ⟨mn, rfl⟩ := Int.eq_ofNat_of_zero_le (by omega : 0 ≤ m)
    obtain ⟨dn, rfl⟩ := Int.eq_ofNat_of_zero_le (by omega : 0 ≤ dd)
    simp only [Int.toNat_ofNat]
    refine ⟨?_, ⟨dateUTC yn mn dn⟩, ?_, ?_⟩
    · have hf := formatCivil_eq_specYMD yn mn dn (by omega) hy1 (by omega) (by omega)
        (by omega) (by omega)
      simp only [Int.toNat_ofNat] at hf
      simp only [DateOnly.MarshalJSON, hz, Time.FormatDateOnly, Time.Date, hc, hf]
      rfl
    · exact UnmarshalJSON_specYMD yn mn dn (by omega) (by omega) (by omega) (by omega) hv.2.2.2
    · have hD2 : civilFromDays (dateUTC yn mn dn).localDay = ((yn : Int), (mn : Int), (dn : Int)) :=
        dateUTC_Date d.toTime.localDay yn mn dn hc (by omega) (by omega) hr.1 hr.2
      simp only [hD2, and_self]
  · intro hz
    simp [DateOnly.MarshalJSON, hz]
  · rfl
  · rfl

/-- Witness for C10 as amended: 2 January 2024. -/
theorem DateOnly_round_trip_witness :
    (⟨dateUTC 2024 1 2⟩ : DateOnly).MarshalJSON = Except.ok "\"2024-01-02\"" ∧
    ∃ d2, DateOnly.UnmarshalJSON "\"2024-01-02\"" = Except.ok d2 ∧
      d2.toTime.Year = 2024 ∧ d2.toTime.Month = 1 ∧ d2.toTime.Day = 2 := by
  set_option maxRecDepth 20000 in
  exact (DateOnly_round_trip ⟨dateUTC 2024 1 2⟩).1 (by decide) (by decide) (by decide)

/-! ## C11: Users and Projects filters -/

/-- C11 (Users and Projects reject every filter): `Users.validFilter` and
`Projects.validFilter` accept the options exactly when `UserIDs` is empty and both dates
are unset, whatever `Page` and `PageSize` are; for any other options `List` of `Users`
or `Projects` fails without sending a request. -/
theorem Users_Projects_validFilter (o : ListOptions) :
    (Users.validFilter o = true ↔
      o.lenUserIDs = 0 ∧ o.FromDate = none ∧ o.ToDate = none) ∧
    (Projects.validFilter o = true ↔
      o.lenUserIDs = 0 ∧ o.FromDate = none ∧ o.ToDate = none) ∧
    (∀ page pageSize : Int,
      Users.validFilter ⟨page, pageSize, o.UserIDs, o.FromDate, o.ToDate⟩ =
        Users.validFilter o ∧
      Projects.validFilter ⟨page, pageSize, o.UserIDs, o.FromDate, o.ToDate⟩ =
        Projects.validFilter o) ∧
    (¬ (o.lenUserIDs = 0 ∧ o.FromDate = none ∧ o.ToDate = none) →
      ∀ (α : Type) (c : Client) (env : Env) (decode : String → Except String (ListResponse α))
        (fuel : Nat) (w : World),
        c.List env Users decode o fuel w =
          some (Except.error "invalid filter options for blikk.Users", w) ∧
        c.List env Projects decode o fuel w =
          some (Except.error "invalid filter options for blikk.Projects", w)) := by
  have hU : Users.validFilter o = true ↔
      o.lenUserIDs = 0 ∧ o.FromDate = none ∧ o.ToDate = none := by
    simp only [Users]
    cases o.FromDate <;> cases o.ToDate <;> simp
  have hP : Projects.validFilter o = true ↔
      o.lenUserIDs = 0 ∧ o.FromDate = none ∧ o.ToDate = none := by
    simp only [Projects]
    cases o.FromDate <;> cases o.ToDate <;> simp
  refine ⟨hU, hP, fun _ _ => ⟨rfl, rfl⟩, ?_⟩
  intro hn α c env decode fuel w
  have h1 : Users.validFilter o = false := by
    cases h : Users.validFilter o
    · rfl
    · exact absurd (hU.mp h) hn
  have h2 : Projects.validFilter o = false := by
    cases h : Projects.validFilter o
    · rfl
    · exact absurd (hP.mp h) hn
  constructor
  · show _ = some (Except.error ("invalid filter options for " ++ Users.typeName), w)
    simp [Client.List, h1]
  · show _ = some (Except.error ("invalid filter options for " ++ Projects.typeName), w)
    simp [Client.List, h2]

/-- Witness for C11: a date filter is rejected for `Projects`, and no request is
sent. -/
theorem Users_Projects_validFilter_witness :
    (⟨"https://publicapi.blikk.com/", "token", singlePageServer⟩ : Client).List exampleEnv
        Projects exampleDecode ⟨1, 100, none, some ⟨dateUTC 2024 1 2⟩, none⟩ 3 ⟨[], []⟩ =
      some (Except.error "invalid filter options for blikk.Projects", ⟨[], []⟩) :=
  ((Users_Projects_validFilter ⟨1, 100, none, some ⟨dateUTC 2024 1 2⟩, none⟩).2.2.2
    (by simp) Nat ⟨"https://publicapi.blikk.com/", "token", singlePageServer⟩ exampleEnv
    exampleDecode 3 ⟨[], []⟩).2

/-! ## C12: UserDayStatistics date range -/

/-- C12 (UserDayStatistics date range): when both dates are set,
`UserDayStatistics.validFilter` accepts the options exactly when `FromDate` is not
after `ToDate` and `ToDate - FromDate` is at most 31 days (31 * 24 hours); a range of
32 days or more and every inverted range are rejected; when either date is unset the
options are accepted. -/
theorem UserDayStatistics_validFilter (o : ListOptions) :
    (∀ f t : DateOnly, o.FromDate = some f → o.ToDate = some t →
      (UserDayStatistics.validFilter o = true ↔
        f.toTime.After t.toTime = false ∧ t.toTime.diffNs f.toTime ≤ 31 * 24 * Hour) ∧
      (32 * 24 * Hour ≤ t.toTime.diffNs f.toTime → UserDayStatistics.validFilter o = false) ∧
      (f.toTime.After t.toTime = true → UserDayStatistics.validFilter o = false) ∧
      (f.toTime.nsec < 1000000000 → t.toTime.nsec < 1000000000 →
        (f.toTime.After t.toTime = false ↔ 0 ≤ t.toTime.diffNs f.toTime))) ∧
    (o.FromDate = none ∨ o.ToDate = none → UserDayStatistics.validFilter o = true) := by
  constructor
  · intro f t hf ht
    have hsub : t.toTime.Sub f.toTime > 31 * 24 * Hour ↔
        t.toTime.diffNs f.toTime > 31 * 24 * Hour := by
      simp only [Time.Sub, Time.diffNs, minDuration, maxDuration, Hour, Second]
      split_ifs <;> omega
    have hv : UserDayStatistics.validFilter o =
        (if f.toTime.After t.toTime then false
          else if t.toTime.Sub f.toTime > 31 * 24 * Hour then false else true) := by
      simp only [UserDayStatistics, hf, ht]
    refine ⟨?_, ?_, ?_, ?_⟩
    · rw [hv]
      cases hA : f.toTime.After t.toTime
      · by_cases hS : t.toTime.Sub f.toTime > 31 * 24 * Hour
        · have := hsub.mp hS
          simp [hS]
          omega
        · have := mt hsub.mpr hS
          simp [hS]
          omega
      · simp
    · intro h32
      rw [hv]
      have hS : t.toTime.Sub f.toTime > 31 * 24 * Hour :=
        hsub.mpr (by simp only [Hour, Second] at h32 ⊢; omega)
      by_cases hA : f.toTime.After t.toTime = true
      · rw [if_pos hA]
      · rw [if_neg hA, if_pos hS]
    · intro hA
      rw [hv]
      simp [hA]
    · intro hfn htn
      simp only [Time.After, Time.diffNs, decide_eq_false_iff_not]
      constructor
      · intro h
        omega
      · intro h
        omega
  · intro h
    simp only [UserDayStatistics]
    rcases h with h | h
    · rw [h]
    · rw [h]
      cases o.FromDate <;> rfl

/-- Witness for C12: 1 January to 1 February 2024 (31 days) is accepted, 1 January to
2 February 2024 (32 days) is rejected. -/
theorem UserDayStatistics_validFilter_witness :
    UserDayStatistics.validFilter
        ⟨1, 100, none, some ⟨dateUTC 2024 1 1⟩, some ⟨dateUTC 2024 2 1⟩⟩ = true ∧
    UserDayStatistics.validFilter
        ⟨1, 100, none, some ⟨dateUTC 2024 1 1⟩, some ⟨dateUTC 2024 2 2⟩⟩ = false :=
  ⟨((UserDayStatistics_validFilter
      ⟨1, 100, none, some ⟨dateUTC 2024 1 1⟩, some ⟨dateUTC 2024 2 1⟩⟩).1
      ⟨dateUTC 2024 1 1⟩ ⟨dateUTC 2024 2 1⟩ rfl rfl).1.mpr ⟨by set_option maxRecDepth 20000 in decide, by set_option maxRecDepth 20000 in decide⟩,
    ((UserDayStatistics_validFilter
      ⟨1, 100, none, some ⟨dateUTC 2024 1 1⟩, some ⟨dateUTC 2024 2 2⟩⟩).1
      ⟨dateUTC 2024 1 1⟩ ⟨dateUTC 2024 2 2⟩ rfl rfl).2.1 (by set_option maxRecDepth 20000 in decide)⟩

/-! ## C13: PreviousWeek -/

/-- C13 (PreviousWeek), the source run at 1916-05-16 21:30:00 UTC, which is Tuesday
1916-05-16 23:30:00 in `Europe/Stockholm`.  The Monday of that week, 1916-05-15 23:30,
and the Monday before, 1916-05-08 23:30, exist; six days after the latter the wall
clock time 1916-05-14 23:30 does not exist (summer time began that Sunday at 23:00),
and `time.Date` gives 1916-05-15 00:30.  The dates returned are 1916-05-08 and
1916-05-15: the second is a Monday, seven days after the first. -/
theorem PreviousWeek_summer_1916 :
    ((timeDate 1916 5 16 21 30 0 0 UTC).In stockholm).Date = (1916, 5, 16) ∧
    ((timeDate 1916 5 16 21 30 0 0 UTC).In stockholm).secondOfDay = 23 * 3600 + 30 * 60 ∧
    ((timeDate 1916 5 16 21 30 0 0 UTC).In stockholm).Weekday = 2 ∧
    (((timeDate 1916 5 16 21 30 0 0 UTC).In stockholm).AddDate 0 0 (-1)).Date = (1916, 5, 15) ∧
    ((((timeDate 1916 5 16 21 30 0 0 UTC).In stockholm).AddDate 0 0 (-1)).AddDate 0 0 (-7)).Date =
      (1916, 5, 8) ∧
    (((((timeDate 1916 5 16 21 30 0 0 UTC).In stockholm).AddDate 0 0 (-1)).AddDate 0 0
      (-7)).AddDate 0 0 6).Date = (1916, 5, 15) ∧
    (((((timeDate 1916 5 16 21 30 0 0 UTC).In stockholm).AddDate 0 0 (-1)).AddDate 0 0
      (-7)).AddDate 0 0 6).secondOfDay = 30 * 60 ∧
    (PreviousWeek stockholm (timeDate 1916 5 16 21 30 0 0 UTC)).1.toTime.Date = (1916, 5, 8) ∧
    (PreviousWeek stockholm (timeDate 1916 5 16 21 30 0 0 UTC)).1.toTime.Weekday = 1 ∧
    (PreviousWeek stockholm (timeDate 1916 5 16 21 30 0 0 UTC)).2.toTime.Date = (1916, 5, 15) ∧
    (PreviousWeek stockholm (timeDate 1916 5 16 21 30 0 0 UTC)).2.toTime.Weekday = 1 ∧
    (PreviousWeek stockholm (timeDate 1916 5 16 21 30 0 0 UTC)).2.toTime.localDay =
      (PreviousWeek stockholm (timeDate 1916 5 16 21 30 0 0 UTC)).1.toTime.localDay + 7 := by
  set_option maxRecDepth 100000 in
  decide

/-! ## C14: PreviousMonth -/

/-- C14, counterexample to the claim as stated: the instant 11 March of the year
-292277022400, 00:00 UTC, lies in the first month that a `time.Time` can show (its
count of seconds starts on 1 March of that year).  In `Europe/Stockholm` its date is
11 March; the day before 1 March is before the start of the count, which wraps
around: `PreviousMonth` returns 1 January and 6 January of the year 292277026854, and
the day after the latter is 7 January, not day 1 of the month of the instant. -/
theorem PreviousMonth_counterexample :
    ((timeDate (-292277022400) 3 11 0 0 0 0 UTC).In stockholm).Date = (-292277022400, 3, 11) ∧
    (PreviousMonth stockholm (timeDate (-292277022400) 3 11 0 0 0 0 UTC)).1.toTime.Date =
      (292277026854, 1, 1) ∧
    (PreviousMonth stockholm (timeDate (-292277022400) 3 11 0 0 0 0 UTC)).2.toTime.Date =
      (292277026854, 1, 6) ∧
    civilFromDays
        ((PreviousMonth stockholm (timeDate (-292277022400) 3 11 0 0 0 0 UTC)).2.toTime.localDay
          + 1) = (292277026854, 1, 7) ∧
    (PreviousMonth stockholm (timeDate (-292277022400) 3 11 0 0 0 0 UTC)).2.toTime.secondOfDay =
      7 * 3600 + 16 := by
  set_option maxRecDepth 100000 in
  decide

/-- C14 (PreviousMonth), amended: for every instant `t` whose wall clock in the zone
`loc` reads 1 April of the year -292277022400, 00:00:00, or later, and stays a day
below the end of the 64-bit count of seconds (5 December of the year 292277024627,
15:30:07), in a zone `loc` whose offsets are less than a day and in which every
midnight exists on the wall clock (as in `Europe/Stockholm`, `stockholm_midnight`),
`PreviousMonth loc t` returns `(from, to)` whose dates in `loc` are: `from` is day 1
and `to` lies in the same year and month; that month is the one before the month of
`t` (December of the year before when `t` is in January); `to` is the last day of
that month and the day after `to` is day 1 of the month of `t`; `t` in January gives
1 to 31 December of the year before, `t` in March 2024 gives 2024-02-01 to
2024-02-29; both are at midnight. -/
theorem PreviousMonth_spec (loc : Location) (t : Time)
    (hoff : ∀ s : Int, -86400 ≤ loc.offsetAt s ∧ loc.offsetAt s ≤ 86400)
    (hmid : ∀ D : Int,
      loc.offsetAt (D * 86400 - loc.offsetAt (D * 86400 - loc.offsetAt (D * 86400))) =
        loc.offsetAt (D * 86400 - loc.offsetAt (D * 86400)))
    (hlo : 31 * 86400 ≤ t.sec + loc.offsetAt t.sec + internalToAbsolute)
    (hhi : t.sec + loc.offsetAt t.sec + 86400 < 2 ^ 63) :
    (PreviousMonth loc t).1.toTime.Day = 1 ∧
    (PreviousMonth loc t).1.toTime.Year = (PreviousMonth loc t).2.toTime.Year ∧
    (PreviousMonth loc t).1.toTime.Month = (PreviousMonth loc t).2.toTime.Month ∧
    (PreviousMonth loc t).2.toTime.Year =
      (if (t.In loc).Month = 1 then (t.In loc).Year - 1 else (t.In loc).Year) ∧
    (PreviousMonth loc t).2.toTime.Month =
      (if (t.In loc).Month = 1 then 12 else (t.In loc).Month - 1) ∧
    (PreviousMonth loc t).2.toTime.Day =
      daysIn (PreviousMonth loc t).2.toTime.Month (PreviousMonth loc t).2.toTime.Year ∧
    civilFromDays ((PreviousMonth loc t).2.toTime.localDay + 1) =
      ((t.In loc).Year, (t.In loc).Month, 1) ∧
    ((t.In loc).Month = 1 →
      (PreviousMonth loc t).1.toTime.Date = ((t.In loc).Year - 1, 12, 1) ∧
      (PreviousMonth loc t).2.toTime.Date = ((t.In loc).Year - 1, 12, 31)) ∧
    ((t.In loc).Year = 2024 → (t.In loc).Month = 3 →
      (PreviousMonth loc t).1.toTime.Date = (2024, 2, 1) ∧
      (PreviousMonth loc t).2.toTime.Date = (2024, 2, 29)) ∧
    (PreviousMonth loc t).1.toTime.secondOfDay = 0 ∧
    (PreviousMonth loc t).2.toTime.secondOfDay = 0 := by
  obtain ⟨hl, h2, h1, hs1, hs2⟩ := PreviousMonth_days loc t hoff hmid hlo hhi
  have hv := civilFromDays_valid (t.In loc).localDay
  have hm0 : 1 ≤ (t.In loc).Month := hv.1
  have hm1 : (t.In loc).Month ≤ 12 := hv.2.1
  refine ⟨?_, ?_, ?_, ?_, ?_, ?_, ?_, ?_, ?_, hs1, hs2⟩
  · simp only [Time.Day, h1]
  · simp only [Time.Year, h1, h2]
  · simp only [Time.Month, h1, h2]
  · simp only [Time.Year, h2]
  · simp only [Time.Month, h2]
  · simp only [Time.Day, Time.Month, Time.Year, h2]
  · rw [hl, sub_add_cancel]
    exact civilFromDays_daysFromCivil _ _ 1 hm0 hm1 (by decide)
      (by have := daysIn_ge (t.In loc).Month (t.In loc).Year; omega)
  · intro hj
    rw [h1, h2]
    simp only [hj, if_true]
    exact ⟨trivial, by simp [daysIn]⟩
  · intro hy hm
    rw [h1, h2]
    simp only [hy, hm]
    exact ⟨by decide, by decide⟩

/-- Witness for C14 in `Europe/Stockholm`: midnight of 2024-03-01 (a leap year) and of
2024-01-10 (a year boundary) in Stockholm, and 2024-02-29 23:30 UTC, which is already
1 March in Stockholm. -/
theorem PreviousMonth_spec_witness :
    ((PreviousMonth stockholm (timeDate 2024 3 1 0 0 0 0 stockholm)).1.toTime.Date = (2024, 2, 1) ∧
      (PreviousMonth stockholm (timeDate 2024 3 1 0 0 0 0 stockholm)).2.toTime.Date = (2024, 2, 29)) ∧
    ((PreviousMonth stockholm (timeDate 2024 1 10 0 0 0 0 stockholm)).1.toTime.Date = (2023, 12, 1) ∧
      (PreviousMonth stockholm (timeDate 2024 1 10 0 0 0 0 stockholm)).2.toTime.Date =
        (2023, 12, 31)) ∧
    civilFromDays ((PreviousMonth stockholm (timeDate 2024 2 29 23 30 0 0 UTC)).2.toTime.localDay
      + 1) = (2024, 3, 1) := by
  set_option maxRecDepth 100000 in
  exact ⟨(PreviousMonth_spec stockholm (timeDate 2024 3 1 0 0 0 0 stockholm)
      stockholm_offset_range stockholm_midnight (by decide) (by decide)).2.2.2.2.2.2.2.2.1
        (by decide) (by decide),
    (PreviousMonth_spec stockholm (timeDate 2024 1 10 0 0 0 0 stockholm)
      stockholm_offset_range stockholm_midnight (by decide) (by decide)).2.2.2.2.2.2.2.1
        (by decide),
    (PreviousMonth_spec stockholm (timeDate 2024 2 29 23 30 0 0 UTC)
      stockholm_offset_range stockholm_midnight (by decide) (by decide)).2.2.2.2.2.2.1⟩

/-! ## C15: Month boundaries -/

/-- C15, counterexample to the claim as stated: the seconds of 1 February of the year
292277026854 do not fit the 64-bit counts of `time.Time`; `FirstDayOfMonth` returns a
time whose date is 25 March of the year -292277022400 (at 16:59:44), and
`LastDayOfMonth` one whose date is 21 April of that year. -/
theorem month_boundaries_counterexample :
    (FirstDayOfMonth 292277026854 2).toTime.Date = (-292277022400, 3, 25) ∧
    (FirstDayOfMonth 292277026854 2).toTime.secondOfDay = 16 * 3600 + 59 * 60 + 44 ∧
    (FirstDayOfMonth 292277026854 2).toTime.sec = -9223371966604028416 ∧
    (LastDayOfMonth 292277026854 2).toTime.Date = (-292277022400, 4, 21) := by
  set_option maxRecDepth 20000 in
  decide

/-- C15 (month boundaries), amended: for every month `m` in 1..12 of a year `y` from
March of the year -292277022400 to December of the year 292277026853 (the months of
which `time.Time` can show every day and the first day of the month after),
`FirstDayOfMonth y m` is day 1 of month `m` of year `y`; `LastDayOfMonth y m` has year
`y`, month `m` and the day number of the Gregorian rule (31, 30, and for February 29
exactly in a leap year, else 28); and the day after it is `FirstDayOfMonth` of the
following month (January of `y + 1` after December): one day added with `AddDate` gives
that time, and the day numbers differ by one.  Both are at midnight. -/
theorem month_boundaries (y m : Int) (hm0 : 1 ≤ m) (hm1 : m ≤ 12)
    (hy0 : -292277022400 < y ∨ (y = -292277022400 ∧ 3 ≤ m)) (hy1 : y ≤ 292277026853) :
    (FirstDayOfMonth y m).toTime.Date = (y, m, 1) ∧
    (LastDayOfMonth y m).toTime.Year = y ∧ (LastDayOfMonth y m).toTime.Month = m ∧
    (LastDayOfMonth y m).toTime.Day =
      (if m = 2 then (if y % 4 = 0 ∧ (y % 100 ≠ 0 ∨ y % 400 = 0) then 29 else 28)
        else if m = 4 ∨ m = 6 ∨ m = 9 ∨ m = 11 then 30 else 31) ∧
    (LastDayOfMonth y m).toTime.localDay + 1 =
      (FirstDayOfMonth (if m = 12 then y + 1 else y)
        (if m = 12 then 1 else m + 1)).toTime.localDay ∧
    (LastDayOfMonth y m).toTime.AddDate 0 0 1 =
      (FirstDayOfMonth (if m = 12 then y + 1 else y) (if m = 12 then 1 else m + 1)).toTime ∧
    (FirstDayOfMonth (if m = 12 then y + 1 else y) (if m = 12 then 1 else m + 1)).toTime.Date =
      (if m = 12 then y + 1 else y, if m = 12 then 1 else m + 1, 1) ∧
    (FirstDayOfMonth y m).toTime.secondOfDay = 0 ∧
    (LastDayOfMonth y m).toTime.secondOfDay = 0 := by
  have hg := daysIn_ge m y
  have hl := daysIn_le_31 m y
  obtain ⟨hn0, hn1, hny0, hny1⟩ := next_month_range y m hm0 hm1 hy0 hy1
  have hnext := daysFromCivil_next_month y m hm0 hm1
  -- the first day of the month
  obtain ⟨f1, f2, _⟩ := timeDate_UTC_day y m 1 hm0 hm1 hy0 (by omega)
    (by have := daysFromCivil_ge_absoluteZero y m 1 hm0 hm1 hy0; omega)
    (daysFromCivil_le_max y m 1 hm0 hm1 hy1 (by omega))
  have hF : (FirstDayOfMonth y m).toTime.Date = (y, m, 1) := by
    simp only [FirstDayOfMonth, Time.Date, f1]
    exact civilFromDays_daysFromCivil y m 1 hm0 hm1 (by decide) (by omega)
  -- the first day of the next month
  have hb0 := daysFromCivil_ge_absoluteZero y m (daysIn m y) hm0 hm1 hy0
  have hb1 := daysFromCivil_le_max y m (daysIn m y) hm0 hm1 hy1 (by omega)
  have hz := daysFromCivil_add (if m = 12 then y + 1 else y) (if m = 12 then 1 else m + 1) 1 (-1)
  have hz0 : daysFromCivil (if m = 12 then y + 1 else y) (if m = 12 then 1 else m + 1) 0 =
      daysFromCivil y m (daysIn m y) := by
    have e : (1 : Int) + -1 = 0 := by norm_num
    rw [e] at hz
    omega
  obtain ⟨n1, n2, _⟩ := timeDate_UTC_day (if m = 12 then y + 1 else y)
    (if m = 12 then 1 else m + 1) 1 hn0 hn1 hny0 hny1 (by omega)
    (by have := daysFromCivil_le_max y m (daysIn m y + 1) hm0 hm1 hy1 (by omega)
        have := daysFromCivil_add y m (daysIn m y) 1
        omega)
  have hN : (FirstDayOfMonth (if m = 12 then y + 1 else y)
      (if m = 12 then 1 else m + 1)).toTime.Date =
      (if m = 12 then y + 1 else y, if m = 12 then 1 else m + 1, 1) := by
    simp only [FirstDayOfMonth, Time.Date, n1]
    exact civilFromDays_daysFromCivil _ _ 1 hn0 hn1 (by decide)
      (by have := daysIn_ge (if m = 12 then 1 else m + 1) (if m = 12 then y + 1 else y); omega)
  -- the last day of the month
  have hLe : (LastDayOfMonth y m).toTime =
      timeDate (if m = 12 then y + 1 else y) (if m = 12 then 1 else m + 1) 0 0 0 0 0 UTC := by
    simp only [LastDayOfMonth]
    exact timeDate_month_succ y m 0 0 0 0 0 UTC hm0 hm1
  obtain ⟨l1, l2, _⟩ := timeDate_UTC_day (if m = 12 then y + 1 else y)
    (if m = 12 then 1 else m + 1) 0 hn0 hn1 hny0 hny1 (by omega) (by omega)
  rw [← hLe, hz0] at l1
  rw [← hLe] at l2
  have hL : (LastDayOfMonth y m).toTime.Date = (y, m, daysIn m y) := by
    simp only [Time.Date, l1]
    exact civilFromDays_daysFromCivil y m _ hm0 hm1 (by omega) (le_refl _)
  refine ⟨hF, ?_, ?_, ?_, ?_, ?_, hN, f2, l2⟩
  · simp only [Time.Year, hL]
  · simp only [Time.Month, hL]
  · simp only [Time.Day, hL, daysIn, isLeap, decide_eq_true_eq]
  · rw [l1]
    simp only [FirstDayOfMonth, n1]
    exact hnext
  · have hns : (LastDayOfMonth y m).toTime.nsec = 0 := rfl
    have hlc : (LastDayOfMonth y m).toTime.loc = UTC := rfl
    have hA : dateToAbsDays y m (daysIn m y + 1) =
        dateToAbsDays (if m = 12 then y + 1 else y) (if m = 12 then 1 else m + 1) 1 := by
      rw [dateToAbsDays_of_range y m _ hm0 hm1 hy0 (by omega),
        dateToAbsDays_of_range _ _ _ hn0 hn1 hny0 hny1, daysFromCivil_add, hnext]
    have e1 : (m - 1) / 12 = 0 := by omega
    have e2 : (m - 1) % 12 + 1 = m := by omega
    have e3 : ((if m = 12 then 1 else m + 1) - 1) / 12 = 0 := by split_ifs <;> omega
    have e4 : ((if m = 12 then 1 else m + 1) - 1) % 12 + 1 = (if m = 12 then 1 else m + 1) := by
      split_ifs <;> omega
    simp only [Time.AddDate, Time.Year, Time.Month, Time.Day, hL, l2, hns, hlc, FirstDayOfMonth,
      timeDate, add_zero, e1, e2, e3, e4, hA]
    norm_num

/-- Witness for C15 as amended: February 2024, February 2023, December 2024, and the
first and the last month of the range. -/
theorem month_boundaries_witness :
    (FirstDayOfMonth 2024 2).toTime.Date = (2024, 2, 1) ∧
    (LastDayOfMonth 2024 2).toTime.Day = 29 ∧ (LastDayOfMonth 2023 2).toTime.Day = 28 ∧
    (LastDayOfMonth 2024 12).toTime.Day = 31 ∧
    (LastDayOfMonth 2024 12).toTime.localDay + 1 = (FirstDayOfMonth 2025 1).toTime.localDay ∧
    (FirstDayOfMonth (-292277022400) 3).toTime.Date = (-292277022400, 3, 1) ∧
    (LastDayOfMonth 292277026853 12).toTime.Day = 31 := by
  set_option maxRecDepth 100000 in
  exact ⟨(month_boundaries 2024 2 (by decide) (by decide) (by decide) (by decide)).1,
    (month_boundaries 2024 2 (by decide) (by decide) (by decide) (by decide)).2.2.2.1,
    (month_boundaries 2023 2 (by decide) (by decide) (by decide) (by decide)).2.2.2.1,
    (month_boundaries 2024 12 (by decide) (by decide) (by decide) (by decide)).2.2.2.1,
    (month_boundaries 2024 12 (by decide) (by decide) (by decide) (by decide)).2.2.2.2.1,
    (month_boundaries (-292277022400) 3 (by decide) (by decide) (by decide) (by decide)).1,
    (month_boundaries 292277026853 12 (by decide) (by decide) (by decide)
      (by decide)).2.2.2.1⟩

/-! ## C16: Page override frame -/

/-- C16, counterexample to the claim as stated: `rateLimitedTwoPageServer` answers the
first attempt with 429 and then serves two pages.  The run of `List` sends three
requests; the second is the first sent again and carries `page=1`, while the response
before it is the 429, whose body is not an envelope, so there is no page of the
previous response of which it is the successor. -/
theorem List_page_override_counterexample :
    (⟨"https://publicapi.blikk.com/", "token", rateLimitedTwoPageServer⟩ : Client).List
        exampleEnv Users exampleDecode NewListOptions 3 ⟨[], []⟩ =
      some (Except.ok [1, 2],
        ⟨[⟨⟨"https://publicapi.blikk.com/v1/Admin/Users",
            buildQuery Values.empty NewListOptions⟩, "Bearer token"⟩,
          ⟨⟨"https://publicapi.blikk.com/v1/Admin/Users",
            buildQuery Values.empty NewListOptions⟩, "Bearer token"⟩,
          ⟨⟨"https://publicapi.blikk.com/v1/Admin/Users",
            (buildQuery Values.empty NewListOptions).set "page" "2"⟩, "Bearer token"⟩],
          [1000000000]⟩) ∧
    buildQuery Values.empty NewListOptions "page" = some ["1"] ∧
    rateLimitedTwoPageServer
        [⟨⟨"https://publicapi.blikk.com/v1/Admin/Users",
          buildQuery Values.empty NewListOptions⟩, "Bearer token"⟩] =
      Except.ok ⟨429, "1", "", none⟩ ∧
    (∀ e, exampleDecode "" ≠ Except.ok e) := by
  refine ⟨rfl, rfl, rfl, ?_⟩
  intro e h
  simp [exampleDecode] at h

/-- C16 (page override frame), amended: in every run of `List` with accepted options
and a base URL that parses, the requests sent are a first request, carrying the query
built from the options, and after it requests each of which is either the previous
request sent again, when that was answered with 429, or the previous request with the
parameter `page` overwritten by `e.Page + 1`, when that was answered with 200 and an
envelope `e` that is not the last page (`RequestChain`); every request has the path
and the authorization header of the first, and every query parameter other than
`page` has the same value as in the first request. -/
theorem List_page_override {α : Type} (c : Client) (env : Env) (T : ListItem)
    (decode : String → Except String (ListResponse α)) (options : ListOptions) (u : URL)
    (fuel : Nat) (w w1 : World) (res : Except String (List α))
    (hvalid : T.validFilter options = true)
    (hurl : env.parseURL (c.baseURL ++ T.path) = Except.ok u)
    (hrun : c.List env T decode options fuel w = some (res, w1)) :
    ∃ rest, w1.requests = w.requests ++
        (⟨⟨u.rest, buildQuery u.query options⟩, "Bearer " ++ c.token⟩ : Request) :: rest ∧
      RequestChain c decode w.requests
        ((⟨⟨u.rest, buildQuery u.query options⟩, "Bearer " ++ c.token⟩ : Request) :: rest) ∧
      ∀ r, r ∈ (⟨⟨u.rest, buildQuery u.query options⟩, "Bearer " ++ c.token⟩ : Request) :: rest →
        r.url.rest = u.rest ∧ r.authorization = "Bearer " ++ c.token ∧
        ∀ key, key ≠ "page" → r.url.query key = buildQuery u.query options key := by
  simp only [Client.List, hvalid, hurl, not_true_eq_false, if_false] at hrun
  exact listLoop_trace c env decode u fuel _ _ w w1 res hrun

/-- Witness for C16: the run of the counterexample, a 429 and then two pages. -/
theorem List_page_override_witness :
    ∃ rest, ([⟨⟨"https://publicapi.blikk.com/v1/Admin/Users",
            buildQuery Values.empty NewListOptions⟩, "Bearer token"⟩,
          ⟨⟨"https://publicapi.blikk.com/v1/Admin/Users",
            buildQuery Values.empty NewListOptions⟩, "Bearer token"⟩,
          ⟨⟨"https://publicapi.blikk.com/v1/Admin/Users",
            (buildQuery Values.empty NewListOptions).set "page" "2"⟩, "Bearer token"⟩] :
          List Request) =
        [] ++ (⟨⟨"https://publicapi.blikk.com/v1/Admin/Users",
          buildQuery Values.empty NewListOptions⟩, "Bearer token"⟩ : Request) :: rest ∧
      RequestChain (⟨"https://publicapi.blikk.com/", "token", rateLimitedTwoPageServer⟩ : Client)
        exampleDecode []
        ((⟨⟨"https://publicapi.blikk.com/v1/Admin/Users",
          buildQuery Values.empty NewListOptions⟩, "Bearer token"⟩ : Request) :: rest) ∧
      ∀ r, r ∈ (⟨⟨"https://publicapi.blikk.com/v1/Admin/Users",
          buildQuery Values.empty NewListOptions⟩, "Bearer token"⟩ : Request) :: rest →
        r.url.rest = "https://publicapi.blikk.com/v1/Admin/Users" ∧
        r.authorization = "Bearer token" ∧
        ∀ key, key ≠ "page" → r.url.query key = buildQuery Values.empty NewListOptions key :=
  List_page_override ⟨"https://publicapi.blikk.com/", "token", rateLimitedTwoPageServer⟩
    exampleEnv Users exampleDecode NewListOptions
    ⟨"https://publicapi.blikk.com/v1/Admin/Users", Values.empty⟩ 3 ⟨[], []⟩
    ⟨[⟨⟨"https://publicapi.blikk.com/v1/Admin/Users",
        buildQuery Values.empty NewListOptions⟩, "Bearer token"⟩,
      ⟨⟨"https://publicapi.blikk.com/v1/Admin/Users",
        buildQuery Values.empty NewListOptions⟩, "Bearer token"⟩,
      ⟨⟨"https://publicapi.blikk.com/v1/Admin/Users",
        (buildQuery Values.empty NewListOptions).set "page" "2"⟩, "Bearer token"⟩],
      [1000000000]⟩
    (Except.ok [1, 2]) (by decide) rfl rfl

end Blikk
